import Mathlib

/-!
# Transit: slot bank, slot selection and crossfade engine

A shallow embedding of `TransitModule<NUM_PRESETS>` of `src/Transit.cpp`.

* The mutable fields of the C++ object become the fields of `TransitModule`;
  every member function becomes a function from the old object to the new one.
* `NUM_PRESETS` is a template parameter: it is the argument `N` of the
  functions that use it, and the two slot arrays are lists of length `N`.
* An array access outside `[0, N)` is undefined behaviour in C++; a function
  that can perform one returns `Option`, with `none` for such an access.
* `float` values are idealised as exact rationals (`Value`); `int` is `Int`.
* The host engine is a collaborator: what the module reads from it is the
  argument `eng`, what it writes to it is returned as a log.

Two smaller parts follow the same conventions: the stored settings of
`MidiMonModule` (`src/MidiMon.cpp`) and `updateMapLen` of
`MapModule<MAX_CHANNELS>` (`src/MapModule.hpp`).
-/

namespace Transit

/-- A C++ `float`, idealised as an exact rational number. -/
abbrev Value := ℚ

/-! ## Enumerations (kept as their ordinals: `dataFromJson` casts any integer) -/

namespace SLOTCVMODE

def TRIG_FWD : Int := 2

def TRIG_REV : Int := 4

def TRIG_PINGPONG : Int := 5

def TRIG_RANDOM : Int := 6

def VOLT : Int := 0

def C4 : Int := 1

def ARM : Int := 3

end SLOTCVMODE

namespace OUTMODE

def ENV : Int := 0

def GATE : Int := 1

def EOC : Int := 2

end OUTMODE

/-! ## Host side: parameters, modules, handles -/

/-- A host parameter, seen through `getValue()`. -/
structure ParamQuantity where
  value : Value
deriving DecidableEq, Repr

/-- A host module, seen through its vector `paramQuantities`
(`none` is a null entry). -/
structure Module where
  paramQuantities : List (Option ParamQuantity)
deriving DecidableEq, Repr

/-- The host engine as the module reads it: `getModule id` is
`APP->engine->getModule(id)`, `none` for a null pointer. -/
structure Engine where
  getModule : Int → Option Module

/-- A `ParamHandle`: the identifiers of the target. Its `module` pointer is
kept by the host and is `eng.getModule moduleId`. -/
structure ParamHandle where
  moduleId : Int
  paramId : Int
deriving DecidableEq, Repr

/-- The handle as the host leaves it after
`updateParamHandle(handle, moduleId, paramId, overwrite)`: it carries the two
identifiers (the host's resolution of two handles claiming one parameter is
outside this model). -/
def Engine.updateParamHandle (_eng : Engine) (moduleId paramId : Int)
    (_overwrite : Bool) : ParamHandle :=
  { moduleId := moduleId, paramId := paramId }

/-- `TransitModule::getParamQuantity`. -/
def getParamQuantity (eng : Engine) (handle : ParamHandle) : Option ParamQuantity :=
  if handle.moduleId < 0 then none
  else
    match eng.getModule handle.moduleId with
    | none => none
    | some module =>
      if handle.paramId < 0 then none
      else
        match module.paramQuantities[handle.paramId.toNat]? with
        | some (some paramQuantity) => some paramQuantity
        | _ => none

/-! ## DSP helpers -/

/-- Rack `dsp::PulseGenerator`. -/
structure PulseGenerator where
  remaining : Value
deriving DecidableEq, Repr

/-- `PulseGenerator::trigger(duration)`. -/
def PulseGenerator.trigger (g : PulseGenerator) (duration : Value) : PulseGenerator :=
  if duration > g.remaining then { remaining := duration } else g

/-- `PulseGenerator::process(deltaTime)`: the returned flag and the new generator. -/
def PulseGenerator.process (g : PulseGenerator) (deltaTime : Value) : Bool × PulseGenerator :=
  if g.remaining > 0 then (true, { remaining := g.remaining - deltaTime }) else (false, g)

/-- Rack `dsp::ClockDivider` (both fields are `uint32_t`). -/
structure ClockDivider where
  clock : Nat
  division : Nat
deriving DecidableEq, Repr

/-- `ClockDivider::setDivision`. -/
def ClockDivider.setDivision (d : ClockDivider) (division : Int) : ClockDivider :=
  { d with division := (division % 2 ^ 32).toNat }

/-- `ClockDivider::reset`. -/
def ClockDivider.reset (d : ClockDivider) : ClockDivider :=
  { d with clock := 0 }

/-- `ClockDivider::process`: the returned flag and the new divider. -/
def ClockDivider.process (d : ClockDivider) : Bool × ClockDivider :=
  let clock := (d.clock + 1) % 2 ^ 32
  if clock ≥ d.division then (true, { d with clock := 0 }) else (false, { d with clock := clock })

/-- Modelled from the spec: `StoermelderShapedSlewLimiter` of `digital.hpp`,
which is not among the sources. It holds the slew output `out` (the
"progress", full scale 10) together with the configured rise time and shape;
`reset` sets the output. How `process` advances the limiter is a parameter
(`SlewStep`) of the functions that tick it. -/
structure SlewLimiter where
  out : Value
  rise : Value
  shape : Value
deriving DecidableEq, Repr

/-- `slewLimiter.reset(out)`; the C++ default argument is `0`. -/
def SlewLimiter.reset (l : SlewLimiter) (out : Value) : SlewLimiter :=
  { l with out := out }

/-- `slewLimiter.setRise(rise)`. -/
def SlewLimiter.setRise (l : SlewLimiter) (rise : Value) : SlewLimiter :=
  { l with rise := rise }

/-- `slewLimiter.setShape(shape)`. -/
def SlewLimiter.setShape (l : SlewLimiter) (shape : Value) : SlewLimiter :=
  { l with shape := shape }

/-- Rack `rescale(x, xMin, xMax, yMin, yMax)`. -/
def rescale (x xMin xMax yMin yMax : Value) : Value :=
  yMin + (x - xMin) / (xMax - xMin) * (yMax - yMin)

/-- Rack `clamp(x, a, b)`. -/
def clamp (x a b : Value) : Value :=
  max (min x b) a

/-- Rack `crossfade(a, b, p)`. -/
def crossfade (a b p : Value) : Value :=
  a + (b - a) * p

/-- `std::round`: to the nearest integer, halves away from zero. -/
def cround (x : Value) : Int :=
  if 0 ≤ x then ⌊x + 1 / 2⌋ else ⌈x - 1 / 2⌉

/-! ## The module state -/

/-- The fields of `TransitModule<NUM_PRESETS>` that the slot bank, the slot
selection and the crossfade engine use. -/
structure TransitModule where
  panelTheme : Int
  presetSlotUsed : List Bool
  presetSlot : List (List Value)
  preset : Int
  presetCount : Int
  presetNext : Int
  presetOld : List Value
  slotCvMode : Int
  slotCvModeDir : Int
  outMode : Int
  outEocArm : Bool
  outEocPulseGenerator : PulseGenerator
  mappingIndicatorHidden : Bool
  presetProcessDivision : Int
  presetProcessDivider : ClockDivider
  randDist : Int × Int
  inChange : Bool
  sourceHandles : List ParamHandle
  slewLimiter : SlewLimiter
deriving DecidableEq, Repr

/-- The two slot arrays have `NUM_PRESETS` entries. -/
def TransitModule.Sized (N : Nat) (s : TransitModule) : Prop :=
  s.presetSlotUsed.length = N ∧ s.presetSlot.length = N

instance (N : Nat) (s : TransitModule) : Decidable (s.Sized N) := by
  unfold TransitModule.Sized
  infer_instance

/-- The loop of `presetLoad` that fills `presetOld`: one `push_back` per
handle, the parameter value when the handle resolves and `0.f` otherwise. -/
def capturePresetOld (eng : Engine) (sourceHandles : List ParamHandle) : List Value :=
  sourceHandles.foldl
    (fun presetOld h =>
      presetOld ++ [match getParamQuantity eng h with
        | some pq => pq.value
        | none => 0])
    []

/-- `TransitModule::presetLoad(p, isNext, force)`. -/
def presetLoad (eng : Engine) (s : TransitModule) (p : Int) (isNext force : Bool) :
    Option TransitModule :=
  if p < 0 ∨ p ≥ s.presetCount then some s
  else if isNext = false then
    if p ≠ s.preset ∨ force = true then
      let s1 := { s with preset := p, presetNext := -1 }
      match s1.presetSlotUsed[p.toNat]? with
      | none => none
      | some false => some s1
      | some true =>
        some { s1 with
          slewLimiter := s1.slewLimiter.reset 0
          outEocArm := true
          presetOld := capturePresetOld eng s1.sourceHandles }
    else some s
  else
    match s.presetSlotUsed[p.toNat]? with
    | none => none
    | some false => some s
    | some true => some { s with presetNext := p }

/-- What one `process` call reads for the SLOT input: the voltage, whether
`slotTrigger.process(voltage)` reported an edge, and the draw
`randDist(randGen)`. -/
structure SlotReading where
  voltage : Value
  trigger : Bool
  random : Int
deriving DecidableEq, Repr

/-- The `switch (slotCvMode)` of `process` (read mode, SLOT input connected,
reset timer elapsed). The C++ `%` is the truncated remainder `Int.tmod`; a
remainder by zero is undefined behaviour and gives `none`. -/
def processSlotInput (N : Nat) (eng : Engine) (s : TransitModule) (r : SlotReading) :
    Option TransitModule :=
  if s.slotCvMode = SLOTCVMODE.VOLT then
    presetLoad eng s ⌊rescale r.voltage 0 10 0 s.presetCount⌋ false false
  else if s.slotCvMode = SLOTCVMODE.C4 then
    presetLoad eng s (cround (clamp (r.voltage * 12) 0 ((N : Value) - 1))) false false
  else if s.slotCvMode = SLOTCVMODE.TRIG_FWD then
    if r.trigger then
      if s.presetCount = 0 then none
      else presetLoad eng s ((s.preset + 1).tmod s.presetCount) false false
    else some s
  else if s.slotCvMode = SLOTCVMODE.TRIG_REV then
    if r.trigger then
      if s.presetCount = 0 then none
      else presetLoad eng s ((s.preset - 1 + s.presetCount).tmod s.presetCount) false false
    else some s
  else if s.slotCvMode = SLOTCVMODE.TRIG_PINGPONG then
    if r.trigger then
      let n := s.preset + s.slotCvModeDir
      let s1 := if n = s.presetCount - 1 then { s with slotCvModeDir := -1 } else s
      let s2 := if n = 0 then { s1 with slotCvModeDir := 1 } else s1
      presetLoad eng s2 n false false
    else some s
  else if s.slotCvMode = SLOTCVMODE.TRIG_RANDOM then
    if r.trigger then presetLoad eng s r.random false false else some s
  else if s.slotCvMode = SLOTCVMODE.ARM then
    if r.trigger then presetLoad eng s s.presetNext false false else some s
  else some s

/-- The slot inputs of consecutive `process` calls, one reading per call. -/
def processSlotInputs (N : Nat) (eng : Engine) :
    TransitModule → List SlotReading → Option TransitModule
  | s, [] => some s
  | s, r :: rs =>
    match processSlotInput N eng s r with
    | none => none
    | some s1 => processSlotInputs N eng s1 rs

/-- The RESET input of `process`: in the three stepping modes an edge on the
reset input loads slot 0. `edge` is
`inputs[INPUT_RESET].isConnected() && resetTrigger.process(voltage)`. -/
def processResetInput (eng : Engine) (s : TransitModule) (edge : Bool) :
    Option TransitModule :=
  if s.slotCvMode = SLOTCVMODE.TRIG_FWD ∨ s.slotCvMode = SLOTCVMODE.TRIG_REV
      ∨ s.slotCvMode = SLOTCVMODE.TRIG_PINGPONG then
    if edge then presetLoad eng s 0 false false else some s
  else some s

/-- The loop of `presetSave` that fills the slot: one `push_back` per handle
that resolves, nothing for a handle that does not. -/
def captureSlot (eng : Engine) (sourceHandles : List ParamHandle) : List Value :=
  sourceHandles.foldl
    (fun slot h =>
      match getParamQuantity eng h with
      | none => slot
      | some pq => slot ++ [pq.value])
    []

/-- `TransitModule::presetSave(p)`. -/
def presetSave (eng : Engine) (s : TransitModule) (p : Int) : Option TransitModule :=
  if 0 ≤ p ∧ p.toNat < s.presetSlotUsed.length ∧ p.toNat < s.presetSlot.length then
    some { s with
      presetSlotUsed := s.presetSlotUsed.set p.toNat true
      presetSlot := s.presetSlot.set p.toNat (captureSlot eng s.sourceHandles) }
  else none

/-- `TransitModule::presetClear(p)`. -/
def presetClear (s : TransitModule) (p : Int) : Option TransitModule :=
  if 0 ≤ p ∧ p.toNat < s.presetSlotUsed.length ∧ p.toNat < s.presetSlot.length then
    let s1 := { s with
      presetSlotUsed := s.presetSlotUsed.set p.toNat false
      presetSlot := s.presetSlot.set p.toNat [] }
    some (if s1.preset = p then { s1 with preset := -1 } else s1)
  else none

/-- `TransitModule::presetSetCount(p)`. -/
def presetSetCount (s : TransitModule) (p : Int) : TransitModule :=
  let s1 := if s.preset ≥ p then { s with preset := 0 } else s
  let s2 := { s1 with presetCount := p, presetNext := -1 }
  { s2 with randDist := (0, s2.presetCount - 1) }

/-- What `typeButtons[i].process(sampleTime)` reports. -/
inductive LongPressButton
  | NO_PRESS
  | SHORT_PRESS
  | LONG_PRESS
deriving DecidableEq, Repr

/-- The button switch of `process` in read mode, for button `i`. -/
def processButtonRead (eng : Engine) (s : TransitModule) (i : Nat) :
    LongPressButton → Option TransitModule
  | LongPressButton.NO_PRESS => some s
  | LongPressButton.SHORT_PRESS =>
    presetLoad eng s i (decide (s.slotCvMode = SLOTCVMODE.ARM)) true
  | LongPressButton.LONG_PRESS => some (presetSetCount s (i + 1))

/-- The button switch of `process` in write mode, for button `i`. -/
def processButtonWrite (eng : Engine) (s : TransitModule) (i : Nat) :
    LongPressButton → Option TransitModule
  | LongPressButton.NO_PRESS => some s
  | LongPressButton.SHORT_PRESS => presetSave eng s i
  | LongPressButton.LONG_PRESS => presetClear s i

/-- `TransitModule::onReset` (the fields it does not assign keep their value). -/
def onReset (N : Nat) (s : TransitModule) : TransitModule :=
  let s1 := { s with inChange := false, sourceHandles := [] }
  let s2 := { s1 with
    presetSlotUsed := List.replicate N false
    presetSlot := List.replicate N [] }
  let s3 := { s2 with
    preset := -1
    presetCount := N
    presetNext := -1
    slewLimiter := s2.slewLimiter.reset 10
    outMode := OUTMODE.ENV }
  { s3 with
    randDist := (0, s3.presetCount - 1)
    mappingIndicatorHidden := false
    presetProcessDivision := 8
    presetProcessDivider := (s3.presetProcessDivider.setDivision 8).reset }

/-- The object before the constructor body runs: the fields with an
initialiser have it, the others are given as `raw`. -/
def declared (raw : TransitModule) : TransitModule :=
  { raw with
    panelTheme := 0
    slotCvMode := SLOTCVMODE.TRIG_FWD
    slotCvModeDir := 1
    mappingIndicatorHidden := false
    inChange := false
    sourceHandles := []
    presetSlot := []
    presetOld := []
    outEocPulseGenerator := { remaining := 0 }
    presetProcessDivider := { clock := 0, division := 1 } }

/-- The constructor `TransitModule()`: the default panel theme comes from
the plugin settings. -/
def construct (N : Nat) (panelThemeDefault : Int) (raw : TransitModule) : TransitModule :=
  onReset N { declared raw with panelTheme := panelThemeDefault }

/-- `TransitModule::bindParameter(moduleId, paramId)`. -/
def bindParameter (N : Nat) (eng : Engine) (s : TransitModule) (moduleId paramId : Int) :
    TransitModule :=
  let sourceHandle := eng.updateParamHandle moduleId paramId true
  let s1 := { s with sourceHandles := s.sourceHandles ++ [sourceHandle], inChange := false }
  match getParamQuantity eng sourceHandle with
  | none => s1
  | some pq =>
    let v := pq.value
    { s1 with
      presetSlot := (List.range N).foldl
        (fun presetSlot i =>
          if s1.presetSlotUsed.getD i false = false then presetSlot
          else presetSlot.set i (presetSlot.getD i [] ++ [v]))
        s1.presetSlot }

/-! ## The crossfade engine -/

/-- What the loop of `presetProcess` does with binding `i`. -/
inductive Access
  | readOld (i : Nat)
  | readSlot (i : Nat)
  | setValue (i : Nat) (v : Value)
deriving DecidableEq, Repr

/-- The value `presetProcess` writes for one binding at normalised progress
`t`: the crossfade of the old and the new value, snapped to the nearest
integer when `t` is within `5e-3` of 1 and the value within `5e-3` of that
integer. -/
def interpolate (oldValue newValue t : Value) : Value :=
  let v := crossfade oldValue newValue t
  if t > 1 - 5 / 1000 ∧ |(cround v : Value) - v| < 5 / 1000 then (cround v : Value) else v

/-- The loop over the bindings in `presetProcess`, from binding `i` on, at
normalised progress `t`. It returns the accesses in program order and whether
the loop ran to its end (`false`: left by one of the two `return`s). The
expression `presetOld[i]` is logged as `readOld i`, `presetSlot[preset][i]`
as `readSlot i` and `pq->setValue(v)` as `setValue i v`. -/
def presetProcessLoop (eng : Engine) (s : TransitModule) (t : Value) :
    List ParamHandle → Nat → Option (List Access × Bool)
  | [], _ => some ([], true)
  | h :: hs, i =>
    match getParamQuantity eng h with
    | none => presetProcessLoop eng s t hs (i + 1)
    | some _ =>
      match s.presetOld[i]? with
      | none => some ([], false)
      | some oldValue =>
        if s.preset < 0 then none
        else
          match s.presetSlot[s.preset.toNat]? with
          | none => none
          | some slot =>
            match slot[i]? with
            | none => some ([Access.readOld i], false)
            | some newValue =>
              let v := interpolate oldValue newValue t
              match presetProcessLoop eng s t hs (i + 1) with
              | none => none
              | some (rest, finished) =>
                some (Access.readOld i :: Access.readSlot i :: Access.setValue i v :: rest,
                  finished)

/-- What one call of `presetProcess` reads from the host. -/
structure ProcessReading where
  sampleTime : Value
  inputFade : Value
  paramFade : Value
  paramShape : Value
deriving DecidableEq, Repr

/-- What a processing tick of `presetProcess` did: the value `s` returned by
the slew limiter, whether `outEocPulseGenerator.trigger()` was called, the
voltage given to `outputs[OUTPUT].setVoltage` (if any), and the accesses of
the binding loop. -/
structure Tick where
  slew : Value
  eocTrigger : Bool
  output : Option Value
  accesses : List Access
deriving DecidableEq, Repr

/-- The missing body of `slewLimiter.process(in, deltaTime)`, see `SlewLimiter`:
the limiter after the call and the returned level. -/
abbrev SlewStep := SlewLimiter → Value → Value → SlewLimiter × Value

/-- The part of a processing tick of `presetProcess` before the bindings are
visited (from `float deltaTime` to the `switch (outMode)`): the slew limiter
is stepped, the end-of-cycle pulse is fired if due, the output is set. -/
def presetProcessHead (slew : SlewStep) (s0 : TransitModule) (a : ProcessReading) :
    TransitModule × Tick :=
  let deltaTime := a.sampleTime * s0.presetProcessDivision
  let fade := a.inputFade / 10 + a.paramFade
  let stepped := slew ((s0.slewLimiter.setRise fade).setShape a.paramShape) 10 deltaTime
  let s1 := { s0 with slewLimiter := stepped.1 }
  let out := stepped.2
  let eoc := decide (out = 10) && s1.outEocArm
  let s2 := if eoc = true then
      { s1 with
        outEocPulseGenerator := s1.outEocPulseGenerator.trigger (1 / 1000)
        outEocArm := false }
    else s1
  let pulse := s2.outEocPulseGenerator.process deltaTime
  let output : Option Value :=
    if s2.outMode = OUTMODE.ENV then some (if out = 10 then 0 else out)
    else if s2.outMode = OUTMODE.GATE then some (if out ≠ 10 then 10 else 0)
    else if s2.outMode = OUTMODE.EOC then some (if pulse.1 = true then 10 else 0)
    else none
  let s3 := if s2.outMode = OUTMODE.EOC then { s2 with outEocPulseGenerator := pulse.2 }
    else s2
  (s3, { slew := out, eocTrigger := eoc, output := output, accesses := [] })

/-- `TransitModule::presetProcess(sampleTime)`. The second component is `none`
when the call is not a processing tick (the divider did not fire, or no slot
is active). -/
def presetProcess (slew : SlewStep) (eng : Engine) (s : TransitModule)
    (a : ProcessReading) : Option (TransitModule × Option Tick) :=
  let fired := s.presetProcessDivider.process
  let s0 := { s with presetProcessDivider := fired.2 }
  if fired.1 = true then
    if s0.preset = -1 then some (s0, none)
    else
      let head := presetProcessHead slew s0 a
      let s3 := head.1
      if head.2.slew = 10 then some (s3, some head.2)
      else
        match presetProcessLoop eng s3 (head.2.slew / 10) s3.sourceHandles 0 with
        | none => none
        | some (accesses, finished) =>
          let s4 := if finished = true then
              { s3 with presetProcessDivider :=
                  s3.presetProcessDivider.setDivision s3.presetProcessDivision }
            else s3
          some (s4, some { head.2 with accesses := accesses })
  else
    some ({ s0 with presetProcessDivider :=
      s0.presetProcessDivider.setDivision s0.presetProcessDivision }, none)

/-- Consecutive calls of `presetProcess`, each with the host as it is at that
call; the log has one entry per call. -/
def presetProcessRun (slew : SlewStep) :
    TransitModule → List (Engine × ProcessReading) →
      Option (TransitModule × List (Option Tick))
  | s, [] => some (s, [])
  | s, a :: as =>
    match presetProcess slew a.1 s a.2 with
    | none => none
    | some (s1, tick) =>
      match presetProcessRun slew s1 as with
      | none => none
      | some (s2, ticks) => some (s2, tick :: ticks)

/-! ## Persistence -/

/-- A jansson value (`json_t`); a null pointer is `none : Option Json`. -/
inductive Json
  | null
  | boolean (b : Bool)
  | integer (n : Int)
  | real (v : Value)
  | array (elems : List Json)
  | object (members : List (String × Json))

/-- `json_object()`. -/
def json_object : Json :=
  Json.object []

/-- `json_array()`. -/
def json_array : Json :=
  Json.array []

/-- `json_object_set_new(obj, key, value)` (and `json_object_set`, which
differs in reference counting only). -/
def json_object_set_new : Json → String → Json → Json
  | Json.object members, key, value =>
    if members.any (fun kv => kv.1 == key) then
      Json.object (members.map (fun kv => if kv.1 == key then (key, value) else kv))
    else Json.object (members ++ [(key, value)])
  | j, _, _ => j

/-- `json_array_append_new(arr, value)`. -/
def json_array_append_new : Json → Json → Json
  | Json.array elems, value => Json.array (elems ++ [value])
  | j, _ => j

/-- `json_object_get(obj, key)`. -/
def json_object_get : Option Json → String → Option Json
  | some (Json.object members), key => members.lookup key
  | _, _ => none

/-- `json_integer_value`. -/
def json_integer_value : Option Json → Int
  | some (Json.integer n) => n
  | _ => 0

/-- `json_boolean_value`. -/
def json_boolean_value : Option Json → Bool
  | some (Json.boolean b) => b
  | _ => false

/-- `json_real_value`. -/
def json_real_value : Option Json → Value
  | some (Json.real v) => v
  | _ => 0

/-- The elements `json_array_foreach` visits, in order. -/
def json_array_elems : Option Json → List Json
  | some (Json.array elems) => elems
  | _ => []

/-- `TransitModule::dataToJson`. -/
def dataToJson (N : Nat) (s : TransitModule) : Json :=
  let rootJ := json_object
  let rootJ := json_object_set_new rootJ "panelTheme" (Json.integer s.panelTheme)
  let rootJ := json_object_set_new rootJ "mappingIndicatorHidden"
    (Json.boolean s.mappingIndicatorHidden)
  let rootJ := json_object_set_new rootJ "presetProcessDivision"
    (Json.integer s.presetProcessDivision)
  let rootJ := json_object_set_new rootJ "slotCvMode" (Json.integer s.slotCvMode)
  let rootJ := json_object_set_new rootJ "outMode" (Json.integer s.outMode)
  let rootJ := json_object_set_new rootJ "preset" (Json.integer s.preset)
  let rootJ := json_object_set_new rootJ "presetCount" (Json.integer s.presetCount)
  let sourceMapsJ := s.sourceHandles.foldl
    (fun sourceMapsJ h =>
      let sourceMapJ := json_object
      let sourceMapJ := json_object_set_new sourceMapJ "moduleId" (Json.integer h.moduleId)
      let sourceMapJ := json_object_set_new sourceMapJ "paramId" (Json.integer h.paramId)
      json_array_append_new sourceMapsJ sourceMapJ)
    json_array
  let rootJ := json_object_set_new rootJ "sourceMaps" sourceMapsJ
  let presetsJ := (List.range N).foldl
    (fun presetsJ i =>
      let presetJ := json_object
      let presetJ := json_object_set_new presetJ "slotUsed"
        (Json.boolean (s.presetSlotUsed.getD i false))
      let presetJ :=
        if s.presetSlotUsed.getD i false = true then
          let slotJ := (s.presetSlot.getD i []).foldl
            (fun slotJ v => json_array_append_new slotJ (Json.real v)) json_array
          json_object_set_new presetJ "slot" slotJ
        else presetJ
      json_array_append_new presetsJ presetJ)
    json_array
  json_object_set_new rootJ "presets" presetsJ

/-- The `json_array_foreach` over `"presets"` in `dataFromJson`, from entry
`presetIndex` on. -/
def dataFromJsonPresets (s : TransitModule) : List Json → Nat → Option TransitModule
  | [], _ => some s
  | presetJ :: rest, presetIndex =>
    if presetIndex < s.presetSlotUsed.length ∧ presetIndex < s.presetSlot.length then
      let used := json_boolean_value (json_object_get (some presetJ) "slotUsed")
      let s1 := { s with
        presetSlotUsed := s.presetSlotUsed.set presetIndex used
        presetSlot := s.presetSlot.set presetIndex [] }
      let s2 :=
        if used = true then
          let slotJ := json_object_get (some presetJ) "slot"
          let slot := (json_array_elems slotJ).foldl
            (fun slot vJ => slot ++ [json_real_value (some vJ)]) []
          { s1 with presetSlot := s1.presetSlot.set presetIndex slot }
        else s1
      dataFromJsonPresets s2 rest (presetIndex + 1)
    else none

/-- `TransitModule::dataFromJson(rootJ)` for the module with identifier `id`. -/
def dataFromJson (eng : Engine) (id : Int) (s : TransitModule) (rootJ : Json) :
    Option TransitModule :=
  let root := some rootJ
  let s1 := { s with
    panelTheme := json_integer_value (json_object_get root "panelTheme")
    mappingIndicatorHidden := json_boolean_value (json_object_get root "mappingIndicatorHidden")
    presetProcessDivision := json_integer_value (json_object_get root "presetProcessDivision")
    slotCvMode := json_integer_value (json_object_get root "slotCvMode")
    outMode := json_integer_value (json_object_get root "outMode")
    preset := json_integer_value (json_object_get root "preset")
    presetCount := json_integer_value (json_object_get root "presetCount") }
  if (eng.getModule id).isSome then some s1
  else
    let sourceMapsJ := json_object_get root "sourceMaps"
    let s2 := { s1 with
      inChange := false
      sourceHandles := (json_array_elems sourceMapsJ).foldl
        (fun sourceHandles sourceMapJ =>
          let moduleIdJ := json_object_get (some sourceMapJ) "moduleId"
          let paramIdJ := json_object_get (some sourceMapJ) "paramId"
          let sourceHandle := eng.updateParamHandle (json_integer_value moduleIdJ)
            (json_integer_value paramIdJ) false
          sourceHandles ++ [sourceHandle])
        s1.sourceHandles }
    let presetsJ := json_object_get root "presets"
    match dataFromJsonPresets s2 (json_array_elems presetsJ) 0 with
    | none => none
    | some s3 => some (if s3.preset ≥ s3.presetCount then { s3 with preset := 0 } else s3)

/-- The states the module reaches: the constructor, followed by any sequence
of the member functions and of the menu actions of the widget. -/
inductive Reachable (N : Nat) : TransitModule → Prop
  | construct (panelThemeDefault : Int) (raw : TransitModule) :
    Reachable N (construct N panelThemeDefault raw)
  | onReset {s : TransitModule} : Reachable N s → Reachable N (onReset N s)
  | presetLoad {s s' : TransitModule} (eng : Engine) (p : Int) (isNext force : Bool) :
    Reachable N s → presetLoad eng s p isNext force = some s' → Reachable N s'
  | processSlotInput {s s' : TransitModule} (eng : Engine) (r : SlotReading) :
    Reachable N s → processSlotInput N eng s r = some s' → Reachable N s'
  | presetSave {s s' : TransitModule} (eng : Engine) (p : Int) :
    Reachable N s → presetSave eng s p = some s' → Reachable N s'
  | presetClear {s s' : TransitModule} (p : Int) :
    Reachable N s → presetClear s p = some s' → Reachable N s'
  | presetSetCount {s : TransitModule} (p : Int) :
    Reachable N s → Reachable N (presetSetCount s p)
  | bindParameter {s : TransitModule} (eng : Engine) (moduleId paramId : Int) :
    Reachable N s → Reachable N (bindParameter N eng s moduleId paramId)
  | presetProcess {s s' : TransitModule} (slew : SlewStep) (eng : Engine)
      (a : ProcessReading) (tick : Option Tick) :
    Reachable N s → presetProcess slew eng s a = some (s', tick) → Reachable N s'
  | dataFromJson {s s' : TransitModule} (eng : Engine) (id : Int) (rootJ : Json) :
    Reachable N s → dataFromJson eng id s rootJ = some s' → Reachable N s'
  | menuSlotCvMode {s : TransitModule} (slotCvMode : Int) :
    Reachable N s → Reachable N { s with slotCvMode := slotCvMode }
  | menuOutMode {s : TransitModule} (outMode : Int) :
    Reachable N s → Reachable N { s with outMode := outMode }
  | menuPrecision {s : TransitModule} (division : Int) :
    Reachable N s → Reachable N { s with presetProcessDivision := division }
  | menuMappingIndicatorHidden {s : TransitModule} :
    Reachable N s →
      Reachable N { s with mappingIndicatorHidden := !s.mappingIndicatorHidden }

/-! ## Sequences of calls -/

/-- A call of one of the member functions that edit the slot bank and the
selection state; `eng` is the host as the call finds it. -/
inductive Call
  | presetLoad (eng : Engine) (p : Int) (isNext force : Bool)
  | presetSave (eng : Engine) (p : Int)
  | presetClear (p : Int)
  | presetSetCount (p : Int)
  | bindParameter (eng : Engine) (moduleId paramId : Int)
  | onReset

/-- The object after one call (`none` when the call leaves the arrays). -/
def Call.run (N : Nat) (s : TransitModule) : Call → Option TransitModule
  | Call.presetLoad eng p isNext force => Transit.presetLoad eng s p isNext force
  | Call.presetSave eng p => Transit.presetSave eng s p
  | Call.presetClear p => Transit.presetClear s p
  | Call.presetSetCount p => some (Transit.presetSetCount s p)
  | Call.bindParameter eng moduleId paramId =>
    some (Transit.bindParameter N eng s moduleId paramId)
  | Call.onReset => some (Transit.onReset N s)

/-- The object after a sequence of calls, made one after the other. -/
def runCalls (N : Nat) : TransitModule → List Call → Option TransitModule
  | s, [] => some s
  | s, c :: cs =>
    match c.run N s with
    | none => none
    | some s1 => runCalls N s1 cs

/-- The arguments the panel can produce: button `i` of the `N` buttons saves
or clears slot `i` and sets the slot count to `i + 1`; `presetLoad` takes any
index. -/
def Call.InRange (N : Nat) : Call → Prop
  | Call.presetLoad _ _ _ _ => True
  | Call.presetSave _ p => 0 ≤ p ∧ p < N
  | Call.presetClear p => 0 ≤ p ∧ p < N
  | Call.presetSetCount p => 1 ≤ p ∧ p ≤ N
  | Call.bindParameter _ _ _ => True
  | Call.onReset => True

instance Call.decidableInRange (N : Nat) : (c : Call) → Decidable (c.InRange N)
  | Call.presetLoad _ _ _ _ => isTrue trivial
  | Call.presetSave _ p => inferInstanceAs (Decidable (0 ≤ p ∧ p < N))
  | Call.presetClear p => inferInstanceAs (Decidable (0 ≤ p ∧ p < N))
  | Call.presetSetCount p => inferInstanceAs (Decidable (1 ≤ p ∧ p ≤ N))
  | Call.bindParameter _ _ _ => isTrue trivial
  | Call.onReset => isTrue trivial

/-! ## MidiMon: the stored settings -/

/-- The fields of `MidiMonModule` (`src/MidiMon.cpp`) marked
`[Stored to JSON]`. The input queue `midiInput` belongs to the host library;
it is kept as the document its `toJson()` writes and its `fromJson()` reads. -/
structure MidiMonModule where
  panelTheme : Int
  showNoteMsg : Bool
  showKeyPressure : Bool
  showCcMsg : Bool
  showProgChangeMsg : Bool
  showChannelPressurelMsg : Bool
  showPitchWheelMsg : Bool
  showSysExMsg : Bool
  showSysExData : Bool
  showClockMsg : Bool
  showSystemMsg : Bool
  midiInput : Json

/-- `MidiMonModule::onReset` (the log timestamp it resets is not stored). -/
def MidiMonModule.onReset (s : MidiMonModule) : MidiMonModule :=
  { s with
    showNoteMsg := true
    showKeyPressure := true
    showCcMsg := true
    showProgChangeMsg := true
    showChannelPressurelMsg := true
    showPitchWheelMsg := true
    showSysExMsg := false
    showSysExData := false
    showClockMsg := false
    showSystemMsg := true }

/-- `MidiMonModule::dataToJson`. -/
def MidiMonModule.dataToJson (s : MidiMonModule) : Json :=
  let rootJ := json_object
  let rootJ := json_object_set_new rootJ "panelTheme" (Json.integer s.panelTheme)
  let rootJ := json_object_set_new rootJ "showNoteMsg" (Json.boolean s.showNoteMsg)
  let rootJ := json_object_set_new rootJ "showKeyPressure" (Json.boolean s.showKeyPressure)
  let rootJ := json_object_set_new rootJ "showCcMsg" (Json.boolean s.showCcMsg)
  let rootJ := json_object_set_new rootJ "showProgChangeMsg" (Json.boolean s.showProgChangeMsg)
  let rootJ := json_object_set_new rootJ "showChannelPressurelMsg"
    (Json.boolean s.showChannelPressurelMsg)
  let rootJ := json_object_set_new rootJ "showPitchWheelMsg" (Json.boolean s.showPitchWheelMsg)
  let rootJ := json_object_set_new rootJ "showSysExMsg" (Json.boolean s.showSysExMsg)
  let rootJ := json_object_set_new rootJ "showSysExData" (Json.boolean s.showSysExMsg)
  let rootJ := json_object_set_new rootJ "showClockMsg" (Json.boolean s.showClockMsg)
  let rootJ := json_object_set_new rootJ "showSystemMsg" (Json.boolean s.showSystemMsg)
  json_object_set_new rootJ "midiInput" s.midiInput

/-- `MidiMonModule::dataFromJson`. -/
def MidiMonModule.dataFromJson (s : MidiMonModule) (rootJ : Json) : MidiMonModule :=
  let root := some rootJ
  let s1 := { s with
    panelTheme := json_integer_value (json_object_get root "panelTheme")
    showNoteMsg := json_boolean_value (json_object_get root "showNoteMsg")
    showKeyPressure := json_boolean_value (json_object_get root "showKeyPressure")
    showCcMsg := json_boolean_value (json_object_get root "showCcMsg")
    showProgChangeMsg := json_boolean_value (json_object_get root "showProgChangeMsg")
    showChannelPressurelMsg :=
      json_boolean_value (json_object_get root "showChannelPressurelMsg")
    showPitchWheelMsg := json_boolean_value (json_object_get root "showPitchWheelMsg")
    showSysExMsg := json_boolean_value (json_object_get root "showSysExMsg")
    showSysExData := json_boolean_value (json_object_get root "showSysExData")
    showClockMsg := json_boolean_value (json_object_get root "showClockMsg")
    showSystemMsg := json_boolean_value (json_object_get root "showSystemMsg") }
  match json_object_get root "midiInput" with
  | none => s1
  | some midiInputJ => { s1 with midiInput := midiInputJ }

/-! ## MapModule: the number of maps -/

/-- The fields of `MapModule<MAX_CHANNELS>` (`src/MapModule.hpp`) that
`updateMapLen` uses; `paramHandles` has `MAX_CHANNELS` entries. -/
structure MapModule where
  mapLen : Int
  paramHandles : List ParamHandle
  learningId : Int
  learnedParam : Bool
deriving DecidableEq, Repr

/-- The loop of `updateMapLen`, entered with `id = n - 1`: it counts `id` down
to the first handle with `moduleId >= 0` and returns `id` at the exit, `-1`
when it runs through (`none` for an access outside the array). -/
def MapModule.lastNonempty (paramHandles : List ParamHandle) : Nat → Option Int
  | 0 => some (-1)
  | id + 1 =>
    match paramHandles[id]? with
    | none => none
    | some handle =>
      if handle.moduleId ≥ 0 then some (id : Int) else lastNonempty paramHandles id

/-- `MapModule::updateMapLen`. -/
def MapModule.updateMapLen (MAX_CHANNELS : Nat) (s : MapModule) : Option MapModule :=
  match MapModule.lastNonempty s.paramHandles MAX_CHANNELS with
  | none => none
  | some id =>
    let s1 := { s with mapLen := id + 1 }
    some (if s1.mapLen < (MAX_CHANNELS : Int) then { s1 with mapLen := s1.mapLen + 1 } else s1)

/-! ## Sample data -/

/-- An object whose fields are all zero, false or empty. -/
def zeroModule : TransitModule :=
  { panelTheme := 0
    presetSlotUsed := []
    presetSlot := []
    preset := 0
    presetCount := 0
    presetNext := 0
    presetOld := []
    slotCvMode := 0
    slotCvModeDir := 0
    outMode := 0
    outEocArm := false
    outEocPulseGenerator := { remaining := 0 }
    mappingIndicatorHidden := false
    presetProcessDivision := 0
    presetProcessDivider := { clock := 0, division := 0 }
    randDist := (0, 0)
    inChange := false
    sourceHandles := []
    slewLimiter := { out := 0, rise := 0, shape := 0 } }

/-- A host with one module, identifier 7, with parameters 0, 1 and 2 at the
values 3, 4 and 5. -/
def hostA : Engine :=
  { getModule := fun id =>
      if id = 7 then
        some { paramQuantities := [some { value := 3 }, some { value := 4 }, some { value := 5 }] }
      else none }

/-- A host without any module. -/
def hostEmpty : Engine :=
  { getModule := fun _ => none }

/-- A slot reading with an edge on the trigger. -/
def edge : SlotReading :=
  { voltage := 10, trigger := true, random := 0 }

/-- A sample slew limiter that stays at level 5, half of full scale. -/
def halfwaySlew : SlewStep :=
  fun l _ _ => ({ l with out := 5 }, 5)

/-- A sample slew limiter that reaches its target at once. -/
def instantSlew : SlewStep :=
  fun l target _ => ({ l with out := target }, target)

/-- A host reading with `sampleTime = 1` and all controls at zero. -/
def unitReading : ProcessReading :=
  { sampleTime := 1, inputFade := 0, paramFade := 0, paramShape := 0 }

/-- A freshly constructed module with `N` slots. -/
def fresh (N : Nat) : TransitModule :=
  construct N 0 zeroModule

/-- A two-slot module whose slot 0 is used and active and whose slot 1 is
unused. -/
def twoSlots : TransitModule :=
  { fresh 2 with presetSlotUsed := [true, false], preset := 0 }

/-- A two-slot module with one binding whose slot 0 was saved while the
binding did not resolve (so the slot holds no value) and was loaded after the
target appeared (so `presetOld` holds one value). -/
def staleSlotModule : Option TransitModule :=
  match presetSave hostEmpty (bindParameter 2 hostEmpty (fresh 2) 7 0) 0 with
  | none => none
  | some s => presetLoad hostA s 0 false false

/-- A two-slot module with three bindings whose active slot 0 holds two
values, in a transition that started from the values 3, 4, 5; its divider
fires at every call. -/
def threeBindings : TransitModule :=
  { fresh 2 with
    sourceHandles := [{ moduleId := 7, paramId := 0 }, { moduleId := 7, paramId := 1 },
      { moduleId := 7, paramId := 2 }]
    presetSlotUsed := [true, false]
    presetSlot := [[1, 2], []]
    preset := 0
    presetOld := [3, 4, 5]
    outEocArm := true
    slewLimiter := { out := 0, rise := 0, shape := 0 }
    presetProcessDivider := { clock := 0, division := 1 }
    presetProcessDivision := 1 }

/-- A three-slot module in ping-pong mode after four triggers from the
initial state (slots 0, 1, 2, 1, now descending) and an edge on the reset
input. -/
def descendingReset : Option TransitModule :=
  match processSlotInputs 3 hostA { fresh 3 with slotCvMode := SLOTCVMODE.TRIG_PINGPONG }
      [edge, edge, edge, edge] with
  | none => none
  | some s => processResetInput hostA s true

/-- Slot 0 of a three-slot module is saved and armed, then cleared. -/
def clearArmed : List Call :=
  [Call.presetSave hostA 0, Call.presetLoad hostA 0 true false, Call.presetClear 0]

/-- A run of calls on a three-slot module that uses each member function. -/
def editCalls : List Call :=
  [Call.bindParameter hostA 7 0, Call.presetSave hostA 1, Call.presetLoad hostA 1 false false,
    Call.presetSetCount 1, Call.presetLoad hostA 5 true true, Call.presetClear 0,
    Call.onReset, Call.presetSetCount 3]

/-- The MidiMon settings after `onReset` with the menu item "SysEx Data"
switched on. -/
def sysExDataOn : MidiMonModule :=
  { MidiMonModule.onReset
      { panelTheme := 0
        showNoteMsg := false
        showKeyPressure := false
        showCcMsg := false
        showProgChangeMsg := false
        showChannelPressurelMsg := false
        showPitchWheelMsg := false
        showSysExMsg := false
        showSysExData := false
        showClockMsg := false
        showSystemMsg := false
        midiInput := Json.null } with showSysExData := true }

/-- A map module with three channels of which only channel 0 is mapped. -/
def firstMapped : MapModule :=
  { mapLen := 0
    paramHandles := [{ moduleId := 7, paramId := 0 }, { moduleId := -1, paramId := 0 },
      { moduleId := -1, paramId := 0 }]
    learningId := -1
    learnedParam := false }

/-! ## Reference sequences -/

/-- The number of calls of `outEocPulseGenerator.trigger()` in a log. -/
def eocTriggers (ticks : List (Option Tick)) : Nat :=
  ticks.countP (fun t => t.map Tick.eocTrigger == some true)

/-- What `dataFromJson` reads as the used flag of an entry of `"presets"`. -/
def presetEntryUsed (presetJ : Json) : Bool :=
  json_boolean_value (json_object_get (some presetJ) "slotUsed")

/-- What `dataFromJson` stores as the values of an entry of `"presets"`. -/
def presetEntrySlot (presetJ : Json) : List Value :=
  if presetEntryUsed presetJ = true then
    (json_array_elems (json_object_get (some presetJ) "slot")).map
      (fun vJ => json_real_value (some vJ))
  else []

/-- Every unused slot holds no value. -/
def TransitModule.SlotsClean (s : TransitModule) : Prop :=
  ∀ i : Nat, i < s.presetSlotUsed.length →
    s.presetSlotUsed[i]? = some false → s.presetSlot[i]? = some []

instance (s : TransitModule) : Decidable s.SlotsClean := by
  unfold TransitModule.SlotsClean
  infer_instance

/-- A three-slot module in ARM mode with three bindings and two used slots,
slot 1 active. -/
def armModule : TransitModule :=
  { fresh 3 with
    sourceHandles := [{ moduleId := 7, paramId := 0 }, { moduleId := 7, paramId := 1 },
      { moduleId := 7, paramId := 2 }]
    presetSlotUsed := [true, true, false]
    presetSlot := [[1, 2, 3], [4, 5, 6], []]
    preset := 1
    slotCvMode := SLOTCVMODE.ARM }

/-- The active slot is none or lies inside the slot bank. -/
def TransitModule.ActiveInBank (s : TransitModule) : Prop :=
  s.preset = -1 ∨ (0 ≤ s.preset ∧ s.preset.toNat < s.presetSlot.length)

instance (s : TransitModule) : Decidable s.ActiveInBank := by
  unfold TransitModule.ActiveInBank
  infer_instance


/-- The ping-pong sequence in the spec's words: with `k` slots the indices
0, 1, ..., k-1, k-2, ..., 1, 0, 1, ... (period `2 (k - 1)`); entry `t`. -/
def pingPongIndex (k t : Nat) : Nat :=
  if t % (2 * (k - 1)) ≤ k - 1 then t % (2 * (k - 1)) else 2 * (k - 1) - t % (2 * (k - 1))

/-- The stepping direction that goes with entry `t` of the ping-pong sequence:
`+1` on the way up and at index 0, `-1` on the way down and at index `k - 1`
(with one slot there is no step and the direction stays `+1`). -/
def pingPongDir (k t : Nat) : Int :=
  if k ≤ 1 then 1 else if t % (2 * (k - 1)) < k - 1 then 1 else -1

/-! ## Lemmas on the loops -/

theorem foldl_push_eq_map {α β : Type} (f : α → β) (l : List α) (init : List β) :
    l.foldl (fun acc x => acc ++ [f x]) init = init ++ l.map f := by
  induction l generalizing init with
  | nil => simp
  | cons x xs ih => simp [ih]

theorem capturePresetOld_eq_map (eng : Engine) (hs : List ParamHandle) :
    capturePresetOld eng hs
      = hs.map (fun h => match getParamQuantity eng h with
          | some pq => pq.value
          | none => 0) := by
  unfold capturePresetOld
  rw [foldl_push_eq_map]
  simp

theorem captureSlot_foldl (eng : Engine) (hs : List ParamHandle) (init : List Value) :
    hs.foldl
        (fun slot h =>
          match getParamQuantity eng h with
          | none => slot
          | some pq => slot ++ [pq.value])
        init
      = init ++ hs.filterMap (fun h => (getParamQuantity eng h).map (fun pq => pq.value)) := by
  induction hs generalizing init with
  | nil => simp
  | cons x xs ih =>
    simp only [List.foldl_cons, ih, List.filterMap_cons]
    cases getParamQuantity eng x <;> simp

theorem captureSlot_eq_filterMap (eng : Engine) (hs : List ParamHandle) :
    captureSlot eng hs
      = hs.filterMap (fun h => (getParamQuantity eng h).map (fun pq => pq.value)) := by
  unfold captureSlot
  rw [captureSlot_foldl]
  simp

/-! ## `presetLoad` -/

/-- A load of an index outside `[0, presetCount)` changes nothing. -/
theorem presetLoad_out_of_range (eng : Engine) (s : TransitModule) (p : Int)
    (isNext force : Bool) (h : p < 0 ∨ p ≥ s.presetCount) :
    presetLoad eng s p isNext force = some s := by
  unfold presetLoad
  rw [if_pos h]

/-- An accepted plain load of a slot inside the arrays makes it the active
slot and leaves the slot bank and the selection settings alone. -/
theorem presetLoad_accept (N : Nat) (eng : Engine) (s : TransitModule) (p : Int) (force : Bool)
    (hN : s.Sized N) (h0 : 0 ≤ p) (hk : p < s.presetCount) (hkN : s.presetCount ≤ N) :
    ∃ s', presetLoad eng s p false force = some s' ∧ s'.preset = p
      ∧ s'.presetCount = s.presetCount ∧ s'.slotCvMode = s.slotCvMode
      ∧ s'.slotCvModeDir = s.slotCvModeDir ∧ s'.presetSlotUsed = s.presetSlotUsed
      ∧ s'.presetSlot = s.presetSlot ∧ s'.sourceHandles = s.sourceHandles := by
  have hlt : p.toNat < s.presetSlotUsed.length := by
    rw [hN.1]; omega
  unfold presetLoad
  rw [if_neg (by omega)]
  simp only [if_true]
  by_cases hp : p ≠ s.preset ∨ force = true
  · rw [if_pos hp]
    simp only [List.getElem?_eq_getElem hlt]
    cases s.presetSlotUsed[p.toNat] <;> simp
  · rw [if_neg hp]
    refine ⟨s, rfl, ?_, rfl, rfl, rfl, rfl, rfl, rfl⟩
    by_contra hne
    exact hp (Or.inl (fun h => hne h.symm))

/-- A load in arming mode of an unused slot inside the arrays changes nothing. -/
theorem presetLoad_arm_unused (eng : Engine) (s : TransitModule) (p : Int) (force : Bool)
    (h0 : 0 ≤ p) (hk : p < s.presetCount) (hun : s.presetSlotUsed[p.toNat]? = some false) :
    presetLoad eng s p true force = some s := by
  unfold presetLoad
  rw [if_neg (by omega)]
  simp [hun]

/-- A plain load of an unused slot that is accepted makes it the active slot,
clears the armed slot and changes nothing else. -/
theorem presetLoad_plain_unused (eng : Engine) (s : TransitModule) (p : Int) (force : Bool)
    (h0 : 0 ≤ p) (hk : p < s.presetCount) (hne : p ≠ s.preset ∨ force = true)
    (hun : s.presetSlotUsed[p.toNat]? = some false) :
    presetLoad eng s p false force = some { s with preset := p, presetNext := -1 } := by
  unfold presetLoad
  rw [if_neg (by omega)]
  simp only [if_true]
  rw [if_pos hne]
  simp [hun]

/-- A plain load of a used slot that is accepted starts a transition: the
slot becomes active, the armed slot is cleared, the slew limiter is reset to 0,
the end-of-cycle pulse is armed and `presetOld` is captured. -/
theorem presetLoad_plain_used (eng : Engine) (s : TransitModule) (p : Int) (force : Bool)
    (h0 : 0 ≤ p) (hk : p < s.presetCount) (hne : p ≠ s.preset ∨ force = true)
    (hused : s.presetSlotUsed[p.toNat]? = some true) :
    presetLoad eng s p false force
      = some { s with
          preset := p
          presetNext := -1
          slewLimiter := s.slewLimiter.reset 0
          outEocArm := true
          presetOld := capturePresetOld eng s.sourceHandles } := by
  unfold presetLoad
  rw [if_neg (by omega)]
  simp only [if_true]
  rw [if_pos hne]
  simp [hused]

/-! ## Stepping modes -/

/-- The index `TRIG_REV` requests, as a Euclidean remainder. -/
theorem rev_index (p k : Int) (hp : -1 ≤ p) (hk : 1 ≤ k) :
    (p - 1 + k).tmod k = (p - 1) % k := by
  by_cases h : 0 ≤ p - 1 + k
  · rw [Int.tmod_eq_emod h (by omega), Int.add_emod_self]
  · have hk1 : k = 1 := by omega
    have hp1 : p = -1 := by omega
    subst hk1 hp1
    decide

/-- One accepted `TRIG_FWD` trigger. -/
theorem fwd_step (N : Nat) (eng : Engine) (s : TransitModule) (r : SlotReading)
    (hN : s.Sized N) (hk1 : 1 ≤ s.presetCount) (hkN : s.presetCount ≤ N)
    (hp : -1 ≤ s.preset) (hm : s.slotCvMode = SLOTCVMODE.TRIG_FWD) (ht : r.trigger = true) :
    ∃ s', processSlotInput N eng s r = some s'
      ∧ s'.preset = (s.preset + 1) % s.presetCount
      ∧ s'.presetCount = s.presetCount ∧ s'.slotCvMode = s.slotCvMode ∧ s'.Sized N := by
  have hidx : (s.preset + 1).tmod s.presetCount = (s.preset + 1) % s.presetCount :=
    Int.tmod_eq_emod (by omega) (by omega)
  obtain ⟨s', h1, h2, h3, h4, _, h6, h7, _⟩ :=
    presetLoad_accept N eng s ((s.preset + 1) % s.presetCount) false hN
      (Int.emod_nonneg _ (by omega)) (Int.emod_lt_of_pos _ (by omega)) hkN
  refine ⟨s', ?_, h2, h3, h4, ?_⟩
  · unfold processSlotInput
    have hk0 : ¬ s.presetCount = 0 := by omega
    simp [hm, ht, hidx, h1, hk0, SLOTCVMODE.TRIG_FWD, SLOTCVMODE.VOLT, SLOTCVMODE.C4]
  · exact ⟨by rw [h6]; exact hN.1, by rw [h7]; exact hN.2⟩

/-- One accepted `TRIG_REV` trigger. -/
theorem rev_step (N : Nat) (eng : Engine) (s : TransitModule) (r : SlotReading)
    (hN : s.Sized N) (hk1 : 1 ≤ s.presetCount) (hkN : s.presetCount ≤ N)
    (hp : -1 ≤ s.preset) (hm : s.slotCvMode = SLOTCVMODE.TRIG_REV) (ht : r.trigger = true) :
    ∃ s', processSlotInput N eng s r = some s'
      ∧ s'.preset = (s.preset - 1) % s.presetCount
      ∧ s'.presetCount = s.presetCount ∧ s'.slotCvMode = s.slotCvMode ∧ s'.Sized N := by
  have hidx := rev_index s.preset s.presetCount hp hk1
  obtain ⟨s', h1, h2, h3, h4, _, h6, h7, _⟩ :=
    presetLoad_accept N eng s ((s.preset - 1) % s.presetCount) false hN
      (Int.emod_nonneg _ (by omega)) (Int.emod_lt_of_pos _ (by omega)) hkN
  refine ⟨s', ?_, h2, h3, h4, ?_⟩
  · unfold processSlotInput
    have hk0 : ¬ s.presetCount = 0 := by omega
    simp [hm, ht, hidx, h1, hk0, SLOTCVMODE.TRIG_FWD, SLOTCVMODE.TRIG_REV, SLOTCVMODE.VOLT,
      SLOTCVMODE.C4]
  · exact ⟨by rw [h6]; exact hN.1, by rw [h7]; exact hN.2⟩

/-- Accepted `TRIG_FWD` triggers in a row, from an active slot in `[0, k)`. -/
theorem fwd_run (N : Nat) (eng : Engine) (rs : List SlotReading) :
    ∀ s : TransitModule, s.Sized N → 1 ≤ s.presetCount → s.presetCount ≤ N →
      0 ≤ s.preset → s.preset < s.presetCount → s.slotCvMode = SLOTCVMODE.TRIG_FWD →
      (∀ r ∈ rs, r.trigger = true) →
      ∃ s', processSlotInputs N eng s rs = some s'
        ∧ s'.preset = (s.preset + rs.length) % s.presetCount := by
  induction rs with
  | nil =>
    intro s _ _ _ h0 hlt _ _
    exact ⟨s, rfl, by simp [Int.emod_eq_of_lt h0 hlt]⟩
  | cons r rs ih =>
    intro s hN hk1 hkN h0 hlt hm ht
    obtain ⟨s1, e1, p1, c1, m1, z1⟩ :=
      fwd_step N eng s r hN hk1 hkN (by omega) hm (ht r (List.mem_cons_self _ _))
    obtain ⟨s2, e2, p2⟩ := ih s1 z1 (by omega) (by omega)
      (by rw [p1]; exact Int.emod_nonneg _ (by omega))
      (by rw [p1, c1]; exact Int.emod_lt_of_pos _ (by omega))
      (by rw [m1]; exact hm) (fun r' hr' => ht r' (List.mem_cons_of_mem _ hr'))
    refine ⟨s2, ?_, ?_⟩
    · simp [processSlotInputs, e1, e2]
    · rw [p2, p1, c1, Int.emod_add_emod]
      congr 1
      simp
      ring

/-- Accepted `TRIG_REV` triggers in a row, from an active slot in `[0, k)`. -/
theorem rev_run (N : Nat) (eng : Engine) (rs : List SlotReading) :
    ∀ s : TransitModule, s.Sized N → 1 ≤ s.presetCount → s.presetCount ≤ N →
      0 ≤ s.preset → s.preset < s.presetCount → s.slotCvMode = SLOTCVMODE.TRIG_REV →
      (∀ r ∈ rs, r.trigger = true) →
      ∃ s', processSlotInputs N eng s rs = some s'
        ∧ s'.preset = (s.preset - rs.length) % s.presetCount := by
  induction rs with
  | nil =>
    intro s _ _ _ h0 hlt _ _
    exact ⟨s, rfl, by simp [Int.emod_eq_of_lt h0 hlt]⟩
  | cons r rs ih =>
    intro s hN hk1 hkN h0 hlt hm ht
    obtain ⟨s1, e1, p1, c1, m1, z1⟩ :=
      rev_step N eng s r hN hk1 hkN (by omega) hm (ht r (List.mem_cons_self _ _))
    obtain ⟨s2, e2, p2⟩ := ih s1 z1 (by omega) (by omega)
      (by rw [p1]; exact Int.emod_nonneg _ (by omega))
      (by rw [p1, c1]; exact Int.emod_lt_of_pos _ (by omega))
      (by rw [m1]; exact hm) (fun r' hr' => ht r' (List.mem_cons_of_mem _ hr'))
    refine ⟨s2, ?_, ?_⟩
    · simp [processSlotInputs, e1, e2]
    · rw [p2, p1, c1, sub_eq_add_neg, Int.emod_add_emod]
      congr 1
      simp
      ring

/-- The two cycling modes, for a state that is in the mode. -/
theorem slot_cycling_of_mode (N : Nat) (eng : Engine) (s : TransitModule)
    (hN : s.Sized N) (hk1 : 1 ≤ s.presetCount) (hkN : s.presetCount ≤ N)
    (hp : s.preset = -1 ∨ (0 ≤ s.preset ∧ s.preset < s.presetCount)) :
    (s.slotCvMode = SLOTCVMODE.TRIG_FWD →
      (∀ r : SlotReading, r.trigger = true →
        ∃ s', processSlotInput N eng s r = some s'
          ∧ s'.preset = (s.preset + 1) % s.presetCount)
      ∧ (∀ rs : List SlotReading, rs ≠ [] → (∀ r ∈ rs, r.trigger = true) →
        ∃ s', processSlotInputs N eng s rs = some s'
          ∧ s'.preset = (s.preset + rs.length) % s.presetCount
          ∧ (s.preset + (rs.length + s.presetCount)) % s.presetCount = s'.preset))
    ∧ (s.slotCvMode = SLOTCVMODE.TRIG_REV →
      (∀ r : SlotReading, r.trigger = true →
        ∃ s', processSlotInput N eng s r = some s'
          ∧ s'.preset = (s.preset - 1 + s.presetCount) % s.presetCount)
      ∧ (∀ rs : List SlotReading, rs ≠ [] → (∀ r ∈ rs, r.trigger = true) →
        ∃ s', processSlotInputs N eng s rs = some s'
          ∧ s'.preset = (s.preset - rs.length) % s.presetCount
          ∧ (s.preset - (rs.length + s.presetCount)) % s.presetCount = s'.preset)) := by
  have hp1 : -1 ≤ s.preset := by omega
  refine ⟨fun hm => ⟨fun r ht => ?_, fun rs hne ht => ?_⟩,
    fun hm => ⟨fun r ht => ?_, fun rs hne ht => ?_⟩⟩
  · obtain ⟨s', e, p, _⟩ := fwd_step N eng s r hN hk1 hkN hp1 hm ht
    exact ⟨s', e, p⟩
  · cases rs with
    | nil => exact absurd rfl hne
    | cons r rs =>
      obtain ⟨s1, e1, p1, c1, m1, z1⟩ :=
        fwd_step N eng s r hN hk1 hkN hp1 hm (ht r (List.mem_cons_self _ _))
      obtain ⟨s2, e2, p2⟩ := fwd_run N eng rs s1 z1 (by omega) (by omega)
        (by rw [p1]; exact Int.emod_nonneg _ (by omega))
        (by rw [p1, c1]; exact Int.emod_lt_of_pos _ (by omega))
        (by rw [m1]; exact hm) (fun r' hr' => ht r' (List.mem_cons_of_mem _ hr'))
      have hval : s2.preset = (s.preset + ((r :: rs).length : Int)) % s.presetCount := by
        rw [p2, p1, c1, Int.emod_add_emod]
        congr 1
        simp
        ring
      refine ⟨s2, by simp [processSlotInputs, e1, e2], hval, ?_⟩
      rw [hval, ← add_assoc, Int.add_emod_self]
  · obtain ⟨s', e, p, _⟩ := rev_step N eng s r hN hk1 hkN hp1 hm ht
    exact ⟨s', e, by rw [p, Int.add_emod_self]⟩
  · cases rs with
    | nil => exact absurd rfl hne
    | cons r rs =>
      obtain ⟨s1, e1, p1, c1, m1, z1⟩ :=
        rev_step N eng s r hN hk1 hkN hp1 hm (ht r (List.mem_cons_self _ _))
      obtain ⟨s2, e2, p2⟩ := rev_run N eng rs s1 z1 (by omega) (by omega)
        (by rw [p1]; exact Int.emod_nonneg _ (by omega))
        (by rw [p1, c1]; exact Int.emod_lt_of_pos _ (by omega))
        (by rw [m1]; exact hm) (fun r' hr' => ht r' (List.mem_cons_of_mem _ hr'))
      have hval : s2.preset = (s.preset - ((r :: rs).length : Int)) % s.presetCount := by
        rw [p2, p1, c1, sub_eq_add_neg, Int.emod_add_emod]
        congr 1
        simp
        ring
      refine ⟨s2, by simp [processSlotInputs, e1, e2], hval, ?_⟩
      rw [hval]
      have : s.preset - (((r :: rs).length : Int) + s.presetCount)
          = s.preset - ((r :: rs).length : Int) + s.presetCount * (-1) := by ring
      rw [this, Int.add_mul_emod_self_left]

/-! ## Ping-pong -/

theorem succ_mod_cases (t M : Nat) (hM : 0 < M) :
    (t + 1) % M = if t % M + 1 = M then 0 else t % M + 1 := by
  have hlt := Nat.mod_lt t hM
  rw [Nat.add_mod]
  by_cases h1 : M = 1
  · subst h1
    simp [Nat.mod_one]
  · have h1M : 1 % M = 1 := Nat.mod_eq_of_lt (by omega)
    rw [h1M]
    split_ifs with h
    · rw [h, Nat.mod_self]
    · exact Nat.mod_eq_of_lt (by omega)

/-- The `TRIG_PINGPONG` arm of the switch: the two tests on `n` and the load. -/
theorem pingpong_step_eq (N : Nat) (eng : Engine) (s : TransitModule) (r : SlotReading)
    (hm : s.slotCvMode = SLOTCVMODE.TRIG_PINGPONG) (ht : r.trigger = true) :
    processSlotInput N eng s r
      = presetLoad eng
          { s with slotCvModeDir :=
              if s.preset + s.slotCvModeDir = 0 then 1
              else if s.preset + s.slotCvModeDir = s.presetCount - 1 then -1
              else s.slotCvModeDir }
          (s.preset + s.slotCvModeDir) false false := by
  have hV : ¬ s.slotCvMode = SLOTCVMODE.VOLT := by rw [hm]; decide
  have hC : ¬ s.slotCvMode = SLOTCVMODE.C4 := by rw [hm]; decide
  have hF : ¬ s.slotCvMode = SLOTCVMODE.TRIG_FWD := by rw [hm]; decide
  have hR : ¬ s.slotCvMode = SLOTCVMODE.TRIG_REV := by rw [hm]; decide
  unfold processSlotInput
  rw [if_neg hV, if_neg hC, if_neg hF, if_neg hR, if_pos hm, if_pos ht]
  by_cases h0 : s.preset + s.slotCvModeDir = 0
  · by_cases hk : s.preset + s.slotCvModeDir = s.presetCount - 1
    · simp only [if_pos h0, if_pos hk]
    · simp only [if_pos h0, if_neg hk]
  · by_cases hk : s.preset + s.slotCvModeDir = s.presetCount - 1
    · simp only [if_neg h0, if_pos hk]
    · simp only [if_neg h0, if_neg hk]

/-- One accepted ping-pong trigger, with at least two slots, from entry `t` of
the ping-pong sequence to entry `t + 1`. -/
theorem pingpong_step (N : Nat) (eng : Engine) (s : TransitModule) (r : SlotReading)
    (k t : Nat) (hN : s.Sized N) (hk2 : 2 ≤ k) (hkN : k ≤ N) (hc : s.presetCount = k)
    (hm : s.slotCvMode = SLOTCVMODE.TRIG_PINGPONG) (ht : r.trigger = true)
    (hp : s.preset = pingPongIndex k t) (hd : s.slotCvModeDir = pingPongDir k t) :
    ∃ s', processSlotInput N eng s r = some s'
      ∧ s'.Sized N ∧ s'.presetCount = k ∧ s'.slotCvMode = SLOTCVMODE.TRIG_PINGPONG
      ∧ s'.preset = pingPongIndex k (t + 1) ∧ s'.slotCvModeDir = pingPongDir k (t + 1)
      ∧ s'.preset = s.preset + s.slotCvModeDir
      ∧ s'.slotCvModeDir = (if s'.preset = 0 then 1 else if s'.preset = (k : Int) - 1 then -1
          else s.slotCvModeDir) := by
  have hM : 0 < 2 * (k - 1) := by omega
  have hlt := Nat.mod_lt t hM
  have hsucc := succ_mod_cases t (2 * (k - 1)) hM
  have hidx : (pingPongIndex k t : Int) + pingPongDir k t = pingPongIndex k (t + 1) := by
    unfold pingPongIndex pingPongDir
    rw [hsucc]
    split_ifs <;> omega
  have hdir : (if (pingPongIndex k (t + 1) : Int) = 0 then (1 : Int)
      else if (pingPongIndex k (t + 1) : Int) = (k : Int) - 1 then -1 else pingPongDir k t)
      = pingPongDir k (t + 1) := by
    unfold pingPongIndex pingPongDir
    rw [hsucc]
    split_ifs <;> omega
  have hrange : (pingPongIndex k (t + 1) : Int) < k := by
    unfold pingPongIndex
    split_ifs <;> omega
  have hn : s.preset + s.slotCvModeDir = pingPongIndex k (t + 1) := by
    rw [hp, hd]; exact hidx
  have hdirval : (if s.preset + s.slotCvModeDir = 0 then (1 : Int)
      else if s.preset + s.slotCvModeDir = s.presetCount - 1 then -1 else s.slotCvModeDir)
      = pingPongDir k (t + 1) := by
    rw [hn, hc, hd]; exact hdir
  rw [pingpong_step_eq N eng s r hm ht, hdirval, hn]
  obtain ⟨s', h1, h2, h3, h4, h5, h6, h7, _⟩ :=
    presetLoad_accept N eng
      { s with slotCvModeDir := pingPongDir k (t + 1) } (pingPongIndex k (t + 1)) false
      hN (Int.natCast_nonneg _) (by simpa [hc] using hrange) (by simp [hc]; exact hkN)
  refine ⟨s', h1, ⟨by rw [h6]; exact hN.1, by rw [h7]; exact hN.2⟩, by rw [h3]; exact hc,
    by rw [h4]; exact hm, h2, h5, h2, ?_⟩
  rw [h5, h2, hd]
  exact hdir.symm

/-- Accepted ping-pong triggers in a row, with at least two slots. -/
theorem pingpong_run (N : Nat) (eng : Engine) (k : Nat) (hk2 : 2 ≤ k) (hkN : k ≤ N)
    (rs : List SlotReading) :
    ∀ (s : TransitModule) (t : Nat), s.Sized N → s.presetCount = k →
      s.slotCvMode = SLOTCVMODE.TRIG_PINGPONG → s.preset = pingPongIndex k t →
      s.slotCvModeDir = pingPongDir k t → (∀ r ∈ rs, r.trigger = true) →
      ∃ s', processSlotInputs N eng s rs = some s'
        ∧ s'.Sized N ∧ s'.presetCount = k ∧ s'.slotCvMode = SLOTCVMODE.TRIG_PINGPONG
        ∧ s'.preset = pingPongIndex k (t + rs.length)
        ∧ s'.slotCvModeDir = pingPongDir k (t + rs.length) := by
  induction rs with
  | nil =>
    intro s t hN hc hm hp hd _
    exact ⟨s, rfl, hN, hc, hm, hp, hd⟩
  | cons r rs ih =>
    intro s t hN hc hm hp hd ht
    obtain ⟨s1, e1, z1, c1, m1, p1, d1, _⟩ :=
      pingpong_step N eng s r k t hN hk2 hkN hc hm (ht r (List.mem_cons_self _ _)) hp hd
    obtain ⟨s2, e2, z2, c2, m2, p2, d2⟩ :=
      ih s1 (t + 1) z1 c1 m1 p1 d1 (fun r' hr' => ht r' (List.mem_cons_of_mem _ hr'))
    have hlen : t + (r :: rs).length = t + 1 + rs.length := by
      simp only [List.length_cons]; omega
    refine ⟨s2, by simp [processSlotInputs, e1, e2], z2, c2, m2, ?_, ?_⟩
    · rw [hlen]; exact p2
    · rw [hlen]; exact d2

/-- With one slot an accepted ping-pong trigger from slot 0 with direction
`+1` requests index 1, which is rejected: nothing changes. -/
theorem pingpong_step_one (N : Nat) (eng : Engine) (s : TransitModule) (r : SlotReading)
    (hc : s.presetCount = 1) (hm : s.slotCvMode = SLOTCVMODE.TRIG_PINGPONG)
    (ht : r.trigger = true) (hp : s.preset = 0) (hd : s.slotCvModeDir = 1) :
    processSlotInput N eng s r = some s := by
  rw [pingpong_step_eq N eng s r hm ht, hp, hd, hc]
  simp only [show ¬ ((0 : Int) + 1 = 0) by decide, show ¬ ((0 : Int) + 1 = 1 - 1) by decide,
    if_false]
  rw [presetLoad_out_of_range _ _ _ _ _ (Or.inr (by simp [hc]))]
  cases s
  simp_all

/-- Accepted ping-pong triggers in a row, with one slot. -/
theorem pingpong_run_one (N : Nat) (eng : Engine) (s : TransitModule)
    (hc : s.presetCount = 1) (hm : s.slotCvMode = SLOTCVMODE.TRIG_PINGPONG)
    (hp : s.preset = 0) (hd : s.slotCvModeDir = 1) (rs : List SlotReading)
    (ht : ∀ r ∈ rs, r.trigger = true) :
    processSlotInputs N eng s rs = some s := by
  induction rs with
  | nil => rfl
  | cons r rs ih =>
    simp only [processSlotInputs,
      pingpong_step_one N eng s r hc hm (ht r (List.mem_cons_self _ _)) hp hd]
    exact ih (fun r' hr' => ht r' (List.mem_cons_of_mem _ hr'))

/-! ## The binding loop of `presetProcess` -/

/-- The binding loop never fails when the active slot is inside the slot
array, and its log is characterised: `presetOld` is read only below its length,
the slot's values only below both lengths, a write goes to a resolved binding
below both lengths with the interpolated value, and every such binding is
written. -/
theorem presetProcessLoop_spec (eng : Engine) (s : TransitModule) (t : Value)
    (slot : List Value) (h0 : 0 ≤ s.preset)
    (hslot : s.presetSlot[s.preset.toNat]? = some slot) (hs : List ParamHandle) :
    ∀ i : Nat, ∃ acc fin, presetProcessLoop eng s t hs i = some (acc, fin)
      ∧ (∀ j, Access.readOld j ∈ acc → i ≤ j ∧ j < s.presetOld.length)
      ∧ (∀ j, Access.readSlot j ∈ acc → i ≤ j ∧ j < s.presetOld.length ∧ j < slot.length)
      ∧ (∀ j v, Access.setValue j v ∈ acc →
          ∃ k h a b, j = i + k ∧ hs[k]? = some h ∧ (getParamQuantity eng h).isSome = true
            ∧ s.presetOld[j]? = some a ∧ slot[j]? = some b ∧ v = interpolate a b t)
      ∧ (∀ k h a b, hs[k]? = some h → (getParamQuantity eng h).isSome = true →
          s.presetOld[i + k]? = some a → slot[i + k]? = some b →
          Access.setValue (i + k) (interpolate a b t) ∈ acc) := by
  induction hs with
  | nil =>
    intro i
    refine ⟨[], true, rfl, ?_, ?_, ?_, ?_⟩
    · intro j hj; simp at hj
    · intro j hj; simp at hj
    · intro j v hj; simp at hj
    · intro k h a b hk; simp at hk
  | cons hd tl ih =>
    intro i
    obtain ⟨acc, fin, e, r1, r2, r3, r4⟩ := ih (i + 1)
    cases hq : getParamQuantity eng hd with
    | none =>
      refine ⟨acc, fin, by simp only [presetProcessLoop, hq]; exact e, ?_, ?_, ?_, ?_⟩
      · intro j hj
        have := r1 j hj
        omega
      · intro j hj
        have := r2 j hj
        omega
      · intro j v hj
        obtain ⟨k, h, a, b, e1, e2, e3, e4, e5, e6⟩ := r3 j v hj
        exact ⟨k + 1, h, a, b, by omega, by simpa using e2, e3, e4, e5, e6⟩
      · intro k h a b hk hres ha hb
        cases k with
        | zero =>
          simp only [List.getElem?_cons_zero, Option.some.injEq] at hk
          subst hk
          simp [hq] at hres
        | succ k =>
          simp only [List.getElem?_cons_succ] at hk
          have := r4 k h a b hk hres (by rw [← ha]; congr 1; omega) (by rw [← hb]; congr 1; omega)
          have hi : i + (k + 1) = i + 1 + k := by omega
          rw [hi]
          exact this
    | some pq =>
      cases ho : s.presetOld[i]? with
      | none =>
        have hlen : s.presetOld.length ≤ i := List.getElem?_eq_none_iff.mp ho
        refine ⟨[], false, by simp only [presetProcessLoop, hq, ho], ?_, ?_, ?_, ?_⟩
        · intro j hj; simp at hj
        · intro j hj; simp at hj
        · intro j v hj; simp at hj
        · intro k h a b _ _ ha _
          have := (List.getElem?_eq_some_iff.mp ha).1
          omega
      | some oldValue =>
        have holt : i < s.presetOld.length := (List.getElem?_eq_some_iff.mp ho).1
        cases hn : slot[i]? with
        | none =>
          have hlen : slot.length ≤ i := List.getElem?_eq_none_iff.mp hn
          refine ⟨[Access.readOld i], false, ?_, ?_, ?_, ?_, ?_⟩
          · simp only [presetProcessLoop, hq, ho, if_neg (not_lt.mpr h0), hslot, hn]
          · intro j hj
            simp only [List.mem_singleton, Access.readOld.injEq] at hj
            omega
          · intro j hj; simp at hj
          · intro j v hj; simp at hj
          · intro k h a b _ _ _ hb
            have := (List.getElem?_eq_some_iff.mp hb).1
            omega
        | some newValue =>
          have hnlt : i < slot.length := (List.getElem?_eq_some_iff.mp hn).1
          refine ⟨Access.readOld i :: Access.readSlot i
            :: Access.setValue i (interpolate oldValue newValue t) :: acc, fin, ?_, ?_, ?_, ?_, ?_⟩
          · simp only [presetProcessLoop, hq, ho, if_neg (not_lt.mpr h0), hslot, hn, e]
          · intro j hj
            simp only [List.mem_cons, Access.readOld.injEq, reduceCtorEq, false_or] at hj
            rcases hj with hj | hj
            · omega
            · have := r1 j hj
              omega
          · intro j hj
            simp only [List.mem_cons, Access.readSlot.injEq, reduceCtorEq, false_or] at hj
            rcases hj with hj | hj
            · omega
            · have := r2 j hj
              omega
          · intro j v hj
            simp only [List.mem_cons, Access.setValue.injEq, reduceCtorEq, false_or] at hj
            rcases hj with ⟨hj, hv⟩ | hj
            · subst hj
              exact ⟨0, hd, oldValue, newValue, rfl, by simp, by simp [hq], ho, hn, hv⟩
            · obtain ⟨k, h, a, b, e1, e2, e3, e4, e5, e6⟩ := r3 j v hj
              exact ⟨k + 1, h, a, b, by omega, by simpa using e2, e3, e4, e5, e6⟩
          · intro k h a b hk hres ha hb
            cases k with
            | zero =>
              simp only [Nat.add_zero] at ha hb ⊢
              rw [ho] at ha
              rw [hn] at hb
              simp only [Option.some.injEq] at ha hb
              subst ha hb
              simp
            | succ k =>
              simp only [List.getElem?_cons_succ] at hk
              have := r4 k h a b hk hres (by rw [← ha]; congr 1; omega)
                (by rw [← hb]; congr 1; omega)
              have hi : i + (k + 1) = i + 1 + k := by omega
              rw [hi]
              simp only [List.mem_cons]
              exact Or.inr (Or.inr (Or.inr this))

/-! ## A processing tick -/

/-- The head of a processing tick touches only the slew limiter, the
end-of-cycle arm flag and the pulse generator. -/
theorem presetProcessHead_frame (slew : SlewStep) (s0 : TransitModule) (a : ProcessReading) :
    (presetProcessHead slew s0 a).1.preset = s0.preset
      ∧ (presetProcessHead slew s0 a).1.presetSlot = s0.presetSlot
      ∧ (presetProcessHead slew s0 a).1.presetOld = s0.presetOld
      ∧ (presetProcessHead slew s0 a).1.sourceHandles = s0.sourceHandles
      ∧ (presetProcessHead slew s0 a).1.presetSlotUsed = s0.presetSlotUsed
      ∧ (presetProcessHead slew s0 a).1.presetCount = s0.presetCount := by
  unfold presetProcessHead
  dsimp only
  split_ifs <;> exact ⟨rfl, rfl, rfl, rfl, rfl, rfl⟩

/-- The end-of-cycle pulse in the head of a processing tick: it is triggered
exactly when the slew output is at full scale and the arm flag is set, and the
flag stays set exactly when it was set and the output is not at full scale. -/
theorem presetProcessHead_eoc (slew : SlewStep) (s0 : TransitModule) (a : ProcessReading) :
    (presetProcessHead slew s0 a).2.eocTrigger
        = (decide ((presetProcessHead slew s0 a).2.slew = 10) && s0.outEocArm)
      ∧ (presetProcessHead slew s0 a).1.outEocArm
        = (s0.outEocArm && !decide ((presetProcessHead slew s0 a).2.slew = 10))
      ∧ (presetProcessHead slew s0 a).2.accesses = [] := by
  unfold presetProcessHead
  dsimp only
  refine ⟨rfl, ?_, rfl⟩
  by_cases h10 : (slew ((s0.slewLimiter.setRise (a.inputFade / 10 + a.paramFade)).setShape
      a.paramShape) 10 (a.sampleTime * s0.presetProcessDivision)).2 = 10
  · cases harm : s0.outEocArm <;> split_ifs <;> simp_all
  · cases harm : s0.outEocArm <;> split_ifs <;> simp_all

/-- A call of `presetProcess` with the active slot inside the slot array: it
does not fail, it is a processing tick when the divider fires, and below full
scale the accesses of the tick are those of the binding loop. -/
theorem presetProcess_spec (slew : SlewStep) (eng : Engine) (s : TransitModule)
    (a : ProcessReading) (slot : List Value) (h0 : 0 ≤ s.preset)
    (hslot : s.presetSlot[s.preset.toNat]? = some slot) :
    ∃ s' r, presetProcess slew eng s a = some (s', r)
      ∧ (s.presetProcessDivider.process.1 = true → ∃ tick, r = some tick)
      ∧ ∀ tick, r = some tick → tick.slew ≠ 10 →
        (∀ j, Access.readOld j ∈ tick.accesses → j < s.presetOld.length)
        ∧ (∀ j, Access.readSlot j ∈ tick.accesses →
            j < s.presetOld.length ∧ j < slot.length)
        ∧ (∀ j v, Access.setValue j v ∈ tick.accesses →
            ∃ h a b, s.sourceHandles[j]? = some h ∧ (getParamQuantity eng h).isSome = true
              ∧ s.presetOld[j]? = some a ∧ slot[j]? = some b
              ∧ v = interpolate a b (tick.slew / 10))
        ∧ (∀ j h a b, s.sourceHandles[j]? = some h →
            (getParamQuantity eng h).isSome = true →
            s.presetOld[j]? = some a → slot[j]? = some b →
            Access.setValue j (interpolate a b (tick.slew / 10)) ∈ tick.accesses) := by
  obtain ⟨f1, f2, f3, f4, _, _⟩ := presetProcessHead_frame slew
    { s with presetProcessDivider := s.presetProcessDivider.process.2 } a
  have hne : ¬ s.preset = -1 := by omega
  unfold presetProcess
  dsimp only
  by_cases hf : s.presetProcessDivider.process.1 = true
  · rw [if_pos hf, if_neg hne]
    by_cases h10 : (presetProcessHead slew
        { s with presetProcessDivider := s.presetProcessDivider.process.2 } a).2.slew = 10
    · rw [if_pos h10]
      refine ⟨_, _, rfl, fun _ => ⟨_, rfl⟩, ?_⟩
      intro tick ht hslew
      cases ht
      exact absurd h10 hslew
    · rw [if_neg h10]
      obtain ⟨acc, fin, e, r1, r2, r3, r4⟩ := presetProcessLoop_spec eng
        (presetProcessHead slew
          { s with presetProcessDivider := s.presetProcessDivider.process.2 } a).1
        ((presetProcessHead slew
          { s with presetProcessDivider := s.presetProcessDivider.process.2 } a).2.slew / 10)
        slot (by rw [f1]; exact h0) (by rw [f2, f1]; exact hslot)
        (presetProcessHead slew
          { s with presetProcessDivider := s.presetProcessDivider.process.2 } a).1.sourceHandles
        0
      rw [e]
      refine ⟨_, _, rfl, fun _ => ⟨_, rfl⟩, ?_⟩
      intro tick ht _
      cases ht
      rw [f3, f4] at *
      refine ⟨fun j hj => (r1 j hj).2, fun j hj => (r2 j hj).2, ?_, ?_⟩
      · intro j v hj
        obtain ⟨k, h, a, b, e1, e2, e3, e4, e5, e6⟩ := r3 j v hj
        have hjk : j = k := by omega
        subst hjk
        exact ⟨h, a, b, e2, e3, e4, e5, e6⟩
      · intro j h a b e2 e3 e4 e5
        have := r4 j h a b e2 e3 (by simpa using e4) (by simpa using e5)
        simpa using this
  · rw [if_neg hf]
    exact ⟨_, _, rfl, fun h => absurd h hf, fun tick ht => by cases ht⟩

/-! ## The end-of-cycle pulse -/

/-- One call of `presetProcess` with the active slot none or inside the bank:
it does not fail, it keeps the active slot and the slot bank, and the
end-of-cycle pulse is triggered exactly in a processing tick at full scale with
the arm flag set, which clears the flag. -/
theorem presetProcess_eoc (slew : SlewStep) (eng : Engine) (s : TransitModule)
    (a : ProcessReading) (hact : s.ActiveInBank) :
    ∃ s' r, presetProcess slew eng s a = some (s', r)
      ∧ s'.ActiveInBank
      ∧ (r = none → s'.outEocArm = s.outEocArm)
      ∧ ∀ tick, r = some tick →
          tick.eocTrigger = (decide (tick.slew = 10) && s.outEocArm)
          ∧ s'.outEocArm = (s.outEocArm && !decide (tick.slew = 10)) := by
  obtain ⟨f1, f2, _, _, _, _⟩ := presetProcessHead_frame slew
    { s with presetProcessDivider := s.presetProcessDivider.process.2 } a
  obtain ⟨g1, g2, _⟩ := presetProcessHead_eoc slew
    { s with presetProcessDivider := s.presetProcessDivider.process.2 } a
  unfold presetProcess
  dsimp only
  by_cases hf : s.presetProcessDivider.process.1 = true
  · rw [if_pos hf]
    by_cases hnone : s.preset = -1
    · rw [if_pos hnone]
      exact ⟨_, _, rfl, hact, fun _ => rfl, fun tick ht => by cases ht⟩
    · rw [if_neg hnone]
      have hin : 0 ≤ s.preset ∧ s.preset.toNat < s.presetSlot.length := by
        rcases hact with h | h
        · exact absurd h hnone
        · exact h
      have hact' : (presetProcessHead slew
          { s with presetProcessDivider := s.presetProcessDivider.process.2 } a).1.ActiveInBank := by
        unfold TransitModule.ActiveInBank
        rw [f1, f2]
        exact Or.inr hin
      by_cases h10 : (presetProcessHead slew
          { s with presetProcessDivider := s.presetProcessDivider.process.2 } a).2.slew = 10
      · rw [if_pos h10]
        refine ⟨_, _, rfl, hact', fun h => (by cases h), ?_⟩
        intro tick ht
        cases ht
        exact ⟨g1, g2⟩
      · rw [if_neg h10]
        obtain ⟨slot, hslot⟩ : ∃ slot, s.presetSlot[s.preset.toNat]? = some slot :=
          ⟨_, List.getElem?_eq_getElem hin.2⟩
        obtain ⟨acc, fin, e, _⟩ := presetProcessLoop_spec eng
          (presetProcessHead slew
            { s with presetProcessDivider := s.presetProcessDivider.process.2 } a).1
          ((presetProcessHead slew
            { s with presetProcessDivider := s.presetProcessDivider.process.2 } a).2.slew / 10)
          slot (by rw [f1]; exact hin.1) (by rw [f2, f1]; exact hslot)
          (presetProcessHead slew
            { s with presetProcessDivider := s.presetProcessDivider.process.2 } a).1.sourceHandles
          0
        rw [e]
        refine ⟨_, _, rfl, ?_, fun h => (by cases h), ?_⟩
        · cases fin
          · exact hact'
          · exact hact'
        · intro tick ht
          cases ht
          refine ⟨g1, ?_⟩
          cases fin
          · exact g2
          · exact g2
  · rw [if_neg hf]
    exact ⟨_, _, rfl, hact, fun _ => rfl, fun tick ht => by cases ht⟩

/-- Consecutive calls of `presetProcess`: the run does not fail, the pulse is
triggered in a tick exactly when the arm flag was set at the start, the tick
is at full scale and no earlier tick was, and the number of triggers is 1 when
the flag was set and some tick is at full scale, and 0 otherwise. -/
theorem presetProcessRun_eoc (slew : SlewStep) (as : List (Engine × ProcessReading)) :
    ∀ s : TransitModule, s.ActiveInBank →
      ∃ s' ticks, presetProcessRun slew s as = some (s', ticks)
        ∧ ticks.length = as.length
        ∧ (∀ (i : Nat) (tick : Tick), ticks[i]? = some (some tick) →
            (tick.eocTrigger = true ↔
              s.outEocArm = true ∧ tick.slew = 10
                ∧ ∀ (j : Nat) (tick' : Tick), j < i → ticks[j]? = some (some tick') →
                    tick'.slew ≠ 10))
        ∧ (s.outEocArm = true → (∃ tick, some tick ∈ ticks ∧ tick.slew = 10) →
            eocTriggers ticks = 1)
        ∧ (¬ (s.outEocArm = true ∧ ∃ tick, some tick ∈ ticks ∧ tick.slew = 10) →
            eocTriggers ticks = 0) := by
  induction as with
  | nil =>
    intro s _
    refine ⟨s, [], rfl, rfl, ?_, ?_, ?_⟩
    · intro i tick hi; simp at hi
    · intro _ h; simp at h
    · intro _; rfl
  | cons a as ih =>
    intro s hact
    obtain ⟨s1, r, e1, act1, hnone, hsome⟩ := presetProcess_eoc slew a.1 s a.2 hact
    obtain ⟨s2, ticks, e2, hlen, hchar, hone, hzero⟩ := ih s1 act1
    have hcount : eocTriggers (r :: ticks)
        = (if r.map Tick.eocTrigger = some true then 1 else 0) + eocTriggers ticks := by
      unfold eocTriggers
      rw [List.countP_cons]
      simp only [beq_iff_eq]
      omega
    refine ⟨s2, r :: ticks, by simp only [presetProcessRun, e1, e2], by simp [hlen], ?_, ?_, ?_⟩
    · intro i tick hi
      cases i with
      | zero =>
        simp only [List.getElem?_cons_zero, Option.some.injEq] at hi
        obtain ⟨ht, _⟩ := hsome tick hi
        rw [ht]
        simp only [Bool.and_eq_true, decide_eq_true_eq]
        constructor
        · rintro ⟨h1, h2⟩
          exact ⟨h2, h1, fun j tick' hj => absurd hj (Nat.not_lt_zero j)⟩
        · rintro ⟨h1, h2, _⟩
          exact ⟨h2, h1⟩
      | succ i =>
        simp only [List.getElem?_cons_succ] at hi
        rw [hchar i tick hi]
        cases r with
        | none =>
          rw [hnone rfl]
          constructor
          · rintro ⟨h1, h2, h3⟩
            refine ⟨h1, h2, ?_⟩
            intro j tick' hj hget
            cases j with
            | zero => simp at hget
            | succ j =>
              simp only [List.getElem?_cons_succ] at hget
              exact h3 j tick' (by omega) hget
          · rintro ⟨h1, h2, h3⟩
            exact ⟨h1, h2, fun j tick' hj hget => h3 (j + 1) tick' (by omega) (by simpa using hget)⟩
        | some t0 =>
          obtain ⟨_, harm⟩ := hsome t0 rfl
          rw [harm]
          simp only [Bool.and_eq_true, Bool.not_eq_true', decide_eq_false_iff_not]
          constructor
          · rintro ⟨⟨h1, h0⟩, h2, h3⟩
            refine ⟨h1, h2, ?_⟩
            intro j tick' hj hget
            cases j with
            | zero =>
              simp only [List.getElem?_cons_zero, Option.some.injEq] at hget
              subst hget
              exact h0
            | succ j =>
              simp only [List.getElem?_cons_succ] at hget
              exact h3 j tick' (by omega) hget
          · rintro ⟨h1, h2, h3⟩
            exact ⟨⟨h1, h3 0 t0 (by omega) (by simp)⟩, h2,
              fun j tick' hj hget => h3 (j + 1) tick' (by omega) (by simpa using hget)⟩
    · intro harm hex
      rw [hcount]
      cases r with
      | none =>
        have h1 : s1.outEocArm = true := by rw [hnone rfl]; exact harm
        obtain ⟨tick, hmem, h10⟩ := hex
        simp only [List.mem_cons, reduceCtorEq, false_or] at hmem
        rw [hone h1 ⟨tick, hmem, h10⟩]
        simp
      | some t0 =>
        obtain ⟨htrig, harm1⟩ := hsome t0 rfl
        by_cases h0 : t0.slew = 10
        · have hz : eocTriggers ticks = 0 := by
            apply hzero
            rintro ⟨h1, _⟩
            rw [harm1, harm] at h1
            simp [h0] at h1
          rw [hz]
          simp [htrig, h0, harm]
        · obtain ⟨tick, hmem, h10⟩ := hex
          simp only [List.mem_cons, Option.some.injEq] at hmem
          rcases hmem with hmem | hmem
          · subst hmem
            exact absurd h10 h0
          · have h1 : s1.outEocArm = true := by rw [harm1, harm]; simp [h0]
            rw [hone h1 ⟨tick, hmem, h10⟩]
            simp [htrig, h0]
    · intro hneg
      rw [hcount]
      cases r with
      | none =>
        have hz : eocTriggers ticks = 0 := by
          apply hzero
          rintro ⟨h1, tick, hmem, h10⟩
          rw [hnone rfl] at h1
          exact hneg ⟨h1, tick, List.mem_cons_of_mem _ hmem, h10⟩
        rw [hz]
        simp
      | some t0 =>
        obtain ⟨htrig, harm1⟩ := hsome t0 rfl
        have hz : eocTriggers ticks = 0 := by
          apply hzero
          rintro ⟨h1, tick, hmem, h10⟩
          rw [harm1] at h1
          simp only [Bool.and_eq_true] at h1
          exact hneg ⟨h1.1, tick, List.mem_cons_of_mem _ hmem, h10⟩
        have ht0 : ¬ (t0.slew = 10 ∧ s.outEocArm = true) := by
          rintro ⟨h10, h1⟩
          exact hneg ⟨h1, t0, List.mem_cons_self _ _, h10⟩
        rw [hz]
        simp only [Option.map_some', Option.some.injEq, htrig, Bool.and_eq_true,
          decide_eq_true_eq, if_neg ht0]

/-! ## Persistence -/

/-- The `json_array_foreach` over `"presets"` when the entries fit into the
slot arrays: it does not fail, entry `j` of the document sets slot
`presetIndex + j`, and nothing else changes. -/
theorem dataFromJsonPresets_spec (L : List Json) :
    ∀ (s : TransitModule) (start : Nat),
      start + L.length ≤ s.presetSlotUsed.length →
      start + L.length ≤ s.presetSlot.length →
      ∃ s', dataFromJsonPresets s L start = some s'
        ∧ s' = { s with presetSlotUsed := s'.presetSlotUsed, presetSlot := s'.presetSlot }
        ∧ s'.presetSlotUsed.length = s.presetSlotUsed.length
        ∧ s'.presetSlot.length = s.presetSlot.length
        ∧ (∀ j : Nat, j < L.length →
            s'.presetSlotUsed[start + j]? = (L[j]?).map presetEntryUsed
            ∧ s'.presetSlot[start + j]? = (L[j]?).map presetEntrySlot)
        ∧ (∀ i : Nat, i < start ∨ start + L.length ≤ i →
            s'.presetSlotUsed[i]? = s.presetSlotUsed[i]?
            ∧ s'.presetSlot[i]? = s.presetSlot[i]?) := by
  induction L with
  | nil =>
    intro s start _ _
    exact ⟨s, rfl, rfl, rfl, rfl, fun j hj => absurd hj (Nat.not_lt_zero j),
      fun i _ => ⟨rfl, rfl⟩⟩
  | cons presetJ rest ih =>
    intro s start h1 h2
    simp only [List.length_cons] at h1 h2
    have hslot : (if presetEntryUsed presetJ = true then
          (s.presetSlot.set start []).set start
            ((json_array_elems (json_object_get (some presetJ) "slot")).foldl
              (fun slot vJ => slot ++ [json_real_value (some vJ)]) [])
        else s.presetSlot.set start []) = s.presetSlot.set start (presetEntrySlot presetJ) := by
      unfold presetEntrySlot
      by_cases hu : presetEntryUsed presetJ = true
      · rw [if_pos hu, if_pos hu, List.set_set, foldl_push_eq_map]
        simp
      · rw [if_neg hu, if_neg hu]
    obtain ⟨s', e, hframe, l1, l2, hin, hout⟩ := ih
      { s with
        presetSlotUsed := s.presetSlotUsed.set start (presetEntryUsed presetJ)
        presetSlot := s.presetSlot.set start (presetEntrySlot presetJ) }
      (start + 1) (by simp; omega) (by simp; omega)
    simp only [List.length_set] at l1 l2
    have hstep : dataFromJsonPresets s (presetJ :: rest) start = some s' := by
      rw [← e]
      conv_lhs => unfold dataFromJsonPresets
      rw [if_pos ⟨by omega, by omega⟩]
      dsimp only
      congr 1
      by_cases hu : presetEntryUsed presetJ = true
      · have hu' : json_boolean_value (json_object_get (some presetJ) "slotUsed") = true := hu
        simp only [hu', if_true]
        rw [← hslot, if_pos hu, hu]
      · have hu' : json_boolean_value (json_object_get (some presetJ) "slotUsed") = false := by
          simpa [presetEntryUsed] using hu
        simp only [hu', Bool.false_eq_true, if_false]
        rw [← hslot, if_neg hu]
        have : presetEntryUsed presetJ = false := by simpa using hu
        rw [this]
    refine ⟨s', hstep, ?_, l1, l2, ?_, ?_⟩
    · rw [hframe]
    · intro j hj
      cases j with
      | zero =>
        obtain ⟨o1, o2⟩ := hout start (Or.inl (by omega))
        rw [Nat.add_zero, o1, o2]
        simp only [List.getElem?_set, if_true, List.getElem?_cons_zero, Option.map_some']
        rw [if_pos (by omega), if_pos (by omega)]
        exact ⟨rfl, rfl⟩
      | succ j =>
        obtain ⟨i1, i2⟩ := hin j (by simp only [List.length_cons] at hj; omega)
        have hidx : start + (j + 1) = start + 1 + j := by omega
        rw [hidx, i1, i2]
        simp
    · intro i hi
      obtain ⟨o1, o2⟩ := hout i (by simp only [List.length_cons] at hi; omega)
      rw [o1, o2]
      simp only [List.getElem?_set]
      have : ¬ start = i := by
        simp only [List.length_cons] at hi
        omega
      rw [if_neg this, if_neg this]
      exact ⟨rfl, rfl⟩

/-- A loop that appends one element per step builds the array of these
elements. -/
theorem foldl_json_array {α : Type} (f : Json → α → Json) (g : α → Json)
    (hf : ∀ init x, f (Json.array init) x = Json.array (init ++ [g x]))
    (l : List α) (init : List Json) :
    l.foldl f (Json.array init) = Json.array (init ++ l.map g) := by
  induction l generalizing init with
  | nil => simp
  | cons x xs ih =>
    rw [List.foldl_cons, hf, ih]
    simp

theorem json_real_foldl (l : List Value) (init : List Json) :
    l.foldl (fun slotJ v => json_array_append_new slotJ (Json.real v)) (Json.array init)
      = Json.array (init ++ l.map Json.real) :=
  foldl_json_array _ _ (fun _ _ => rfl) l init

/-- The `"sourceMaps"` array that `dataToJson` builds. -/
theorem sourceMaps_foldl (l : List ParamHandle) (init : List Json) :
    l.foldl
        (fun sourceMapsJ h =>
          let sourceMapJ := json_object
          let sourceMapJ := json_object_set_new sourceMapJ "moduleId" (Json.integer h.moduleId)
          let sourceMapJ := json_object_set_new sourceMapJ "paramId" (Json.integer h.paramId)
          json_array_append_new sourceMapsJ sourceMapJ)
        (Json.array init)
      = Json.array (init ++ l.map (fun h =>
          Json.object [("moduleId", Json.integer h.moduleId),
            ("paramId", Json.integer h.paramId)])) :=
  foldl_json_array _ _ (fun _ _ => rfl) l init

/-- The `"presets"` array that `dataToJson` builds. -/
theorem presets_foldl (s : TransitModule) (l : List Nat) (init : List Json) :
    l.foldl
        (fun presetsJ i =>
          let presetJ := json_object
          let presetJ := json_object_set_new presetJ "slotUsed"
            (Json.boolean (s.presetSlotUsed.getD i false))
          let presetJ :=
            if s.presetSlotUsed.getD i false = true then
              let slotJ := (s.presetSlot.getD i []).foldl
                (fun slotJ v => json_array_append_new slotJ (Json.real v)) json_array
              json_object_set_new presetJ "slot" slotJ
            else presetJ
          json_array_append_new presetsJ presetJ)
        (Json.array init)
      = Json.array (init ++ l.map (fun i =>
          if s.presetSlotUsed.getD i false = true then
            Json.object [("slotUsed", Json.boolean true),
              ("slot", Json.array ((s.presetSlot.getD i []).map Json.real))]
          else Json.object [("slotUsed", Json.boolean false)])) := by
  apply foldl_json_array
  intro init x
  have hreal := json_real_foldl (s.presetSlot.getD x []) []
  simp only [List.nil_append] at hreal
  dsimp only
  by_cases hu : s.presetSlotUsed.getD x false = true
  · rw [if_pos hu, if_pos hu, hu]
    unfold json_array
    rw [hreal]
    rfl
  · have hu' : s.presetSlotUsed.getD x false = false := by simpa using hu
    rw [if_neg hu, if_neg hu, hu']
    rfl

/-- The document `dataToJson` builds, as a literal. -/
theorem dataToJson_eq (N : Nat) (s : TransitModule) :
    dataToJson N s = Json.object
      [("panelTheme", Json.integer s.panelTheme),
       ("mappingIndicatorHidden", Json.boolean s.mappingIndicatorHidden),
       ("presetProcessDivision", Json.integer s.presetProcessDivision),
       ("slotCvMode", Json.integer s.slotCvMode),
       ("outMode", Json.integer s.outMode),
       ("preset", Json.integer s.preset),
       ("presetCount", Json.integer s.presetCount),
       ("sourceMaps", Json.array (s.sourceHandles.map (fun h =>
          Json.object [("moduleId", Json.integer h.moduleId),
            ("paramId", Json.integer h.paramId)]))),
       ("presets", Json.array ((List.range N).map (fun i =>
          if s.presetSlotUsed.getD i false = true then
            Json.object [("slotUsed", Json.boolean true),
              ("slot", Json.array ((s.presetSlot.getD i []).map Json.real))]
          else Json.object [("slotUsed", Json.boolean false)])))] := by
  have h1 := sourceMaps_foldl s.sourceHandles []
  have h2 := presets_foldl s (List.range N) []
  simp only [List.nil_append] at h1 h2
  rw [← h1, ← h2]
  rfl

theorem dataToJson_panelTheme (N : Nat) (s : TransitModule) :
    json_object_get (some (dataToJson N s)) "panelTheme" = some (Json.integer s.panelTheme) := by
  rw [dataToJson_eq]; rfl

theorem dataToJson_mappingIndicatorHidden (N : Nat) (s : TransitModule) :
    json_object_get (some (dataToJson N s)) "mappingIndicatorHidden"
      = some (Json.boolean s.mappingIndicatorHidden) := by
  rw [dataToJson_eq]; rfl

theorem dataToJson_presetProcessDivision (N : Nat) (s : TransitModule) :
    json_object_get (some (dataToJson N s)) "presetProcessDivision"
      = some (Json.integer s.presetProcessDivision) := by
  rw [dataToJson_eq]; rfl

theorem dataToJson_slotCvMode (N : Nat) (s : TransitModule) :
    json_object_get (some (dataToJson N s)) "slotCvMode" = some (Json.integer s.slotCvMode) := by
  rw [dataToJson_eq]; rfl

theorem dataToJson_outMode (N : Nat) (s : TransitModule) :
    json_object_get (some (dataToJson N s)) "outMode" = some (Json.integer s.outMode) := by
  rw [dataToJson_eq]; rfl

theorem dataToJson_preset (N : Nat) (s : TransitModule) :
    json_object_get (some (dataToJson N s)) "preset" = some (Json.integer s.preset) := by
  rw [dataToJson_eq]; rfl

theorem dataToJson_presetCount (N : Nat) (s : TransitModule) :
    json_object_get (some (dataToJson N s)) "presetCount"
      = some (Json.integer s.presetCount) := by
  rw [dataToJson_eq]; rfl

theorem dataToJson_sourceMaps (N : Nat) (s : TransitModule) :
    json_object_get (some (dataToJson N s)) "sourceMaps"
      = some (Json.array (s.sourceHandles.map (fun h =>
          Json.object [("moduleId", Json.integer h.moduleId),
            ("paramId", Json.integer h.paramId)]))) := by
  rw [dataToJson_eq]; rfl

theorem dataToJson_presets (N : Nat) (s : TransitModule) :
    json_object_get (some (dataToJson N s)) "presets"
      = some (Json.array ((List.range N).map (fun i =>
          if s.presetSlotUsed.getD i false = true then
            Json.object [("slotUsed", Json.boolean true),
              ("slot", Json.array ((s.presetSlot.getD i []).map Json.real))]
          else Json.object [("slotUsed", Json.boolean false)]))) := by
  rw [dataToJson_eq]; rfl

/-- The loop of `dataFromJson` over the `"sourceMaps"` that `dataToJson` wrote
appends the handles that were written. -/
theorem sourceHandles_foldl (eng : Engine) (l init : List ParamHandle) :
    (l.map (fun h =>
        Json.object [("moduleId", Json.integer h.moduleId),
          ("paramId", Json.integer h.paramId)])).foldl
      (fun sourceHandles sourceMapJ =>
        let moduleIdJ := json_object_get (some sourceMapJ) "moduleId"
        let paramIdJ := json_object_get (some sourceMapJ) "paramId"
        let sourceHandle := eng.updateParamHandle (json_integer_value moduleIdJ)
          (json_integer_value paramIdJ) false
        sourceHandles ++ [sourceHandle])
      init
    = init ++ l := by
  induction l generalizing init with
  | nil => simp
  | cons x xs ih =>
    rw [List.map_cons, List.foldl_cons, ih]
    have : eng.updateParamHandle
        (json_integer_value (json_object_get (some (Json.object
          [("moduleId", Json.integer x.moduleId), ("paramId", Json.integer x.paramId)]))
          "moduleId"))
        (json_integer_value (json_object_get (some (Json.object
          [("moduleId", Json.integer x.moduleId), ("paramId", Json.integer x.paramId)]))
          "paramId")) false = x := rfl
    dsimp only
    rw [this]
    simp

/-- Reading back the used flag of the entry `dataToJson` wrote for a slot. -/
theorem presetEntryUsed_written (used : Bool) (vals : List Value) :
    presetEntryUsed (if used = true then
        Json.object [("slotUsed", Json.boolean true), ("slot", Json.array (vals.map Json.real))]
      else Json.object [("slotUsed", Json.boolean false)]) = used := by
  cases used <;> rfl

/-- Reading back the values of the entry `dataToJson` wrote for a slot. -/
theorem presetEntrySlot_written (used : Bool) (vals : List Value) :
    presetEntrySlot (if used = true then
        Json.object [("slotUsed", Json.boolean true), ("slot", Json.array (vals.map Json.real))]
      else Json.object [("slotUsed", Json.boolean false)])
      = if used = true then vals else [] := by
  cases used with
  | false => rfl
  | true =>
    have h1 : presetEntryUsed (Json.object [("slotUsed", Json.boolean true),
        ("slot", Json.array (vals.map Json.real))]) = true := rfl
    have h2 : json_array_elems (json_object_get (some (Json.object
        [("slotUsed", Json.boolean true), ("slot", Json.array (vals.map Json.real))])) "slot")
        = vals.map Json.real := rfl
    simp only [if_true]
    unfold presetEntrySlot
    rw [if_pos h1, h2, List.map_map]
    have : ((fun vJ => json_real_value (some vJ)) ∘ Json.real) = id := by
      funext v; rfl
    rw [this, List.map_id]

/-! ## The slot bank -/

theorem length_filterMap_eq_countP {α β : Type} (f : α → Option β) (l : List α) :
    (l.filterMap f).length = l.countP (fun x => (f x).isSome) := by
  induction l with
  | nil => rfl
  | cons x xs ih =>
    rw [List.filterMap_cons, List.countP_cons]
    cases hx : f x <;> simp [ih]

theorem filterMap_eq_map_of_all {α β : Type} (f : α → Option β) (g : α → β) (l : List α)
    (h : ∀ x ∈ l, f x = some (g x)) : l.filterMap f = l.map g := by
  induction l with
  | nil => rfl
  | cons x xs ih =>
    rw [List.filterMap_cons, h x (List.mem_cons_self _ _), List.map_cons,
      ih (fun y hy => h y (List.mem_cons_of_mem _ hy))]

/-! ## Unused slots are empty in every state the module reaches -/

/-- The backfill loop of `bindParameter` over the first `n` slots: it appends
`v` to the values of every used slot below `n` and keeps the others. -/
theorem bindParameter_loop (used : List Bool) (v : Value) (slots : List (List Value))
    (n : Nat) :
    ((List.range n).foldl
        (fun presetSlot i =>
          if used.getD i false = false then presetSlot
          else presetSlot.set i (presetSlot.getD i [] ++ [v]))
        slots).length = slots.length
      ∧ ∀ i : Nat,
          ((List.range n).foldl
            (fun presetSlot i =>
              if used.getD i false = false then presetSlot
              else presetSlot.set i (presetSlot.getD i [] ++ [v]))
            slots)[i]?
          = if i < n ∧ used.getD i false = true then (slots[i]?).map (fun x => x ++ [v])
            else slots[i]? := by
  induction n with
  | zero =>
    refine ⟨rfl, fun i => ?_⟩
    rw [if_neg (by omega)]
    rfl
  | succ n ih =>
    obtain ⟨hl, hg⟩ := ih
    rw [List.range_succ, List.foldl_append, List.foldl_cons, List.foldl_nil]
    by_cases hu : used.getD n false = false
    · rw [if_pos hu]
      refine ⟨hl, fun i => ?_⟩
      rw [hg i]
      by_cases hi : i = n
      · subst hi
        rw [if_neg (by omega), if_neg (by rw [hu]; simp)]
      · by_cases hc : i < n ∧ used.getD i false = true
        · rw [if_pos hc, if_pos ⟨by omega, hc.2⟩]
        · rw [if_neg hc, if_neg (fun h => hc ⟨by omega, h.2⟩)]
    · rw [if_neg hu]
      have hu' : used.getD n false = true := by simpa using hu
      refine ⟨by rw [List.length_set, hl], fun i => ?_⟩
      rw [List.getElem?_set]
      by_cases hi : n = i
      · subst hi
        rw [if_pos rfl, hl]
        have hn := hg n
        rw [if_neg (by omega)] at hn
        by_cases hlt : n < slots.length
        · rw [if_pos hlt, if_pos ⟨by omega, hu'⟩, List.getD_eq_getElem?_getD, hn,
            List.getElem?_eq_getElem hlt]
          rfl
        · rw [if_neg hlt, if_pos ⟨by omega, hu'⟩, List.getElem?_eq_none (by omega)]
          rfl
      · rw [if_neg hi, hg i]
        by_cases hc : i < n ∧ used.getD i false = true
        · rw [if_pos hc, if_pos ⟨by omega, hc.2⟩]
        · rw [if_neg hc, if_neg (fun h => hc ⟨by omega, h.2⟩)]

/-- `bindParameter` on the slot bank: the used flags are kept, and the values
of slot `i` get the new parameter's value appended exactly when the binding
resolves and the slot is used. -/
theorem bindParameter_slots (N : Nat) (eng : Engine) (s : TransitModule)
    (moduleId paramId : Int) (hN : s.Sized N) :
    (bindParameter N eng s moduleId paramId).presetSlotUsed = s.presetSlotUsed
      ∧ (bindParameter N eng s moduleId paramId).presetSlot.length = s.presetSlot.length
      ∧ ∀ i : Nat, (bindParameter N eng s moduleId paramId).presetSlot[i]?
          = match getParamQuantity eng (eng.updateParamHandle moduleId paramId true) with
            | none => s.presetSlot[i]?
            | some pq =>
              if s.presetSlotUsed[i]? = some true
              then (s.presetSlot[i]?).map (fun x => x ++ [pq.value])
              else s.presetSlot[i]? := by
  unfold bindParameter
  dsimp only
  cases hq : getParamQuantity eng (eng.updateParamHandle moduleId paramId true) with
  | none => exact ⟨rfl, rfl, fun _ => rfl⟩
  | some pq =>
    obtain ⟨hl, hg⟩ := bindParameter_loop s.presetSlotUsed pq.value s.presetSlot N
    refine ⟨rfl, hl, fun i => ?_⟩
    dsimp only
    rw [hg i]
    by_cases hi : i < N
    · have hget : s.presetSlotUsed[i]? = some (s.presetSlotUsed.getD i false) := by
        rw [List.getD_eq_getElem?_getD, List.getElem?_eq_getElem (by rw [hN.1]; exact hi)]
        rfl
      rw [hget]
      by_cases hu : s.presetSlotUsed.getD i false = true
      · rw [if_pos ⟨hi, hu⟩, if_pos (by rw [hu])]
      · rw [if_neg (fun h => hu h.2), if_neg (by simpa using hu)]
    · rw [if_neg (fun h => hi h.1), List.getElem?_eq_none (l := s.presetSlotUsed)
        (by rw [hN.1]; omega)]
      simp

theorem onReset_sized (N : Nat) (s : TransitModule) : (onReset N s).Sized N := by
  unfold onReset TransitModule.Sized
  simp

theorem onReset_slotsClean (N : Nat) (s : TransitModule) : (onReset N s).SlotsClean := by
  intro i hi _
  have hN : i < N := by
    have : (onReset N s).presetSlotUsed.length = N := (onReset_sized N s).1
    omega
  show (List.replicate N ([] : List Value))[i]? = some []
  rw [List.getElem?_replicate, if_pos hN]

theorem presetSave_slotsClean (eng : Engine) (s s' : TransitModule) (p : Int)
    (hc : s.SlotsClean) (h : presetSave eng s p = some s') : s'.SlotsClean := by
  unfold presetSave at h
  split_ifs at h with hcond
  simp only [Option.some.injEq] at h
  subst h
  intro i hi hu
  simp only [List.length_set] at hi
  simp only [List.getElem?_set] at hu ⊢
  by_cases hip : p.toNat = i
  · rw [if_pos hip, if_pos (by omega)] at hu
    cases hu
  · rw [if_neg hip] at hu ⊢
    exact hc i hi hu

theorem presetClear_slotsClean (s s' : TransitModule) (p : Int)
    (hc : s.SlotsClean) (h : presetClear s p = some s') : s'.SlotsClean := by
  unfold presetClear at h
  split_ifs at h with hcond
  simp only [Option.some.injEq] at h
  have key : ∀ i : Nat, i < s.presetSlotUsed.length →
      (s.presetSlotUsed.set p.toNat false)[i]? = some false →
      (s.presetSlot.set p.toNat [])[i]? = some [] := by
    intro i hi hu
    simp only [List.getElem?_set] at hu ⊢
    by_cases hip : p.toNat = i
    · rw [if_pos hip, if_pos (by omega)]
    · rw [if_neg hip] at hu ⊢
      exact hc i hi hu
  intro i hi hu
  split_ifs at h <;> subst h <;> exact key i (by simpa using hi) hu

theorem bindParameter_slotsClean (N : Nat) (eng : Engine) (s : TransitModule)
    (moduleId paramId : Int) (hN : s.Sized N) (hc : s.SlotsClean) :
    (bindParameter N eng s moduleId paramId).SlotsClean := by
  obtain ⟨hu, _, hg⟩ := bindParameter_slots N eng s moduleId paramId hN
  intro i hi hun
  rw [hu] at hi hun
  rw [hg i]
  cases getParamQuantity eng (eng.updateParamHandle moduleId paramId true) with
  | none => exact hc i hi hun
  | some pq =>
    dsimp only
    rw [if_neg (by rw [hun]; simp)]
    exact hc i hi hun

/-- `presetSetCount` does not touch the slot bank. -/
theorem presetSetCount_slots (s : TransitModule) (n : Int) :
    (presetSetCount s n).presetSlotUsed = s.presetSlotUsed
      ∧ (presetSetCount s n).presetSlot = s.presetSlot := by
  unfold presetSetCount
  dsimp only
  split_ifs <;> exact ⟨rfl, rfl⟩

/-- `presetLoad` does not touch the slot bank. -/
theorem presetLoad_slots (eng : Engine) (s s' : TransitModule) (p : Int)
    (isNext force : Bool) (h : presetLoad eng s p isNext force = some s') :
    s'.presetSlotUsed = s.presetSlotUsed ∧ s'.presetSlot = s.presetSlot := by
  unfold presetLoad at h
  by_cases h1 : p < 0 ∨ p ≥ s.presetCount
  · rw [if_pos h1] at h
    cases h
    exact ⟨rfl, rfl⟩
  · rw [if_neg h1] at h
    by_cases h2 : isNext = false
    · rw [if_pos h2] at h
      by_cases h3 : p ≠ s.preset ∨ force = true
      · rw [if_pos h3] at h
        dsimp only at h
        cases hu : s.presetSlotUsed[p.toNat]? with
        | none => rw [hu] at h; cases h
        | some b =>
          rw [hu] at h
          cases b <;> (cases h; exact ⟨rfl, rfl⟩)
      · rw [if_neg h3] at h
        cases h
        exact ⟨rfl, rfl⟩
    · rw [if_neg h2] at h
      cases hu : s.presetSlotUsed[p.toNat]? with
      | none => rw [hu] at h; cases h
      | some b =>
        rw [hu] at h
        cases b <;> (cases h; exact ⟨rfl, rfl⟩)

/-- The SLOT input does not touch the slot bank. -/
theorem processSlotInput_slots (N : Nat) (eng : Engine) (s s' : TransitModule)
    (r : SlotReading) (h : processSlotInput N eng s r = some s') :
    s'.presetSlotUsed = s.presetSlotUsed ∧ s'.presetSlot = s.presetSlot := by
  by_cases hm : s.slotCvMode = SLOTCVMODE.TRIG_PINGPONG
  · by_cases ht : r.trigger = true
    · rw [pingpong_step_eq N eng s r hm ht] at h
      have := presetLoad_slots _ _ _ _ _ _ h
      exact this
    · have hV : ¬ s.slotCvMode = SLOTCVMODE.VOLT := by rw [hm]; decide
      have hC : ¬ s.slotCvMode = SLOTCVMODE.C4 := by rw [hm]; decide
      have hF : ¬ s.slotCvMode = SLOTCVMODE.TRIG_FWD := by rw [hm]; decide
      have hR : ¬ s.slotCvMode = SLOTCVMODE.TRIG_REV := by rw [hm]; decide
      unfold processSlotInput at h
      rw [if_neg hV, if_neg hC, if_neg hF, if_neg hR, if_pos hm, if_neg ht] at h
      cases h
      exact ⟨rfl, rfl⟩
  · unfold processSlotInput at h
    rw [if_neg hm] at h
    split_ifs at h
    all_goals first
      | exact presetLoad_slots _ _ _ _ _ _ h
      | (cases h; exact ⟨rfl, rfl⟩)

/-- `presetProcess` does not touch the slot bank. -/
theorem presetProcess_slots (slew : SlewStep) (eng : Engine) (s s' : TransitModule)
    (a : ProcessReading) (tick : Option Tick)
    (h : presetProcess slew eng s a = some (s', tick)) :
    s'.presetSlotUsed = s.presetSlotUsed ∧ s'.presetSlot = s.presetSlot := by
  obtain ⟨_, f2, _, _, f5, _⟩ := presetProcessHead_frame slew
    { s with presetProcessDivider := s.presetProcessDivider.process.2 } a
  unfold presetProcess at h
  dsimp only at h
  split_ifs at h
  · cases h; exact ⟨rfl, rfl⟩
  · cases h; exact ⟨f5, f2⟩
  · split at h
    · cases h
    · cases h
      split_ifs
      · exact ⟨f5, f2⟩
      · exact ⟨f5, f2⟩
  · cases h; exact ⟨rfl, rfl⟩

/-- The `json_array_foreach` over `"presets"` keeps the lengths of the slot
arrays and keeps unused slots empty. -/
theorem dataFromJsonPresets_slotsClean (L : List Json) :
    ∀ (s s' : TransitModule) (start : Nat), dataFromJsonPresets s L start = some s' →
      s.SlotsClean →
      s'.SlotsClean ∧ s'.presetSlotUsed.length = s.presetSlotUsed.length
        ∧ s'.presetSlot.length = s.presetSlot.length := by
  induction L with
  | nil =>
    intro s s' start h hc
    cases h
    exact ⟨hc, rfl, rfl⟩
  | cons presetJ rest ih =>
    intro s s' start h hc
    unfold dataFromJsonPresets at h
    by_cases hcond : start < s.presetSlotUsed.length ∧ start < s.presetSlot.length
    · rw [if_pos hcond] at h
      dsimp only at h
      by_cases hu0 : json_boolean_value (json_object_get (some presetJ) "slotUsed") = true
      · rw [if_pos hu0] at h
        obtain ⟨c, l1, l2⟩ := ih _ s' (start + 1) h (by
          intro i hi hu
          simp only [List.length_set, List.getElem?_set] at hi hu ⊢
          by_cases his : start = i
          · rw [if_pos his, if_pos (by omega), hu0] at hu
            cases hu
          · rw [if_neg his] at hu ⊢
            rw [if_neg his]
            exact hc i hi hu)
        exact ⟨c, by rw [l1]; simp, by rw [l2]; simp⟩
      · rw [if_neg hu0] at h
        have hu0' : json_boolean_value (json_object_get (some presetJ) "slotUsed") = false := by
          simpa using hu0
        obtain ⟨c, l1, l2⟩ := ih _ s' (start + 1) h (by
          intro i hi hu
          simp only [List.length_set, List.getElem?_set] at hi hu ⊢
          by_cases his : start = i
          · rw [if_pos his, if_pos (by omega)]
          · rw [if_neg his] at hu ⊢
            exact hc i hi hu)
        exact ⟨c, by rw [l1]; simp, by rw [l2]; simp⟩
    · rw [if_neg hcond] at h
      cases h

/-- `dataFromJson` keeps the lengths of the slot arrays and keeps unused
slots empty. -/
theorem dataFromJson_slotsClean (N : Nat) (eng : Engine) (id : Int) (s s' : TransitModule)
    (rootJ : Json) (h : dataFromJson eng id s rootJ = some s') (hN : s.Sized N)
    (hc : s.SlotsClean) : s'.Sized N ∧ s'.SlotsClean := by
  unfold dataFromJson at h
  dsimp only at h
  split_ifs at h
  · cases h
    exact ⟨hN, hc⟩
  · split at h
    · cases h
    · rename_i s3 e3
      obtain ⟨c, l1, l2⟩ := dataFromJsonPresets_slotsClean _ _ s3 0 e3 hc
      have hsz : s3.Sized N := ⟨by rw [l1]; exact hN.1, by rw [l2]; exact hN.2⟩
      cases h
      split_ifs
      · exact ⟨hsz, c⟩
      · exact ⟨hsz, c⟩

/-- In every state the module reaches the slot arrays have `N` entries and
every unused slot is empty. -/
theorem Reachable.sized_slotsClean (N : Nat) (s : TransitModule) (h : Reachable N s) :
    s.Sized N ∧ s.SlotsClean := by
  induction h with
  | construct theme raw => exact ⟨onReset_sized N _, onReset_slotsClean N _⟩
  | onReset _ _ => exact ⟨onReset_sized N _, onReset_slotsClean N _⟩
  | presetLoad eng p isNext force _ hstep ih =>
    obtain ⟨h1, h2⟩ := presetLoad_slots _ _ _ _ _ _ hstep
    exact ⟨⟨by rw [h1]; exact ih.1.1, by rw [h2]; exact ih.1.2⟩,
      fun i hi hu => by rw [h1] at hi hu; rw [h2]; exact ih.2 i hi hu⟩
  | processSlotInput eng r _ hstep ih =>
    obtain ⟨h1, h2⟩ := processSlotInput_slots _ _ _ _ _ hstep
    exact ⟨⟨by rw [h1]; exact ih.1.1, by rw [h2]; exact ih.1.2⟩,
      fun i hi hu => by rw [h1] at hi hu; rw [h2]; exact ih.2 i hi hu⟩
  | presetSave eng p _ hstep ih =>
    refine ⟨?_, presetSave_slotsClean _ _ _ _ ih.2 hstep⟩
    unfold Transit.presetSave at hstep
    split_ifs at hstep
    cases hstep
    exact ⟨by simp [ih.1.1], by simp [ih.1.2]⟩
  | presetClear p _ hstep ih =>
    refine ⟨?_, presetClear_slotsClean _ _ _ ih.2 hstep⟩
    unfold Transit.presetClear at hstep
    split_ifs at hstep
    cases hstep
    exact ⟨by split_ifs <;> simp [ih.1.1], by split_ifs <;> simp [ih.1.2]⟩
  | presetSetCount p _ ih =>
    obtain ⟨h1, h2⟩ := presetSetCount_slots _ p
    exact ⟨⟨by rw [h1]; exact ih.1.1, by rw [h2]; exact ih.1.2⟩,
      fun i hi hu => by rw [h1] at hi hu; rw [h2]; exact ih.2 i hi hu⟩
  | bindParameter eng moduleId paramId _ ih =>
    obtain ⟨h1, h2, _⟩ := bindParameter_slots N eng _ moduleId paramId ih.1
    exact ⟨⟨by rw [h1]; exact ih.1.1, by rw [h2]; exact ih.1.2⟩,
      bindParameter_slotsClean N eng _ moduleId paramId ih.1 ih.2⟩
  | presetProcess slew eng a tick _ hstep ih =>
    obtain ⟨h1, h2⟩ := presetProcess_slots _ _ _ _ _ _ hstep
    exact ⟨⟨by rw [h1]; exact ih.1.1, by rw [h2]; exact ih.1.2⟩,
      fun i hi hu => by rw [h1] at hi hu; rw [h2]; exact ih.2 i hi hu⟩
  | dataFromJson eng id rootJ _ hstep ih =>
    exact dataFromJson_slotsClean N eng id _ _ rootJ hstep ih.1 ih.2
  | menuSlotCvMode _ _ ih => exact ih
  | menuOutMode _ _ ih => exact ih
  | menuPrecision _ _ ih => exact ih
  | menuMappingIndicatorHidden _ ih => exact ih

/-! ## Rounding and interpolation -/

/-- `std::round` of an integer is that integer. -/
theorem cround_intCast (n : Int) : cround (n : Value) = n := by
  unfold cround
  split_ifs with h
  · rw [Int.floor_eq_iff]
    constructor
    · linarith
    · linarith
  · rw [Int.ceil_eq_iff]
    constructor
    · linarith
    · linarith

/-- `std::round` is within one half of its argument. -/
theorem cround_abs_le (x : Value) : |((cround x : Int) : Value) - x| ≤ 1 / 2 := by
  unfold cround
  split_ifs with h
  · have h1 := Int.floor_le (x + 1 / 2)
    have h2 := Int.lt_floor_add_one (x + 1 / 2)
    rw [abs_le]
    constructor <;> linarith
  · have h1 := Int.le_ceil (x - 1 / 2)
    have h2 := Int.ceil_lt_add_one (x - 1 / 2)
    rw [abs_le]
    constructor <;> linarith

/-- `std::round` gives a nearest integer. -/
theorem cround_nearest (x : Value) (m : Int) :
    |((cround x : Int) : Value) - x| ≤ |(m : Value) - x| := by
  by_cases hm : m = cround x
  · rw [hm]
  · have hc := cround_abs_le x
    have hne : m - cround x ≠ 0 := sub_ne_zero.mpr hm
    have h1 : (1 : Int) ≤ |m - cround x| := Int.one_le_abs hne
    have h2 : (1 : Value) ≤ |(m : Value) - (cround x : Int)| := by
      have : ((|m - cround x| : Int) : Value) = |(m : Value) - (cround x : Int)| := by
        push_cast
        rfl
      rw [← this]
      exact_mod_cast h1
    have h3 : |(m : Value) - (cround x : Int)| ≤ |(m : Value) - x| + |((cround x : Int) : Value) - x| := by
      have := abs_sub_le (m : Value) x (cround x : Int)
      rw [abs_sub_comm x ((cround x : Int) : Value)] at this
      exact this
    linarith

/-- The written value, unfolded: the crossfade `a + (b - a) t`, replaced by its
rounding when `t > 1 - 0.005` and the rounding is closer than `0.005`. -/
theorem interpolate_eq (a b t : Value) :
    interpolate a b t
      = if t > 1 - 5 / 1000 ∧ |((cround (a + (b - a) * t) : Int) : Value) - (a + (b - a) * t)|
            < 5 / 1000
        then ((cround (a + (b - a) * t) : Int) : Value) else a + (b - a) * t := rfl

/-- When the crossfade is an integer, the written value is that integer. -/
theorem interpolate_of_int (a b t : Value) (n : Int) (h : a + (b - a) * t = n) :
    interpolate a b t = n := by
  rw [interpolate_eq, h, cround_intCast]
  split_ifs <;> rfl

/-! ## The auxiliary output -/

/-- `PulseGenerator::process` reports whether time remains. -/
theorem PulseGenerator.process_fst (g : PulseGenerator) (deltaTime : Value) :
    (g.process deltaTime).1 = decide (g.remaining > 0) := by
  unfold PulseGenerator.process
  split_ifs with h <;> simp [h]

/-- After `trigger(1e-3)` time remains. -/
theorem PulseGenerator.trigger_remaining (g : PulseGenerator) :
    (g.trigger (1 / 1000)).remaining > 0 := by
  unfold PulseGenerator.trigger
  split_ifs with h
  · show (1 / 1000 : Value) > 0
    norm_num
  · have : (1 / 1000 : Value) > 0 := by norm_num
    simp only [gt_iff_lt, not_lt] at h
    exact lt_of_lt_of_le this h

/-- The output that the head of a processing tick sets, by output mode; the
pulse generator is the one left by the end-of-cycle test of the same tick. -/
theorem presetProcessHead_output (slew : SlewStep) (s0 : TransitModule) (a : ProcessReading) :
    (presetProcessHead slew s0 a).2.output
      = if s0.outMode = OUTMODE.ENV then
          some (if (presetProcessHead slew s0 a).2.slew = 10 then 0
            else (presetProcessHead slew s0 a).2.slew)
        else if s0.outMode = OUTMODE.GATE then
          some (if (presetProcessHead slew s0 a).2.slew ≠ 10 then 10 else 0)
        else if s0.outMode = OUTMODE.EOC then
          some (if (if (presetProcessHead slew s0 a).2.eocTrigger = true
                    then s0.outEocPulseGenerator.trigger (1 / 1000)
                    else s0.outEocPulseGenerator).remaining > 0
                then 10 else 0)
        else none := by
  unfold presetProcessHead
  dsimp only
  by_cases he : (decide ((slew ((s0.slewLimiter.setRise (a.inputFade / 10 + a.paramFade)).setShape
      a.paramShape) 10 (a.sampleTime * s0.presetProcessDivision)).2 = 10) && s0.outEocArm) = true
  · simp only [he, if_true, PulseGenerator.process_fst, decide_eq_true_eq]
  · simp only [he, Bool.false_eq_true, if_false, PulseGenerator.process_fst, decide_eq_true_eq]

/-- A call of `presetProcess` with the active slot none or inside the bank does
not fail; it is a processing tick exactly when the divider fires and a slot is
active, and the tick carries the slew output, the pulse trigger and the output
of the head of the tick. -/
theorem presetProcess_tick (slew : SlewStep) (eng : Engine) (s : TransitModule)
    (a : ProcessReading) (hact : s.ActiveInBank) :
    ∃ s' log, presetProcess slew eng s a = some (s', log)
      ∧ (s.presetProcessDivider.process.1 = true → s.preset ≠ -1 → ∃ tick, log = some tick)
      ∧ ∀ tick, log = some tick →
          tick.slew = (presetProcessHead slew
              { s with presetProcessDivider := s.presetProcessDivider.process.2 } a).2.slew
          ∧ tick.eocTrigger = (presetProcessHead slew
              { s with presetProcessDivider := s.presetProcessDivider.process.2 } a).2.eocTrigger
          ∧ tick.output = (presetProcessHead slew
              { s with presetProcessDivider := s.presetProcessDivider.process.2 } a).2.output := by
  obtain ⟨f1, f2, _, _, _, _⟩ := presetProcessHead_frame slew
    { s with presetProcessDivider := s.presetProcessDivider.process.2 } a
  unfold presetProcess
  dsimp only
  by_cases hf : s.presetProcessDivider.process.1 = true
  · rw [if_pos hf]
    by_cases hnone : s.preset = -1
    · rw [if_pos hnone]
      exact ⟨_, _, rfl, fun _ h => absurd hnone h, fun tick ht => by cases ht⟩
    · rw [if_neg hnone]
      have hin : 0 ≤ s.preset ∧ s.preset.toNat < s.presetSlot.length := by
        rcases hact with h | h
        · exact absurd h hnone
        · exact h
      by_cases h10 : (presetProcessHead slew
          { s with presetProcessDivider := s.presetProcessDivider.process.2 } a).2.slew = 10
      · rw [if_pos h10]
        refine ⟨_, _, rfl, fun _ _ => ⟨_, rfl⟩, ?_⟩
        intro tick ht
        cases ht
        exact ⟨rfl, rfl, rfl⟩
      · rw [if_neg h10]
        obtain ⟨slot, hslot⟩ : ∃ slot, s.presetSlot[s.preset.toNat]? = some slot :=
          ⟨_, List.getElem?_eq_getElem hin.2⟩
        obtain ⟨acc, fin, e, _⟩ := presetProcessLoop_spec eng
          (presetProcessHead slew
            { s with presetProcessDivider := s.presetProcessDivider.process.2 } a).1
          ((presetProcessHead slew
            { s with presetProcessDivider := s.presetProcessDivider.process.2 } a).2.slew / 10)
          slot (by rw [f1]; exact hin.1) (by rw [f2, f1]; exact hslot)
          (presetProcessHead slew
            { s with presetProcessDivider := s.presetProcessDivider.process.2 } a).1.sourceHandles
          0
        rw [e]
        refine ⟨_, _, rfl, fun _ _ => ⟨_, rfl⟩, ?_⟩
        intro tick ht
        cases ht
        exact ⟨rfl, rfl, rfl⟩
  · rw [if_neg hf]
    exact ⟨_, _, rfl, fun h => absurd h hf, fun tick ht => by cases ht⟩

/-- The auxiliary output of a processing tick, for a state in a given mode. -/
theorem aux_output_of_mode (slew : SlewStep) (eng : Engine) (s : TransitModule)
    (a : ProcessReading) (hact : s.ActiveInBank) :
    ∃ s' log, presetProcess slew eng s a = some (s', log)
      ∧ (s.presetProcessDivider.process.1 = true → s.preset ≠ -1 → ∃ tick, log = some tick)
      ∧ ∀ tick, log = some tick →
          (s.outMode = OUTMODE.ENV →
            tick.output = some (if tick.slew = 10 then 0 else tick.slew))
          ∧ (s.outMode = OUTMODE.GATE →
            tick.output = some (if tick.slew ≠ 10 then 10 else 0))
          ∧ (s.outMode = OUTMODE.EOC →
            tick.output = some (if (if tick.eocTrigger = true
                  then s.outEocPulseGenerator.trigger (1 / 1000)
                  else s.outEocPulseGenerator).remaining > 0 then 10 else 0)
            ∧ (tick.eocTrigger = true → tick.output = some 10)
            ∧ (tick.eocTrigger = false →
                tick.output = some (if s.outEocPulseGenerator.remaining > 0 then 10 else 0))) := by
  obtain ⟨s', log, e, hfire, hspec⟩ := presetProcess_tick slew eng s a hact
  have hout := presetProcessHead_output slew
    { s with presetProcessDivider := s.presetProcessDivider.process.2 } a
  refine ⟨s', log, e, hfire, ?_⟩
  intro tick ht
  obtain ⟨h1, h2, h3⟩ := hspec tick ht
  rw [← h1, ← h2, ← h3] at hout
  have hout' : tick.output
      = if s.outMode = OUTMODE.ENV then some (if tick.slew = 10 then 0 else tick.slew)
        else if s.outMode = OUTMODE.GATE then some (if tick.slew ≠ 10 then 10 else 0)
        else if s.outMode = OUTMODE.EOC then
          some (if (if tick.eocTrigger = true
                    then s.outEocPulseGenerator.trigger (1 / 1000)
                    else s.outEocPulseGenerator).remaining > 0
                then 10 else 0)
        else none := hout
  refine ⟨fun hm => ?_, fun hm => ?_, fun hm => ?_⟩
  · rw [hout', if_pos hm]
  · have hE : ¬ s.outMode = OUTMODE.ENV := by rw [hm]; decide
    rw [hout', if_neg hE, if_pos hm]
  · have hE : ¬ s.outMode = OUTMODE.ENV := by rw [hm]; decide
    have hG : ¬ s.outMode = OUTMODE.GATE := by rw [hm]; decide
    have hval : tick.output = some (if (if tick.eocTrigger = true
          then s.outEocPulseGenerator.trigger (1 / 1000)
          else s.outEocPulseGenerator).remaining > 0 then 10 else 0) := by
      rw [hout', if_neg hE, if_neg hG, if_pos hm]
    refine ⟨hval, fun ht1 => ?_, fun ht0 => ?_⟩
    · rw [hval, if_pos ht1, if_pos (PulseGenerator.trigger_remaining _)]
    · have hne : ¬ tick.eocTrigger = true := by rw [ht0]; decide
      rw [hval, if_neg hne]

/-! ## Defects -/

/-- The `json_array_foreach` over `"presets"` with more entries than the slot
arrays hold writes outside the arrays. -/
theorem dataFromJsonPresets_overflow (L : List Json) :
    ∀ (s : TransitModule) (start : Nat),
      ¬ (start + L.length ≤ s.presetSlotUsed.length ∧ start + L.length ≤ s.presetSlot.length) →
      L ≠ [] → dataFromJsonPresets s L start = none := by
  induction L with
  | nil => intro s start _ h; exact absurd rfl h
  | cons presetJ rest ih =>
    intro s start hno _
    unfold dataFromJsonPresets
    by_cases hcond : start < s.presetSlotUsed.length ∧ start < s.presetSlot.length
    · rw [if_pos hcond]
      dsimp only
      cases hr : rest with
      | nil =>
        subst hr
        simp only [List.length_cons, List.length_nil] at hno
        omega
      | cons y ys =>
        rw [← hr]
        apply ih
        · simp only [List.length_cons] at hno
          split_ifs <;> simp only [List.length_set] <;> omega
        · rw [hr]; simp
    · rw [if_neg hcond]

/-- `onReset` and `presetSetCount` set the bounds of the random distribution
to `[0, slotCount - 1]`. -/
theorem randDist_set (N : Nat) (s : TransitModule) (n : Int) :
    (onReset N s).randDist = (0, (onReset N s).presetCount - 1)
      ∧ (presetSetCount s n).randDist = (0, (presetSetCount s n).presetCount - 1) := by
  constructor
  · rfl
  · unfold presetSetCount
    rfl

/-- The `json_array_foreach` over `"presets"` touches the slot arrays only. -/
theorem dataFromJsonPresets_frame (L : List Json) :
    ∀ (s s' : TransitModule) (start : Nat), dataFromJsonPresets s L start = some s' →
      s' = { s with presetSlotUsed := s'.presetSlotUsed, presetSlot := s'.presetSlot } := by
  induction L with
  | nil =>
    intro s s' start h
    cases h
    rfl
  | cons presetJ rest ih =>
    intro s s' start h
    unfold dataFromJsonPresets at h
    by_cases hcond : start < s.presetSlotUsed.length ∧ start < s.presetSlot.length
    · rw [if_pos hcond] at h
      dsimp only at h
      by_cases hu0 : json_boolean_value (json_object_get (some presetJ) "slotUsed") = true
      · rw [if_pos hu0] at h
        have h' := ih _ s' (start + 1) h
        conv_lhs => rw [h']
      · rw [if_neg hu0] at h
        have h' := ih _ s' (start + 1) h
        conv_lhs => rw [h']
    · rw [if_neg hcond] at h
      cases h

/-- `dataFromJson` never assigns the bounds of the random distribution. -/
theorem dataFromJson_randDist (eng : Engine) (id : Int) (s s' : TransitModule) (rootJ : Json)
    (h : dataFromJson eng id s rootJ = some s') : s'.randDist = s.randDist := by
  unfold dataFromJson at h
  dsimp only at h
  split_ifs at h
  · cases h
    rfl
  · split at h
    · cases h
    · rename_i s3 e3
      have hframe : s3.randDist = s.randDist := by
        rw [dataFromJsonPresets_frame _ _ s3 0 e3]
      cases h
      split_ifs
      · exact hframe
      · exact hframe

/-- With at least two slots, in ping-pong mode at slot 0 with direction `-1`,
an accepted trigger requests index `-1`, which is rejected: nothing changes. -/
theorem pingpong_stuck (N : Nat) (eng : Engine) (s : TransitModule) (r : SlotReading)
    (hk : 2 ≤ s.presetCount) (hm : s.slotCvMode = SLOTCVMODE.TRIG_PINGPONG)
    (ht : r.trigger = true) (hp : s.preset = 0) (hd : s.slotCvModeDir = -1) :
    processSlotInput N eng s r = some s := by
  rw [pingpong_step_eq N eng s r hm ht, hp, hd]
  have h0 : ¬ ((0 : Int) + -1 = 0) := by decide
  have h1 : ¬ ((0 : Int) + -1 = s.presetCount - 1) := by omega
  rw [if_neg h0, if_neg h1, presetLoad_out_of_range _ _ _ _ _ (Or.inl (by decide))]
  cases s
  simp_all

/-- Any number of accepted triggers in that state changes nothing. -/
theorem pingpong_stuck_run (N : Nat) (eng : Engine) (s : TransitModule)
    (hk : 2 ≤ s.presetCount) (hm : s.slotCvMode = SLOTCVMODE.TRIG_PINGPONG)
    (hp : s.preset = 0) (hd : s.slotCvModeDir = -1) (rs : List SlotReading)
    (ht : ∀ r ∈ rs, r.trigger = true) :
    processSlotInputs N eng s rs = some s := by
  induction rs with
  | nil => rfl
  | cons r rs ih =>
    simp only [processSlotInputs,
      pingpong_stuck N eng s r hk hm (ht r (List.mem_cons_self _ _)) hp hd]
    exact ih (fun r' hr' => ht r' (List.mem_cons_of_mem _ hr'))

/-! ## Sequences of calls keep the selection state in range -/

/-- A load of any index, with any flags, on a state whose slot count is within
the arrays does not fail; it keeps the slot count and the slot bank, and the
active slot is kept or becomes the index, which then is inside the bank. -/
theorem presetLoad_total (N : Nat) (eng : Engine) (s : TransitModule) (p : Int)
    (isNext force : Bool) (hN : s.Sized N) (hkN : s.presetCount ≤ N) :
    ∃ s', presetLoad eng s p isNext force = some s'
      ∧ s'.presetCount = s.presetCount
      ∧ s'.presetSlotUsed = s.presetSlotUsed ∧ s'.presetSlot = s.presetSlot
      ∧ (s'.preset = s.preset ∨ (s'.preset = p ∧ 0 ≤ p ∧ p < s.presetCount)) := by
  by_cases hr : p < 0 ∨ p ≥ s.presetCount
  · exact ⟨s, presetLoad_out_of_range eng s p isNext force hr, rfl, rfl, rfl, Or.inl rfl⟩
  · have h0 : 0 ≤ p := by omega
    have hk : p < s.presetCount := by omega
    cases isNext with
    | false =>
      obtain ⟨s', e, hp, hc, _, _, hu, hs, _⟩ := presetLoad_accept N eng s p force hN h0 hk hkN
      exact ⟨s', e, hc, hu, hs, Or.inr ⟨hp, h0, hk⟩⟩
    | true =>
      have hlt : p.toNat < s.presetSlotUsed.length := by
        rw [hN.1]; omega
      unfold presetLoad
      rw [if_neg hr]
      simp only [List.getElem?_eq_getElem hlt]
      cases s.presetSlotUsed[p.toNat] <;> simp

/-- The calls `bindParameter` makes leave the selection state alone. -/
theorem bindParameter_selection (N : Nat) (eng : Engine) (s : TransitModule)
    (moduleId paramId : Int) :
    (bindParameter N eng s moduleId paramId).preset = s.preset
      ∧ (bindParameter N eng s moduleId paramId).presetCount = s.presetCount
      ∧ (bindParameter N eng s moduleId paramId).presetNext = s.presetNext := by
  unfold bindParameter
  dsimp only
  cases getParamQuantity eng (eng.updateParamHandle moduleId paramId true) <;>
    exact ⟨rfl, rfl, rfl⟩

/-- One call with its arguments in range, on a state with the slot arrays of
length `N`, the slot count in `[1, N]` and the active slot in
`[-1, slotCount)`, does not fail and gives such a state again. -/
theorem Call.run_selection (N : Nat) (s : TransitModule) (c : Call) (hN1 : 1 ≤ N)
    (hc : c.InRange N) (hN : s.Sized N) (h1 : 1 ≤ s.presetCount) (hkN : s.presetCount ≤ N)
    (hp : -1 ≤ s.preset) (hpk : s.preset < s.presetCount) :
    ∃ s', c.run N s = some s' ∧ s'.Sized N ∧ 1 ≤ s'.presetCount ∧ s'.presetCount ≤ N
      ∧ -1 ≤ s'.preset ∧ s'.preset < s'.presetCount := by
  cases c with
  | presetLoad eng p isNext force =>
    obtain ⟨s', e, hc', hu, hs, hpre⟩ := presetLoad_total N eng s p isNext force hN hkN
    refine ⟨s', e, ⟨by rw [hu]; exact hN.1, by rw [hs]; exact hN.2⟩, by rw [hc']; exact h1,
      by rw [hc']; exact hkN, ?_, ?_⟩
    · rcases hpre with h | ⟨h, h0, _⟩ <;> rw [h] <;> omega
    · rw [hc']
      rcases hpre with h | ⟨h, _, hk⟩ <;> rw [h] <;> omega
  | presetSave eng p =>
    have hcond : 0 ≤ p ∧ p.toNat < s.presetSlotUsed.length ∧ p.toNat < s.presetSlot.length := by
      have := hc
      unfold Call.InRange at this
      rw [hN.1, hN.2]
      omega
    refine ⟨{ s with
        presetSlotUsed := s.presetSlotUsed.set p.toNat true
        presetSlot := s.presetSlot.set p.toNat (captureSlot eng s.sourceHandles) }, ?_, ?_, ?_⟩
    · show Transit.presetSave eng s p = _
      unfold Transit.presetSave
      rw [if_pos hcond]
    · exact ⟨by simp [hN.1], by simp [hN.2]⟩
    · exact ⟨h1, hkN, hp, hpk⟩
  | presetClear p =>
    have hcond : 0 ≤ p ∧ p.toNat < s.presetSlotUsed.length ∧ p.toNat < s.presetSlot.length := by
      have := hc
      unfold Call.InRange at this
      rw [hN.1, hN.2]
      omega
    have e : Transit.presetClear s p = some
        (if s.preset = p then
          { s with
            presetSlotUsed := s.presetSlotUsed.set p.toNat false
            presetSlot := s.presetSlot.set p.toNat []
            preset := -1 }
        else
          { s with
            presetSlotUsed := s.presetSlotUsed.set p.toNat false
            presetSlot := s.presetSlot.set p.toNat [] }) := by
      unfold Transit.presetClear
      rw [if_pos hcond]
    refine ⟨_, e, ?_, ?_⟩
    · split_ifs <;> exact ⟨by simp [hN.1], by simp [hN.2]⟩
    · split_ifs
      · exact ⟨h1, hkN, le_refl _, by show (-1 : Int) < s.presetCount; omega⟩
      · exact ⟨h1, hkN, hp, hpk⟩
  | presetSetCount n =>
    have hn : 1 ≤ n ∧ n ≤ N := hc
    refine ⟨Transit.presetSetCount s n, rfl, ?_, ?_⟩
    · obtain ⟨e1, e2⟩ := presetSetCount_slots s n
      exact ⟨by rw [e1]; exact hN.1, by rw [e2]; exact hN.2⟩
    · unfold Transit.presetSetCount
      dsimp only
      split_ifs with hge
      · exact ⟨hn.1, hn.2, by show (-1 : Int) ≤ 0; omega, by show (0 : Int) < n; omega⟩
      · exact ⟨hn.1, hn.2, hp, by show s.preset < n; omega⟩
  | bindParameter eng moduleId paramId =>
    obtain ⟨e1, e2, _⟩ := bindParameter_slots N eng s moduleId paramId hN
    obtain ⟨f1, f2, _⟩ := bindParameter_selection N eng s moduleId paramId
    refine ⟨Transit.bindParameter N eng s moduleId paramId, rfl,
      ⟨by rw [e1]; exact hN.1, by rw [e2]; exact hN.2⟩, ?_, ?_, ?_, ?_⟩
    · rw [f2]; exact h1
    · rw [f2]; exact hkN
    · rw [f1]; exact hp
    · rw [f1, f2]; exact hpk
  | onReset =>
    refine ⟨Transit.onReset N s, rfl, onReset_sized N s, ?_, ?_, ?_, ?_⟩
    · show (1 : Int) ≤ N
      omega
    · exact le_refl _
    · exact le_refl _
    · show (-1 : Int) < N
      omega

/-- A sequence of calls with their arguments in range, from such a state, does
not fail and ends in such a state. -/
theorem runCalls_selection (N : Nat) (hN1 : 1 ≤ N) (calls : List Call) :
    ∀ s : TransitModule, (∀ c ∈ calls, c.InRange N) → s.Sized N → 1 ≤ s.presetCount →
      s.presetCount ≤ N → -1 ≤ s.preset → s.preset < s.presetCount →
      ∃ s', runCalls N s calls = some s' ∧ s'.Sized N ∧ 1 ≤ s'.presetCount
        ∧ s'.presetCount ≤ N ∧ -1 ≤ s'.preset ∧ s'.preset < s'.presetCount := by
  induction calls with
  | nil =>
    intro s _ hN h1 hkN hp hpk
    exact ⟨s, rfl, hN, h1, hkN, hp, hpk⟩
  | cons c cs ih =>
    intro s hr hN h1 hkN hp hpk
    obtain ⟨s1, e1, hN', h1', hkN', hp', hpk'⟩ :=
      Call.run_selection N s c hN1 (hr c (List.mem_cons_self _ _)) hN h1 hkN hp hpk
    obtain ⟨s', e', r⟩ := ih s1 (fun c' hc' => hr c' (List.mem_cons_of_mem _ hc')) hN' h1' hkN'
      hp' hpk'
    refine ⟨s', ?_, r⟩
    unfold runCalls
    rw [e1]
    exact e'

/-! ## MidiMon -/

/-- The document `MidiMonModule::dataToJson` builds, as a literal. -/
theorem MidiMonModule.document_literal (m : MidiMonModule) :
    MidiMonModule.dataToJson m = Json.object
      [("panelTheme", Json.integer m.panelTheme),
       ("showNoteMsg", Json.boolean m.showNoteMsg),
       ("showKeyPressure", Json.boolean m.showKeyPressure),
       ("showCcMsg", Json.boolean m.showCcMsg),
       ("showProgChangeMsg", Json.boolean m.showProgChangeMsg),
       ("showChannelPressurelMsg", Json.boolean m.showChannelPressurelMsg),
       ("showPitchWheelMsg", Json.boolean m.showPitchWheelMsg),
       ("showSysExMsg", Json.boolean m.showSysExMsg),
       ("showSysExData", Json.boolean m.showSysExMsg),
       ("showClockMsg", Json.boolean m.showClockMsg),
       ("showSystemMsg", Json.boolean m.showSystemMsg),
       ("midiInput", m.midiInput)] := by
  rfl

/-- What `MidiMonModule::dataFromJson` makes of the document of `m`. -/
theorem MidiMonModule.document_read_back (m s : MidiMonModule) :
    MidiMonModule.dataFromJson s (MidiMonModule.dataToJson m)
      = { m with showSysExData := m.showSysExMsg } := by
  rw [MidiMonModule.document_literal]
  rfl

/-! ## MapModule -/

/-- The loop of `updateMapLen` inside the array: it ends at an index `L` in
`[-1, n)`, every handle it passed is unmapped, and the handle at `L` is mapped
unless `L = -1`. -/
theorem MapModule.lastNonempty_spec (hs : List ParamHandle) :
    ∀ n : Nat, n ≤ hs.length →
      ∃ L : Int, MapModule.lastNonempty hs n = some L ∧ -1 ≤ L ∧ L < n
        ∧ (∀ (i : Nat) (h : ParamHandle), L < (i : Int) → i < n → hs[i]? = some h →
            h.moduleId < 0)
        ∧ (0 ≤ L → ∃ h, hs[L.toNat]? = some h ∧ 0 ≤ h.moduleId) := by
  intro n
  induction n with
  | zero =>
    intro _
    exact ⟨-1, rfl, le_refl _, by decide, fun i h _ hi => absurd hi (Nat.not_lt_zero i),
      fun h => absurd h (by decide)⟩
  | succ n ih =>
    intro hn
    have hlt : n < hs.length := by omega
    unfold MapModule.lastNonempty
    rw [List.getElem?_eq_getElem hlt]
    dsimp only
    by_cases hm : hs[n].moduleId ≥ 0
    · rw [if_pos hm]
      refine ⟨n, rfl, by omega, by push_cast; omega, ?_, ?_⟩
      · intro i h hi hin
        omega
      · intro _
        exact ⟨hs[n], by simp [List.getElem?_eq_getElem hlt], hm⟩
    · rw [if_neg hm]
      obtain ⟨L, e, h1, h2, h3, h4⟩ := ih (by omega)
      refine ⟨L, e, h1, by push_cast; omega, ?_, h4⟩
      intro i h hi hin hget
      by_cases hin' : i < n
      · exact h3 i h hi hin' hget
      · have : i = n := by omega
        subst this
        rw [List.getElem?_eq_getElem hlt] at hget
        cases hget
        omega

/-! ## Claims -/

/-- C1, as stated, fails: in the two-slot module with slot 0 active and slot 1
unused, `presetLoad(1)` (slot input) and the forced short press of button 1
(outside ARM mode) both leave slot 1 active, not slot 0. -/
theorem C1_unused_load_moves_active_slot :
    twoSlots.presetCount = 2 ∧ twoSlots.preset = 0
      ∧ twoSlots.presetSlotUsed[1]? = some false
      ∧ (presetLoad hostA twoSlots 1 false false).map (fun s => s.preset) = some 1
      ∧ (processButtonRead hostA twoSlots 1 LongPressButton.SHORT_PRESS).map
          (fun s => s.preset) = some 1 := by
  decide

/-- C1, amended: for every state with slotCount `k` and active slot `p`, and
every unused slot index `q` in `[0, k)` with `q ≠ p`: a load of `q` without
arming (`presetLoad(q)` from the slot input, or the forced short button press
outside ARM mode) makes `q` the active slot, and a load of `q` with arming (the
short button press in ARM mode) leaves the active slot equal to `p`. -/
theorem C1_unused_load_active_slot (eng : Engine) (s : TransitModule) (q : Nat)
    (hk : (q : Int) < s.presetCount) (hne : (q : Int) ≠ s.preset)
    (hun : s.presetSlotUsed[q]? = some false) :
    (∀ force, ∃ s', presetLoad eng s q false force = some s' ∧ s'.preset = q)
      ∧ (∀ force, ∃ s', presetLoad eng s q true force = some s' ∧ s'.preset = s.preset)
      ∧ ∃ s', processButtonRead eng s q LongPressButton.SHORT_PRESS = some s'
          ∧ s'.preset = if s.slotCvMode = SLOTCVMODE.ARM then s.preset else q := by
  have hun' : s.presetSlotUsed[(q : Int).toNat]? = some false := by simpa using hun
  have h0 : (0 : Int) ≤ q := Int.natCast_nonneg q
  refine ⟨fun force => ?_, fun force => ?_, ?_⟩
  · exact ⟨_, presetLoad_plain_unused eng s q force h0 hk (Or.inl hne) hun', rfl⟩
  · exact ⟨_, presetLoad_arm_unused eng s q force h0 hk hun', rfl⟩
  · unfold processButtonRead
    by_cases hm : s.slotCvMode = SLOTCVMODE.ARM
    · simp only [hm, decide_True, if_true]
      exact ⟨_, presetLoad_arm_unused eng s q true h0 hk hun', rfl⟩
    · simp only [hm, decide_False, if_false]
      exact ⟨_, presetLoad_plain_unused eng s q true h0 hk (Or.inl hne) hun', rfl⟩

/-- The amended C1 at the two-slot module: slot 0 active, slot 1 unused. -/
theorem C1_unused_load_active_slot_witness :
    (∀ force, ∃ s', presetLoad hostA twoSlots (1 : Nat) false force = some s'
        ∧ s'.preset = (1 : Nat))
      ∧ (∀ force, ∃ s', presetLoad hostA twoSlots (1 : Nat) true force = some s'
        ∧ s'.preset = twoSlots.preset)
      ∧ ∃ s', processButtonRead hostA twoSlots 1 LongPressButton.SHORT_PRESS = some s'
          ∧ s'.preset = if twoSlots.slotCvMode = SLOTCVMODE.ARM then twoSlots.preset
            else (1 : Nat) :=
  C1_unused_load_active_slot hostA twoSlots 1 (by decide) (by decide) (by decide)

/-- C2: with slotCount `k`, `1 ≤ k ≤ N`, any slot bank and active slot `p`
(`p = -1` or `p` in `[0, k)`): in mode TRIG_FWD an accepted trigger makes the
active slot `(p + 1) mod k`, and `n ≥ 1` accepted triggers in a row lead to
`(p + n) mod k` (from the initial `p = -1`: 0, 1, ..., k-1, 0, ...); in mode
TRIG_REV an accepted trigger makes it `(p - 1 + k) mod k`, and `n ≥ 1` in a row
lead to `(p - n) mod k` (the same cycle backwards); in both modes `k` more
triggers lead to the same slot again. -/
theorem C2_slot_cycling (N : Nat) (eng : Engine) (s : TransitModule)
    (hN : s.Sized N) (hk1 : 1 ≤ s.presetCount) (hkN : s.presetCount ≤ N)
    (hp : s.preset = -1 ∨ (0 ≤ s.preset ∧ s.preset < s.presetCount)) :
    ((∀ r : SlotReading, r.trigger = true →
        ∃ s', processSlotInput N eng { s with slotCvMode := SLOTCVMODE.TRIG_FWD } r = some s'
          ∧ s'.preset = (s.preset + 1) % s.presetCount)
      ∧ (∀ rs : List SlotReading, rs ≠ [] → (∀ r ∈ rs, r.trigger = true) →
        ∃ s', processSlotInputs N eng { s with slotCvMode := SLOTCVMODE.TRIG_FWD } rs = some s'
          ∧ s'.preset = (s.preset + rs.length) % s.presetCount
          ∧ (s.preset + (rs.length + s.presetCount)) % s.presetCount = s'.preset))
    ∧ ((∀ r : SlotReading, r.trigger = true →
        ∃ s', processSlotInput N eng { s with slotCvMode := SLOTCVMODE.TRIG_REV } r = some s'
          ∧ s'.preset = (s.preset - 1 + s.presetCount) % s.presetCount)
      ∧ (∀ rs : List SlotReading, rs ≠ [] → (∀ r ∈ rs, r.trigger = true) →
        ∃ s', processSlotInputs N eng { s with slotCvMode := SLOTCVMODE.TRIG_REV } rs = some s'
          ∧ s'.preset = (s.preset - rs.length) % s.presetCount
          ∧ (s.preset - (rs.length + s.presetCount)) % s.presetCount = s'.preset)) :=
  ⟨(slot_cycling_of_mode N eng { s with slotCvMode := SLOTCVMODE.TRIG_FWD } hN hk1 hkN hp).1 rfl,
    (slot_cycling_of_mode N eng { s with slotCvMode := SLOTCVMODE.TRIG_REV } hN hk1 hkN hp).2 rfl⟩

/-- C2 at the initial state of a three-slot module with slotCount set to 2:
forward triggers visit 0, 1, 0, ... and reverse triggers 0, 1, 0, ... backwards. -/
theorem C2_slot_cycling_witness :
    ((∀ r : SlotReading, r.trigger = true →
        ∃ s', processSlotInput 3 hostA
            { presetSetCount (fresh 3) 2 with slotCvMode := SLOTCVMODE.TRIG_FWD } r = some s'
          ∧ s'.preset = ((presetSetCount (fresh 3) 2).preset + 1)
              % (presetSetCount (fresh 3) 2).presetCount)
      ∧ (∀ rs : List SlotReading, rs ≠ [] → (∀ r ∈ rs, r.trigger = true) →
        ∃ s', processSlotInputs 3 hostA
            { presetSetCount (fresh 3) 2 with slotCvMode := SLOTCVMODE.TRIG_FWD } rs = some s'
          ∧ s'.preset = ((presetSetCount (fresh 3) 2).preset + rs.length)
              % (presetSetCount (fresh 3) 2).presetCount
          ∧ ((presetSetCount (fresh 3) 2).preset
                + (rs.length + (presetSetCount (fresh 3) 2).presetCount))
              % (presetSetCount (fresh 3) 2).presetCount = s'.preset))
    ∧ ((∀ r : SlotReading, r.trigger = true →
        ∃ s', processSlotInput 3 hostA
            { presetSetCount (fresh 3) 2 with slotCvMode := SLOTCVMODE.TRIG_REV } r = some s'
          ∧ s'.preset = ((presetSetCount (fresh 3) 2).preset - 1
                + (presetSetCount (fresh 3) 2).presetCount)
              % (presetSetCount (fresh 3) 2).presetCount)
      ∧ (∀ rs : List SlotReading, rs ≠ [] → (∀ r ∈ rs, r.trigger = true) →
        ∃ s', processSlotInputs 3 hostA
            { presetSetCount (fresh 3) 2 with slotCvMode := SLOTCVMODE.TRIG_REV } rs = some s'
          ∧ s'.preset = ((presetSetCount (fresh 3) 2).preset - rs.length)
              % (presetSetCount (fresh 3) 2).presetCount
          ∧ ((presetSetCount (fresh 3) 2).preset
                - (rs.length + (presetSetCount (fresh 3) 2).presetCount))
              % (presetSetCount (fresh 3) 2).presetCount = s'.preset)) :=
  C2_slot_cycling 3 hostA (presetSetCount (fresh 3) 2) (by decide) (by decide) (by decide)
    (Or.inl (by decide))

/-- C3: with slotCount `k`, `1 ≤ k ≤ N`, from active slot 0 with direction `+1`,
after any number `t` of accepted TRIG_PINGPONG triggers the active slot lies in
`[0, k-1]` and is entry `t` of 0, 1, ..., k-1, k-2, ..., 1, 0, 1, ...; at the
next accepted trigger (for `k ≥ 2`) the slot moves by the current direction,
the direction is `-1` if the slot now selected is `k-1`, `+1` if it is 0 and
unchanged otherwise, and at either boundary this is a flip; with `k = 1` the
requested index 1 is rejected and nothing changes. -/
theorem C3_ping_pong (N : Nat) (eng : Engine) (s : TransitModule) (k : Nat)
    (hN : s.Sized N) (hk1 : 1 ≤ k) (hkN : k ≤ N) (hc : s.presetCount = k)
    (hm : s.slotCvMode = SLOTCVMODE.TRIG_PINGPONG) (hp : s.preset = 0)
    (hd : s.slotCvModeDir = 1) (rs : List SlotReading) (ht : ∀ r ∈ rs, r.trigger = true) :
    ∃ s', processSlotInputs N eng s rs = some s'
      ∧ 0 ≤ s'.preset ∧ s'.preset ≤ (k : Int) - 1
      ∧ s'.preset = pingPongIndex k rs.length
      ∧ s'.slotCvModeDir = pingPongDir k rs.length
      ∧ ∀ r : SlotReading, r.trigger = true →
          ∃ s'', processSlotInput N eng s' r = some s''
            ∧ (2 ≤ k →
                s''.preset = s'.preset + s'.slotCvModeDir
                ∧ (s''.preset = (k : Int) - 1 → s''.slotCvModeDir = -1)
                ∧ (s''.preset = 0 → s''.slotCvModeDir = 1)
                ∧ (s''.preset ≠ (k : Int) - 1 → s''.preset ≠ 0 →
                    s''.slotCvModeDir = s'.slotCvModeDir)
                ∧ (s''.preset = (k : Int) - 1 ∨ s''.preset = 0 →
                    s''.slotCvModeDir = - s'.slotCvModeDir))
            ∧ (k = 1 → s'' = s') := by
  by_cases hk2 : 2 ≤ k
  · have hp0 : s.preset = pingPongIndex k 0 := by
      rw [hp]; simp [pingPongIndex]
    have hd0 : s.slotCvModeDir = pingPongDir k 0 := by
      rw [hd]; unfold pingPongDir
      rw [if_neg (by omega), if_pos (by simp; omega)]
    obtain ⟨s', e, z, c, m, p, d⟩ := pingpong_run N eng k hk2 hkN rs s 0 hN hc hm hp0 hd0 ht
    rw [Nat.zero_add] at p d
    have hM : 0 < 2 * (k - 1) := by omega
    have hlt := Nat.mod_lt rs.length hM
    have hr : (pingPongIndex k rs.length : Int) ≤ (k : Int) - 1 := by
      unfold pingPongIndex
      split_ifs <;> omega
    refine ⟨s', e, by rw [p]; exact Int.natCast_nonneg _, by rw [p]; exact hr, p, d, ?_⟩
    intro r hr1
    obtain ⟨s'', e', _, _, _, p', d', hmove, hdir⟩ :=
      pingpong_step N eng s' r k rs.length z hk2 hkN c m hr1 p d
    refine ⟨s'', e', fun _ => ⟨hmove, ?_, ?_, ?_, ?_⟩, fun h1 => by omega⟩
    · intro h
      rw [hdir, if_neg (by omega), if_pos h]
    · intro h
      rw [hdir, if_pos h]
    · intro h1 h2
      rw [hdir, if_neg h2, if_neg h1]
    · have hsucc := succ_mod_cases rs.length (2 * (k - 1)) hM
      rw [d', d, p']
      unfold pingPongIndex pingPongDir
      rw [hsucc]
      intro h
      split_ifs at h ⊢ <;> omega
  · have hk : k = 1 := by omega
    subst hk
    have hc1 : s.presetCount = 1 := by simpa using hc
    refine ⟨s, pingpong_run_one N eng s hc1 hm hp hd rs ht, by omega, by omega, ?_, ?_, ?_⟩
    · rw [hp]
      unfold pingPongIndex
      split_ifs <;> omega
    · rw [hd]; simp [pingPongDir]
    · intro r hr1
      exact ⟨s, pingpong_step_one N eng s r hc1 hm hr1 hp hd, fun h => by omega, fun _ => rfl⟩

/-- C3 at a three-slot module in slot 0 after three triggers (0, 1, 2, 1). -/
theorem C3_ping_pong_witness :
    ∃ s', processSlotInputs 3 hostA
          { fresh 3 with slotCvMode := SLOTCVMODE.TRIG_PINGPONG, preset := 0 }
          [edge, edge, edge] = some s'
      ∧ 0 ≤ s'.preset ∧ s'.preset ≤ ((3 : Nat) : Int) - 1
      ∧ s'.preset = pingPongIndex 3 [edge, edge, edge].length
      ∧ s'.slotCvModeDir = pingPongDir 3 [edge, edge, edge].length
      ∧ ∀ r : SlotReading, r.trigger = true →
          ∃ s'', processSlotInput 3 hostA s' r = some s''
            ∧ (2 ≤ 3 →
                s''.preset = s'.preset + s'.slotCvModeDir
                ∧ (s''.preset = ((3 : Nat) : Int) - 1 → s''.slotCvModeDir = -1)
                ∧ (s''.preset = 0 → s''.slotCvModeDir = 1)
                ∧ (s''.preset ≠ ((3 : Nat) : Int) - 1 → s''.preset ≠ 0 →
                    s''.slotCvModeDir = s'.slotCvModeDir)
                ∧ (s''.preset = ((3 : Nat) : Int) - 1 ∨ s''.preset = 0 →
                    s''.slotCvModeDir = - s'.slotCvModeDir))
            ∧ (3 = 1 → s'' = s') :=
  C3_ping_pong 3 hostA { fresh 3 with slotCvMode := SLOTCVMODE.TRIG_PINGPONG, preset := 0 } 3
    (by decide) (by decide) (by decide) (by decide) (by decide) (by decide) (by decide)
    [edge, edge, edge] (by decide)

/-- C4, as stated, fails: in the module whose single binding resolves, whose
`presetOld` has one entry and whose active slot holds no value, the eighth
call of `presetProcess` is a processing tick below full scale that reads
`presetOld[0]` although index 0 is not below the length of the slot's values. -/
theorem C4_tick_reads_presetOld :
    staleSlotModule.map
        (fun s => (s.preset, s.presetOld.length, s.presetSlot[0]?, s.sourceHandles.length))
      = some (0, 1, some [], 1)
    ∧ (staleSlotModule.bind
        (fun s => presetProcessRun halfwaySlew s (List.replicate 8 (hostA, unitReading)))).map
          (fun x => x.2)
      = some [none, none, none, none, none, none, none,
          some { slew := 5, eocTrigger := false, output := some 5,
                 accesses := [Access.readOld 0] }] := by
  decide

/-- C4, amended: a call of `presetProcess` with the active slot inside the slot
bank does not fail and is a processing tick when the divider fires; in a
processing tick below full scale, for every binding index `i` with
`i ≥ length(presetOld)` or `i ≥ length(values of the active slot)` the tick does
not read the slot's values at `i`, does not write binding `i`, and does not
read `presetOld` at `i` when `i ≥ length(presetOld)` (it may read `presetOld[i]`,
inside its bounds, before it finds the slot too short); every resolved binding
below both lengths is written with the interpolated value and no other value,
and only resolved bindings are written. In particular with 3 bindings and an
active slot of 2 values, bindings 0 and 1 are interpolated and binding 2 is
not written. -/
theorem C4_binding_skip (slew : SlewStep) (eng : Engine) (s : TransitModule)
    (a : ProcessReading) (slot : List Value) (h0 : 0 ≤ s.preset)
    (hslot : s.presetSlot[s.preset.toNat]? = some slot) :
    ∃ s' r, presetProcess slew eng s a = some (s', r)
      ∧ (s.presetProcessDivider.process.1 = true → ∃ tick, r = some tick)
      ∧ ∀ tick, r = some tick → tick.slew ≠ 10 →
        (∀ i, s.presetOld.length ≤ i ∨ slot.length ≤ i →
            Access.readSlot i ∉ tick.accesses
            ∧ (∀ v, Access.setValue i v ∉ tick.accesses)
            ∧ (s.presetOld.length ≤ i → Access.readOld i ∉ tick.accesses))
        ∧ (∀ i h x y, s.sourceHandles[i]? = some h →
            (getParamQuantity eng h).isSome = true →
            s.presetOld[i]? = some x → slot[i]? = some y →
            Access.setValue i (interpolate x y (tick.slew / 10)) ∈ tick.accesses
            ∧ ∀ v, Access.setValue i v ∈ tick.accesses →
                v = interpolate x y (tick.slew / 10))
        ∧ (∀ i v, Access.setValue i v ∈ tick.accesses →
            ∃ h, s.sourceHandles[i]? = some h ∧ (getParamQuantity eng h).isSome = true) := by
  obtain ⟨s', r, e, hfire, hspec⟩ := presetProcess_spec slew eng s a slot h0 hslot
  refine ⟨s', r, e, hfire, ?_⟩
  intro tick ht hslew
  obtain ⟨r1, r2, r3, r4⟩ := hspec tick ht hslew
  refine ⟨?_, ?_, ?_⟩
  · intro i hi
    refine ⟨?_, ?_, ?_⟩
    · intro hmem
      have := r2 i hmem
      omega
    · intro v hmem
      obtain ⟨h, x, y, _, _, hx, hy, _⟩ := r3 i v hmem
      have := (List.getElem?_eq_some_iff.mp hx).1
      have := (List.getElem?_eq_some_iff.mp hy).1
      omega
    · intro hlen hmem
      have := r1 i hmem
      omega
  · intro i h x y hh hres hx hy
    refine ⟨r4 i h x y hh hres hx hy, ?_⟩
    intro v hmem
    obtain ⟨h', x', y', _, _, hx', hy', hv⟩ := r3 i v hmem
    rw [hx] at hx'
    rw [hy] at hy'
    simp only [Option.some.injEq] at hx' hy'
    subst hx' hy'
    exact hv
  · intro i v hmem
    obtain ⟨h, x, y, hh, hres, _⟩ := r3 i v hmem
    exact ⟨h, hh, hres⟩

/-- The amended C4 at the module with three bindings and an active slot of two
values. -/
theorem C4_binding_skip_witness :
    ∃ s' r, presetProcess halfwaySlew hostA threeBindings unitReading = some (s', r)
      ∧ (threeBindings.presetProcessDivider.process.1 = true → ∃ tick, r = some tick)
      ∧ ∀ tick, r = some tick → tick.slew ≠ 10 →
        (∀ i, threeBindings.presetOld.length ≤ i ∨ [(1 : Value), 2].length ≤ i →
            Access.readSlot i ∉ tick.accesses
            ∧ (∀ v, Access.setValue i v ∉ tick.accesses)
            ∧ (threeBindings.presetOld.length ≤ i → Access.readOld i ∉ tick.accesses))
        ∧ (∀ i h x y, threeBindings.sourceHandles[i]? = some h →
            (getParamQuantity hostA h).isSome = true →
            threeBindings.presetOld[i]? = some x → [(1 : Value), 2][i]? = some y →
            Access.setValue i (interpolate x y (tick.slew / 10)) ∈ tick.accesses
            ∧ ∀ v, Access.setValue i v ∈ tick.accesses →
                v = interpolate x y (tick.slew / 10))
        ∧ (∀ i v, Access.setValue i v ∈ tick.accesses →
            ∃ h, threeBindings.sourceHandles[i]? = some h
              ∧ (getParamQuantity hostA h).isSome = true) :=
  C4_binding_skip halfwaySlew hostA threeBindings unitReading [1, 2] (by decide) (by decide)

/-- C5: a transition start (an accepted plain load of a used slot) arms the
end-of-cycle pulse; in every run of calls of `presetProcess` that follows it
(before the next transition start) the run does not fail, the pulse generator
is triggered at most once, exactly once if some processing tick has slew output
10, and it is triggered in a tick exactly when that tick is the first one with
slew output 10. -/
theorem C5_eoc_single_fire (slew : SlewStep) (N : Nat) (eng : Engine) (s : TransitModule)
    (p : Int) (force : Bool) (hN : s.Sized N) (h0 : 0 ≤ p) (hk : p < s.presetCount)
    (hkN : s.presetCount ≤ N) (hused : s.presetSlotUsed[p.toNat]? = some true)
    (hstart : p ≠ s.preset ∨ force = true) (as : List (Engine × ProcessReading)) :
    ∃ s0, presetLoad eng s p false force = some s0 ∧ s0.outEocArm = true
      ∧ ∃ s' ticks, presetProcessRun slew s0 as = some (s', ticks)
        ∧ ticks.length = as.length
        ∧ eocTriggers ticks ≤ 1
        ∧ ((∃ tick, some tick ∈ ticks ∧ tick.slew = 10) → eocTriggers ticks = 1)
        ∧ ∀ (i : Nat) (tick : Tick), ticks[i]? = some (some tick) →
            (tick.eocTrigger = true ↔
              tick.slew = 10
                ∧ ∀ (j : Nat) (tick' : Tick), j < i → ticks[j]? = some (some tick') →
                    tick'.slew ≠ 10) := by
  have hact : ({ s with
      preset := p
      presetNext := -1
      slewLimiter := s.slewLimiter.reset 0
      outEocArm := true
      presetOld := capturePresetOld eng s.sourceHandles } : TransitModule).ActiveInBank := by
    refine Or.inr ⟨h0, ?_⟩
    show p.toNat < s.presetSlot.length
    rw [hN.2]
    omega
  obtain ⟨s', ticks, e, hlen, hchar, hone, hzero⟩ := presetProcessRun_eoc slew as _ hact
  refine ⟨_, presetLoad_plain_used eng s p force h0 hk hstart hused, rfl, s', ticks, e, hlen,
    ?_, hone rfl, ?_⟩
  · by_cases hex : ∃ tick, some tick ∈ ticks ∧ tick.slew = 10
    · rw [hone rfl hex]
    · rw [hzero (fun h => hex h.2)]
      omega
  · intro i tick hi
    rw [hchar i tick hi]
    constructor
    · rintro ⟨_, h⟩
      exact h
    · intro h
      exact ⟨rfl, h⟩

/-- C5 at the forced load of the used slot 0, followed by three calls of
`presetProcess` with a slew limiter that is at full scale at once. -/
theorem C5_eoc_single_fire_witness :
    ∃ s0, presetLoad hostA threeBindings 0 false true = some s0 ∧ s0.outEocArm = true
      ∧ ∃ s' ticks, presetProcessRun instantSlew s0
            [(hostA, unitReading), (hostA, unitReading), (hostA, unitReading)] = some (s', ticks)
        ∧ ticks.length
            = [(hostA, unitReading), (hostA, unitReading), (hostA, unitReading)].length
        ∧ eocTriggers ticks ≤ 1
        ∧ ((∃ tick, some tick ∈ ticks ∧ tick.slew = 10) → eocTriggers ticks = 1)
        ∧ ∀ (i : Nat) (tick : Tick), ticks[i]? = some (some tick) →
            (tick.eocTrigger = true ↔
              tick.slew = 10
                ∧ ∀ (j : Nat) (tick' : Tick), j < i → ticks[j]? = some (some tick') →
                    tick'.slew ≠ 10) :=
  C5_eoc_single_fire instantSlew 2 hostA threeBindings 0 true (by decide) (by decide)
    (by decide) (by decide) (by decide) (Or.inr rfl)
    [(hostA, unitReading), (hostA, unitReading), (hostA, unitReading)]

/-- C6: for every module state `m` (slot arrays of length `N`, unused slots
empty as in every state the module reaches) with `activeSlot < slotCount`
(in particular `1 ≤ slotCount ≤ N`, `-1 ≤ activeSlot < slotCount`),
`dataFromJson` applied to `dataToJson(m)` on an instance `f` without bindings
whose identifier the host does not know does not fail and yields the same
slotCvMode, outMode, active slot, slotCount, process division, indicator flag
and panel theme, the same used flags and value sequences for the `N` slots, and
the same ordered list of (moduleId, paramId) bindings. -/
theorem C6_round_trip (N : Nat) (eng : Engine) (id : Int) (m f : TransitModule)
    (hm : m.Sized N) (hf : f.Sized N) (hclean : m.SlotsClean)
    (hnew : f.sourceHandles = []) (hid : eng.getModule id = none)
    (hp : m.preset < m.presetCount) :
    ∃ m', dataFromJson eng id f (dataToJson N m) = some m'
      ∧ m'.slotCvMode = m.slotCvMode ∧ m'.outMode = m.outMode
      ∧ m'.preset = m.preset ∧ m'.presetCount = m.presetCount
      ∧ m'.presetProcessDivision = m.presetProcessDivision
      ∧ m'.mappingIndicatorHidden = m.mappingIndicatorHidden
      ∧ m'.panelTheme = m.panelTheme
      ∧ m'.presetSlotUsed = m.presetSlotUsed ∧ m'.presetSlot = m.presetSlot
      ∧ m'.sourceHandles = m.sourceHandles := by
  have hlen : ((List.range N).map (fun i =>
      if m.presetSlotUsed.getD i false = true then
        Json.object [("slotUsed", Json.boolean true),
          ("slot", Json.array ((m.presetSlot.getD i []).map Json.real))]
      else Json.object [("slotUsed", Json.boolean false)])).length = N := by simp
  obtain ⟨s3, e3, hframe, l1, l2, hin, _⟩ := dataFromJsonPresets_spec
    ((List.range N).map (fun i =>
      if m.presetSlotUsed.getD i false = true then
        Json.object [("slotUsed", Json.boolean true),
          ("slot", Json.array ((m.presetSlot.getD i []).map Json.real))]
      else Json.object [("slotUsed", Json.boolean false)]))
    { f with
      panelTheme := m.panelTheme
      mappingIndicatorHidden := m.mappingIndicatorHidden
      presetProcessDivision := m.presetProcessDivision
      slotCvMode := m.slotCvMode
      outMode := m.outMode
      preset := m.preset
      presetCount := m.presetCount
      inChange := false
      sourceHandles := m.sourceHandles }
    0 (by rw [hlen]; simp [hf.1]) (by rw [hlen]; simp [hf.2])
  have hused : s3.presetSlotUsed = m.presetSlotUsed := by
    apply List.ext_getElem?
    intro i
    by_cases hi : i < N
    · have := (hin i (by rw [hlen]; exact hi)).1
      rw [Nat.zero_add] at this
      rw [this, List.getElem?_map, List.getElem?_range hi]
      simp only [Option.map_some']
      rw [presetEntryUsed_written, List.getD_eq_getElem?_getD,
        List.getElem?_eq_getElem (by rw [hm.1]; exact hi)]
      simp
    · rw [List.getElem?_eq_none (by rw [l1]; simp [hf.1]; omega),
        List.getElem?_eq_none (by rw [hm.1]; omega)]
  have hslot : s3.presetSlot = m.presetSlot := by
    apply List.ext_getElem?
    intro i
    by_cases hi : i < N
    · have := (hin i (by rw [hlen]; exact hi)).2
      rw [Nat.zero_add] at this
      rw [this, List.getElem?_map, List.getElem?_range hi]
      simp only [Option.map_some']
      rw [presetEntrySlot_written]
      have hu : m.presetSlotUsed[i]? = some (m.presetSlotUsed.getD i false) := by
        rw [List.getD_eq_getElem?_getD, List.getElem?_eq_getElem (by rw [hm.1]; exact hi)]
        simp
      have hv : m.presetSlot[i]? = some (m.presetSlot.getD i []) := by
        rw [List.getD_eq_getElem?_getD, List.getElem?_eq_getElem (by rw [hm.2]; exact hi)]
        simp
      by_cases hb : m.presetSlotUsed.getD i false = true
      · rw [if_pos hb, hv]
      · rw [if_neg hb]
        have hb' : m.presetSlotUsed.getD i false = false := by simpa using hb
        rw [hb'] at hu
        exact (hclean i (by rw [hm.1]; exact hi) hu).symm
    · rw [List.getElem?_eq_none (by rw [l2]; simp [hf.2]; omega),
        List.getElem?_eq_none (by rw [hm.2]; omega)]
  have hrun : dataFromJson eng id f (dataToJson N m) = some s3 := by
    unfold dataFromJson
    dsimp only
    rw [dataToJson_panelTheme, dataToJson_mappingIndicatorHidden,
      dataToJson_presetProcessDivision, dataToJson_slotCvMode, dataToJson_outMode,
      dataToJson_preset, dataToJson_presetCount, dataToJson_sourceMaps, dataToJson_presets,
      hid]
    simp only [json_array_elems]
    rw [sourceHandles_foldl, hnew, List.nil_append]
    simp only [json_integer_value, json_boolean_value, Option.isSome_none,
      Bool.false_eq_true, if_false]
    rw [e3]
    dsimp only
    have h3p : s3.preset = m.preset := by rw [hframe]
    have h3c : s3.presetCount = m.presetCount := by rw [hframe]
    rw [if_neg (by rw [h3p, h3c]; omega)]
  refine ⟨s3, hrun, ?_, ?_, ?_, ?_, ?_, ?_, ?_, hused, hslot, ?_⟩ <;> rw [hframe]


/-- C6 at the three-slot module in ARM mode with three bindings and two used
slots, loaded into a freshly constructed module. -/
theorem C6_round_trip_witness :
    ∃ m', dataFromJson hostA 9 (fresh 3) (dataToJson 3 armModule) = some m'
      ∧ m'.slotCvMode = armModule.slotCvMode ∧ m'.outMode = armModule.outMode
      ∧ m'.preset = armModule.preset ∧ m'.presetCount = armModule.presetCount
      ∧ m'.presetProcessDivision = armModule.presetProcessDivision
      ∧ m'.mappingIndicatorHidden = armModule.mappingIndicatorHidden
      ∧ m'.panelTheme = armModule.panelTheme
      ∧ m'.presetSlotUsed = armModule.presetSlotUsed ∧ m'.presetSlot = armModule.presetSlot
      ∧ m'.sourceHandles = armModule.sourceHandles :=
  C6_round_trip 3 hostA 9 armModule (fresh 3) (by decide) (by decide) (by decide) (by decide)
    (by decide) (by decide)

/-- C7: for every slot index `p` in `[0, N)`, `presetSave(p)` does not fail,
marks slot `p` used and replaces its values by the current values of the
bindings that resolve, in binding order (an unresolved binding contributes no
entry: the new length is the number of resolved bindings, and when every
binding resolves entry `i` is the value of binding `i`); every other slot, the
active slot, the armed slot, slotCount and the binding list are unchanged. -/
theorem C7_presetSave (N : Nat) (eng : Engine) (s : TransitModule) (p : Nat)
    (hN : s.Sized N) (hp : p < N) :
    ∃ s', presetSave eng s p = some s'
      ∧ s'.presetSlotUsed[p]? = some true
      ∧ s'.presetSlot[p]? = some (s.sourceHandles.filterMap
          (fun h => (getParamQuantity eng h).map (fun pq => pq.value)))
      ∧ (∀ slot, s'.presetSlot[p]? = some slot →
          slot.length = s.sourceHandles.countP (fun h => (getParamQuantity eng h).isSome))
      ∧ ((∀ h ∈ s.sourceHandles, (getParamQuantity eng h).isSome = true) →
          ∀ slot, s'.presetSlot[p]? = some slot →
            slot.length = s.sourceHandles.length
            ∧ ∀ (i : Nat) (h : ParamHandle), s.sourceHandles[i]? = some h →
                slot[i]? = (getParamQuantity eng h).map (fun pq => pq.value))
      ∧ (∀ q : Nat, q ≠ p →
          s'.presetSlotUsed[q]? = s.presetSlotUsed[q]? ∧ s'.presetSlot[q]? = s.presetSlot[q]?)
      ∧ s'.preset = s.preset ∧ s'.presetNext = s.presetNext
      ∧ s'.presetCount = s.presetCount ∧ s'.sourceHandles = s.sourceHandles
      ∧ s'.Sized N := by
  have hcond : 0 ≤ (p : Int) ∧ (p : Int).toNat < s.presetSlotUsed.length
      ∧ (p : Int).toNat < s.presetSlot.length := by
    refine ⟨Int.natCast_nonneg p, ?_, ?_⟩
    · rw [hN.1]; simpa using hp
    · rw [hN.2]; simpa using hp
  have hp1 : p < s.presetSlotUsed.length := by rw [hN.1]; exact hp
  have hp2 : p < s.presetSlot.length := by rw [hN.2]; exact hp
  have hget : (s.presetSlot.set p (captureSlot eng s.sourceHandles))[p]?
      = some (s.sourceHandles.filterMap
          (fun h => (getParamQuantity eng h).map (fun pq => pq.value))) := by
    rw [List.getElem?_set, if_pos rfl, if_pos hp2, captureSlot_eq_filterMap]
  refine ⟨{ s with
      presetSlotUsed := s.presetSlotUsed.set p true
      presetSlot := s.presetSlot.set p (captureSlot eng s.sourceHandles) }, ?_, ?_, hget, ?_, ?_,
    ?_, rfl, rfl, rfl, rfl, ?_⟩
  · unfold presetSave
    rw [if_pos hcond]
    simp
  · show (s.presetSlotUsed.set p true)[p]? = some true
    rw [List.getElem?_set, if_pos rfl, if_pos hp1]
  · intro slot hslot
    have hslot' : (s.presetSlot.set p (captureSlot eng s.sourceHandles))[p]? = some slot := hslot
    rw [hget] at hslot'
    simp only [Option.some.injEq] at hslot'
    rw [← hslot', length_filterMap_eq_countP]
    congr 1
    funext h
    cases getParamQuantity eng h <;> rfl
  · intro hall slot hslot
    have hslot' : (s.presetSlot.set p (captureSlot eng s.sourceHandles))[p]? = some slot := hslot
    rw [hget] at hslot'
    simp only [Option.some.injEq] at hslot'
    have hmap : s.sourceHandles.filterMap
        (fun h => (getParamQuantity eng h).map (fun pq => pq.value))
        = s.sourceHandles.map (fun h => match getParamQuantity eng h with
            | some pq => pq.value
            | none => 0) := by
      apply filterMap_eq_map_of_all
      intro h hh
      have := hall h hh
      cases hq : getParamQuantity eng h with
      | none => rw [hq] at this; cases this
      | some pq => rfl
    rw [hmap] at hslot'
    subst hslot'
    refine ⟨by simp, ?_⟩
    intro i h hi
    rw [List.getElem?_map, hi]
    have := hall h (List.getElem?_mem hi)
    cases hq : getParamQuantity eng h with
    | none => rw [hq] at this; cases this
    | some pq => simp [hq]
  · intro q hq
    constructor
    · show (s.presetSlotUsed.set p true)[q]? = _
      rw [List.getElem?_set, if_neg (fun h => hq h.symm)]
    · show (s.presetSlot.set p (captureSlot eng s.sourceHandles))[q]? = _
      rw [List.getElem?_set, if_neg (fun h => hq h.symm)]
  · exact ⟨by simp [hN.1], by simp [hN.2]⟩

/-- C7 at the module with three bindings, saving slot 1. -/
theorem C7_presetSave_witness :
    ∃ s', presetSave hostA threeBindings (1 : Nat) = some s'
      ∧ s'.presetSlotUsed[1]? = some true
      ∧ s'.presetSlot[1]? = some (threeBindings.sourceHandles.filterMap
          (fun h => (getParamQuantity hostA h).map (fun pq => pq.value)))
      ∧ (∀ slot, s'.presetSlot[1]? = some slot →
          slot.length
            = threeBindings.sourceHandles.countP (fun h => (getParamQuantity hostA h).isSome))
      ∧ ((∀ h ∈ threeBindings.sourceHandles, (getParamQuantity hostA h).isSome = true) →
          ∀ slot, s'.presetSlot[1]? = some slot →
            slot.length = threeBindings.sourceHandles.length
            ∧ ∀ (i : Nat) (h : ParamHandle), threeBindings.sourceHandles[i]? = some h →
                slot[i]? = (getParamQuantity hostA h).map (fun pq => pq.value))
      ∧ (∀ q : Nat, q ≠ 1 →
          s'.presetSlotUsed[q]? = threeBindings.presetSlotUsed[q]?
          ∧ s'.presetSlot[q]? = threeBindings.presetSlot[q]?)
      ∧ s'.preset = threeBindings.preset ∧ s'.presetNext = threeBindings.presetNext
      ∧ s'.presetCount = threeBindings.presetCount
      ∧ s'.sourceHandles = threeBindings.sourceHandles
      ∧ s'.Sized 2 :=
  C7_presetSave 2 hostA threeBindings 1 (by decide) (by decide)

/-- C8: for every slot index `p` in `[0, N)`, `presetClear(p)` does not fail,
marks slot `p` unused and empties its values; the active slot becomes none
(`-1`) if it was `p` and is unchanged otherwise; every other slot, slotCount
and the binding list are unchanged. -/
theorem C8_presetClear (N : Nat) (s : TransitModule) (p : Nat)
    (hN : s.Sized N) (hp : p < N) :
    ∃ s', presetClear s p = some s'
      ∧ s'.presetSlotUsed[p]? = some false
      ∧ s'.presetSlot[p]? = some []
      ∧ s'.preset = (if s.preset = p then -1 else s.preset)
      ∧ (∀ q : Nat, q ≠ p →
          s'.presetSlotUsed[q]? = s.presetSlotUsed[q]? ∧ s'.presetSlot[q]? = s.presetSlot[q]?)
      ∧ s'.presetCount = s.presetCount ∧ s'.sourceHandles = s.sourceHandles
      ∧ s'.Sized N := by
  have hcond : 0 ≤ (p : Int) ∧ (p : Int).toNat < s.presetSlotUsed.length
      ∧ (p : Int).toNat < s.presetSlot.length := by
    refine ⟨Int.natCast_nonneg p, ?_, ?_⟩
    · rw [hN.1]; simpa using hp
    · rw [hN.2]; simpa using hp
  have hp1 : p < s.presetSlotUsed.length := by rw [hN.1]; exact hp
  have hp2 : p < s.presetSlot.length := by rw [hN.2]; exact hp
  have hrun : presetClear s p = some
      (if s.preset = p then
        { s with
          presetSlotUsed := s.presetSlotUsed.set p false
          presetSlot := s.presetSlot.set p []
          preset := -1 }
      else
        { s with
          presetSlotUsed := s.presetSlotUsed.set p false
          presetSlot := s.presetSlot.set p [] }) := by
    unfold presetClear
    rw [if_pos hcond]
    simp
  rw [hrun]
  refine ⟨_, rfl, ?_⟩
  by_cases hact : s.preset = p
  · rw [if_pos hact, if_pos hact]
    refine ⟨?_, ?_, rfl, ?_, rfl, rfl, ⟨by simp [hN.1], by simp [hN.2]⟩⟩
    · rw [List.getElem?_set, if_pos rfl, if_pos hp1]
    · rw [List.getElem?_set, if_pos rfl, if_pos hp2]
    · intro q hq
      exact ⟨by rw [List.getElem?_set, if_neg (fun h => hq h.symm)],
        by rw [List.getElem?_set, if_neg (fun h => hq h.symm)]⟩
  · rw [if_neg hact, if_neg hact]
    refine ⟨?_, ?_, rfl, ?_, rfl, rfl, ⟨by simp [hN.1], by simp [hN.2]⟩⟩
    · rw [List.getElem?_set, if_pos rfl, if_pos hp1]
    · rw [List.getElem?_set, if_pos rfl, if_pos hp2]
    · intro q hq
      exact ⟨by rw [List.getElem?_set, if_neg (fun h => hq h.symm)],
        by rw [List.getElem?_set, if_neg (fun h => hq h.symm)]⟩

/-- C8 at the module with three bindings, clearing its active slot 0. -/
theorem C8_presetClear_witness :
    ∃ s', presetClear threeBindings (0 : Nat) = some s'
      ∧ s'.presetSlotUsed[0]? = some false
      ∧ s'.presetSlot[0]? = some []
      ∧ s'.preset = (if threeBindings.preset = (0 : Nat) then -1 else threeBindings.preset)
      ∧ (∀ q : Nat, q ≠ 0 →
          s'.presetSlotUsed[q]? = threeBindings.presetSlotUsed[q]?
          ∧ s'.presetSlot[q]? = threeBindings.presetSlot[q]?)
      ∧ s'.presetCount = threeBindings.presetCount
      ∧ s'.sourceHandles = threeBindings.sourceHandles
      ∧ s'.Sized 2 :=
  C8_presetClear 2 threeBindings 0 (by decide) (by decide)

/-- C9, as stated, fails: `presetSetCount` stores its argument as it is. On a
four-slot module `presetSetCount(0)` leaves slotCount 0 and `presetSetCount(9)`
leaves slotCount 9, while 0 and 9 clamped to `[1, 4]` are 1 and 4. -/
theorem C9_presetSetCount_no_clamp :
    (presetSetCount (fresh 4) 0).presetCount = 0 ∧ max 1 (min (0 : Int) 4) = 1
      ∧ (presetSetCount (fresh 4) 9).presetCount = 9 ∧ max 1 (min (9 : Int) 4) = 4 := by
  decide

/-- C9, amended: for every `n` with `1 ≤ n ≤ N`, after `presetSetCount(n)`
slotCount equals `n` (which is `n` clamped to `[1, N]`), so slotCount lies in
`1..N`; the only caller, the long press of button `i` in `[0, N)` in read mode,
passes `n = i + 1`, which is in that range. -/
theorem C9_presetSetCount_in_range (N : Nat) (eng : Engine) (s : TransitModule) (n : Int)
    (h1 : 1 ≤ n) (hN : n ≤ N) :
    (presetSetCount s n).presetCount = n
      ∧ (presetSetCount s n).presetCount = max 1 (min n N)
      ∧ 1 ≤ (presetSetCount s n).presetCount ∧ (presetSetCount s n).presetCount ≤ N
      ∧ ∀ i : Nat, i < N →
          ∃ s', processButtonRead eng s i LongPressButton.LONG_PRESS = some s'
            ∧ s'.presetCount = (i : Int) + 1
            ∧ 1 ≤ s'.presetCount ∧ s'.presetCount ≤ N := by
  have hc : ∀ m : Int, (presetSetCount s m).presetCount = m := by
    intro m
    unfold presetSetCount
    rfl
  refine ⟨hc n, ?_, by rw [hc]; exact h1, by rw [hc]; exact hN, ?_⟩
  · rw [hc, min_eq_left hN, max_eq_right h1]
  · intro i hi
    refine ⟨presetSetCount s (i + 1), rfl, hc _, ?_, ?_⟩
    · rw [hc]; omega
    · rw [hc]; omega

/-- The amended C9 on a four-slot module with `n = 3`. -/
theorem C9_presetSetCount_in_range_witness :
    (presetSetCount (fresh 4) 3).presetCount = 3
      ∧ (presetSetCount (fresh 4) 3).presetCount = max 1 (min 3 ((4 : Nat) : Int))
      ∧ 1 ≤ (presetSetCount (fresh 4) 3).presetCount
      ∧ (presetSetCount (fresh 4) 3).presetCount ≤ ((4 : Nat) : Int)
      ∧ ∀ i : Nat, i < 4 →
          ∃ s', processButtonRead hostA (fresh 4) i LongPressButton.LONG_PRESS = some s'
            ∧ s'.presetCount = (i : Int) + 1
            ∧ 1 ≤ s'.presetCount ∧ s'.presetCount ≤ ((4 : Nat) : Int) :=
  C9_presetSetCount_in_range 4 hostA (fresh 4) 3 (by decide) (by decide)

/-- C10: for every `n` (in particular `1 ≤ n ≤ N`), `presetSetCount(n)` sets
the active slot to 0 if it was `≥ n` and leaves it unchanged otherwise, sets
the armed slot to none (`-1`), and starts no transition: the slot contents,
`presetOld`, the slew limiter, the end-of-cycle arm flag and the pulse
generator are unchanged, as is the binding list. -/
theorem C10_presetSetCount_active (s : TransitModule) (n : Int) :
    (presetSetCount s n).preset = (if s.preset ≥ n then 0 else s.preset)
      ∧ (presetSetCount s n).presetNext = -1
      ∧ (presetSetCount s n).presetSlotUsed = s.presetSlotUsed
      ∧ (presetSetCount s n).presetSlot = s.presetSlot
      ∧ (presetSetCount s n).presetOld = s.presetOld
      ∧ (presetSetCount s n).slewLimiter = s.slewLimiter
      ∧ (presetSetCount s n).outEocArm = s.outEocArm
      ∧ (presetSetCount s n).outEocPulseGenerator = s.outEocPulseGenerator
      ∧ (presetSetCount s n).sourceHandles = s.sourceHandles := by
  unfold presetSetCount
  dsimp only
  by_cases h : s.preset ≥ n
  · rw [if_pos h, if_pos h]
    exact ⟨rfl, rfl, rfl, rfl, rfl, rfl, rfl, rfl, rfl⟩
  · rw [if_neg h, if_neg h]
    exact ⟨rfl, rfl, rfl, rfl, rfl, rfl, rfl, rfl, rfl⟩

/-- C11: for every `p` in `[0, slotCount)` whose slot is used, `presetLoad(p)`
without arming, when `p` differs from the active slot or `force` is set, does
not fail, makes `p` the active slot, clears the armed slot, resets the slew
output to 0, arms the end-of-cycle pulse and sets `presetOld` to one entry per
binding in binding order (the binding's current value when it resolves, 0 when
it does not), leaving the slot bank, slotCount and the bindings alone; when `p`
is the active slot and `force` is not set the whole state is unchanged. -/
theorem C11_transition_start (eng : Engine) (s : TransitModule) (p : Nat)
    (hk : (p : Int) < s.presetCount) (hused : s.presetSlotUsed[p]? = some true) :
    (∀ force : Bool, (p : Int) ≠ s.preset ∨ force = true →
      ∃ s', presetLoad eng s p false force = some s'
        ∧ s'.preset = p ∧ s'.presetNext = -1 ∧ s'.slewLimiter.out = 0
        ∧ s'.outEocArm = true
        ∧ s'.presetOld.length = s.sourceHandles.length
        ∧ (∀ (i : Nat) (h : ParamHandle), s.sourceHandles[i]? = some h →
            s'.presetOld[i]? = some (match getParamQuantity eng h with
              | some pq => pq.value
              | none => 0))
        ∧ s'.presetSlotUsed = s.presetSlotUsed ∧ s'.presetSlot = s.presetSlot
        ∧ s'.presetCount = s.presetCount ∧ s'.sourceHandles = s.sourceHandles)
    ∧ ((p : Int) = s.preset → presetLoad eng s p false false = some s) := by
  have h0 : (0 : Int) ≤ p := Int.natCast_nonneg p
  have hused' : s.presetSlotUsed[(p : Int).toNat]? = some true := by simpa using hused
  refine ⟨fun force hne => ?_, fun heq => ?_⟩
  · refine ⟨_, presetLoad_plain_used eng s p force h0 hk hne hused', rfl, rfl, rfl, rfl, ?_, ?_,
      rfl, rfl, rfl, rfl⟩
    · show (capturePresetOld eng s.sourceHandles).length = s.sourceHandles.length
      rw [capturePresetOld_eq_map, List.length_map]
    · intro i h hi
      show (capturePresetOld eng s.sourceHandles)[i]? = _
      rw [capturePresetOld_eq_map, List.getElem?_map, hi]
      rfl
  · unfold presetLoad
    rw [if_neg (by omega)]
    simp only [if_true]
    rw [if_neg (by simp [heq])]

/-- C11 at the module with three bindings and the used slot 0. -/
theorem C11_transition_start_witness :
    (∀ force : Bool, ((0 : Nat) : Int) ≠ threeBindings.preset ∨ force = true →
      ∃ s', presetLoad hostA threeBindings (0 : Nat) false force = some s'
        ∧ s'.preset = (0 : Nat) ∧ s'.presetNext = -1 ∧ s'.slewLimiter.out = 0
        ∧ s'.outEocArm = true
        ∧ s'.presetOld.length = threeBindings.sourceHandles.length
        ∧ (∀ (i : Nat) (h : ParamHandle), threeBindings.sourceHandles[i]? = some h →
            s'.presetOld[i]? = some (match getParamQuantity hostA h with
              | some pq => pq.value
              | none => 0))
        ∧ s'.presetSlotUsed = threeBindings.presetSlotUsed
        ∧ s'.presetSlot = threeBindings.presetSlot
        ∧ s'.presetCount = threeBindings.presetCount
        ∧ s'.sourceHandles = threeBindings.sourceHandles)
    ∧ (((0 : Nat) : Int) = threeBindings.preset →
        presetLoad hostA threeBindings (0 : Nat) false false = some threeBindings) :=
  C11_transition_start hostA threeBindings 0 (by decide) (by decide)

/-- C12: for every state and every unused slot index `q` in `[0, slotCount)`,
`presetLoad(q)` with any combination of the arming and force flags does not
fail and starts no transition: `presetOld`, the slew limiter, the end-of-cycle
arm flag, the pulse generator and all slot contents are unchanged, and in
arming mode the whole state, the armed slot included, is unchanged. -/
theorem C12_unused_load_no_transition (eng : Engine) (s : TransitModule) (q : Nat)
    (hk : (q : Int) < s.presetCount) (hun : s.presetSlotUsed[q]? = some false) :
    (∀ isNext force : Bool, ∃ s', presetLoad eng s q isNext force = some s'
        ∧ s'.presetOld = s.presetOld ∧ s'.slewLimiter = s.slewLimiter
        ∧ s'.outEocArm = s.outEocArm
        ∧ s'.outEocPulseGenerator = s.outEocPulseGenerator
        ∧ s'.presetSlotUsed = s.presetSlotUsed ∧ s'.presetSlot = s.presetSlot
        ∧ (isNext = true → s'.presetNext = s.presetNext))
    ∧ ∀ force : Bool, presetLoad eng s q true force = some s := by
  have h0 : (0 : Int) ≤ q := Int.natCast_nonneg q
  have hun' : s.presetSlotUsed[(q : Int).toNat]? = some false := by simpa using hun
  refine ⟨fun isNext force => ?_, fun force => presetLoad_arm_unused eng s q force h0 hk hun'⟩
  cases isNext with
  | true =>
    exact ⟨s, presetLoad_arm_unused eng s q force h0 hk hun', rfl, rfl, rfl, rfl, rfl, rfl,
      fun _ => rfl⟩
  | false =>
    by_cases hne : (q : Int) ≠ s.preset ∨ force = true
    · exact ⟨_, presetLoad_plain_unused eng s q force h0 hk hne hun', rfl, rfl, rfl, rfl, rfl,
        rfl, fun h => (by cases h)⟩
    · refine ⟨s, ?_, rfl, rfl, rfl, rfl, rfl, rfl, fun _ => rfl⟩
      unfold presetLoad
      rw [if_neg (by omega)]
      simp only [if_true]
      rw [if_neg hne]

/-- C12 at the two-slot module with the unused slot 1. -/
theorem C12_unused_load_no_transition_witness :
    (∀ isNext force : Bool, ∃ s', presetLoad hostA twoSlots (1 : Nat) isNext force = some s'
        ∧ s'.presetOld = twoSlots.presetOld ∧ s'.slewLimiter = twoSlots.slewLimiter
        ∧ s'.outEocArm = twoSlots.outEocArm
        ∧ s'.outEocPulseGenerator = twoSlots.outEocPulseGenerator
        ∧ s'.presetSlotUsed = twoSlots.presetSlotUsed ∧ s'.presetSlot = twoSlots.presetSlot
        ∧ (isNext = true → s'.presetNext = twoSlots.presetNext))
    ∧ ∀ force : Bool, presetLoad hostA twoSlots (1 : Nat) true force = some twoSlots :=
  C12_unused_load_no_transition hostA twoSlots 1 (by decide) (by decide)

/-- C13: `bindParameter(moduleId, paramId)` appends exactly one binding, with
these identifiers, at the end of the binding list; if the new binding resolves
to a parameter with current value `v`, the values of every used slot become the
old values followed by `v` and every unused slot is unchanged; if it does not
resolve, no slot is changed. The used flags, the active slot and slotCount are
unchanged in both cases. -/
theorem C13_bind_backfill (N : Nat) (eng : Engine) (s : TransitModule)
    (moduleId paramId : Int) (hN : s.Sized N) :
    (bindParameter N eng s moduleId paramId).sourceHandles
        = s.sourceHandles ++ [{ moduleId := moduleId, paramId := paramId }]
      ∧ (bindParameter N eng s moduleId paramId).sourceHandles.length
        = s.sourceHandles.length + 1
      ∧ (bindParameter N eng s moduleId paramId).preset = s.preset
      ∧ (bindParameter N eng s moduleId paramId).presetCount = s.presetCount
      ∧ (bindParameter N eng s moduleId paramId).presetSlotUsed = s.presetSlotUsed
      ∧ (∀ pq : ParamQuantity,
          getParamQuantity eng { moduleId := moduleId, paramId := paramId } = some pq →
          ∀ (i : Nat) (slot : List Value), s.presetSlot[i]? = some slot →
            (s.presetSlotUsed[i]? = some true →
              (bindParameter N eng s moduleId paramId).presetSlot[i]?
                = some (slot ++ [pq.value]))
            ∧ (s.presetSlotUsed[i]? = some false →
              (bindParameter N eng s moduleId paramId).presetSlot[i]? = some slot))
      ∧ (getParamQuantity eng { moduleId := moduleId, paramId := paramId } = none →
          (bindParameter N eng s moduleId paramId).presetSlot = s.presetSlot) := by
  obtain ⟨hu, _, hg⟩ := bindParameter_slots N eng s moduleId paramId hN
  have hh : eng.updateParamHandle moduleId paramId true
      = { moduleId := moduleId, paramId := paramId } := rfl
  rw [hh] at hg
  have hframe : (bindParameter N eng s moduleId paramId).sourceHandles
        = s.sourceHandles ++ [{ moduleId := moduleId, paramId := paramId }]
      ∧ (bindParameter N eng s moduleId paramId).preset = s.preset
      ∧ (bindParameter N eng s moduleId paramId).presetCount = s.presetCount := by
    unfold bindParameter
    dsimp only
    rw [hh]
    cases getParamQuantity eng { moduleId := moduleId, paramId := paramId } <;>
      exact ⟨rfl, rfl, rfl⟩
  refine ⟨hframe.1, ?_, hframe.2.1, hframe.2.2, hu, ?_, ?_⟩
  · rw [hframe.1]
    simp
  · intro pq hq i slot hslot
    have := hg i
    rw [hq] at this
    dsimp only at this
    constructor
    · intro hused
      rw [this, if_pos hused, hslot]
      rfl
    · intro hun
      rw [this, if_neg (by rw [hun]; simp), hslot]
  · intro hq
    apply List.ext_getElem?
    intro i
    have := hg i
    rw [hq] at this
    exact this

/-- C13 at the module with three bindings (slot 0 used, slot 1 unused), binding
parameter 1 of module 7. -/
theorem C13_bind_backfill_witness :
    (bindParameter 2 hostA threeBindings 7 1).sourceHandles
        = threeBindings.sourceHandles ++ [{ moduleId := 7, paramId := 1 }]
      ∧ (bindParameter 2 hostA threeBindings 7 1).sourceHandles.length
        = threeBindings.sourceHandles.length + 1
      ∧ (bindParameter 2 hostA threeBindings 7 1).preset = threeBindings.preset
      ∧ (bindParameter 2 hostA threeBindings 7 1).presetCount = threeBindings.presetCount
      ∧ (bindParameter 2 hostA threeBindings 7 1).presetSlotUsed
        = threeBindings.presetSlotUsed
      ∧ (∀ pq : ParamQuantity,
          getParamQuantity hostA { moduleId := 7, paramId := 1 } = some pq →
          ∀ (i : Nat) (slot : List Value), threeBindings.presetSlot[i]? = some slot →
            (threeBindings.presetSlotUsed[i]? = some true →
              (bindParameter 2 hostA threeBindings 7 1).presetSlot[i]?
                = some (slot ++ [pq.value]))
            ∧ (threeBindings.presetSlotUsed[i]? = some false →
              (bindParameter 2 hostA threeBindings 7 1).presetSlot[i]? = some slot))
      ∧ (getParamQuantity hostA { moduleId := 7, paramId := 1 } = none →
          (bindParameter 2 hostA threeBindings 7 1).presetSlot = threeBindings.presetSlot) :=
  C13_bind_backfill 2 hostA threeBindings 7 1 (by decide)

/-- C14, as stated, fails: the host knows module 7, and `dataFromJson` for the
module with identifier 7, applied to a fresh three-slot instance and the
document of `armModule`, changes slotCvMode from TRIG_FWD (2) to ARM (3) and
the active slot from none (-1) to 1 (no binding and no slot is loaded). -/
theorem C14_guarded_load_sets_scalars :
    (hostA.getModule 7).isSome = true
      ∧ (fresh 3).slotCvMode = 2 ∧ (fresh 3).preset = -1
      ∧ (dataFromJson hostA 7 (fresh 3) (dataToJson 3 armModule)).map
          (fun s => (s.slotCvMode, s.preset)) = some (3, 1)
      ∧ (dataFromJson hostA 7 (fresh 3) (dataToJson 3 armModule)).map
          (fun s => (s.sourceHandles, s.presetSlotUsed, s.presetSlot))
        = some ([], [false, false, false], [[], [], []]) := by
  decide

/-- C14, amended: when the host already knows the module's identifier,
`dataFromJson` does not fail and modifies no binding and no slot (nor the armed
slot, `presetOld`, the slew limiter, the arm flag or the distribution bounds);
it does set the seven scalar fields panelTheme, mappingIndicatorHidden,
presetProcessDivision, slotCvMode, outMode, preset and presetCount from the
document (for a document written by `dataToJson(m)`, to the values of `m`). -/
theorem C14_guarded_load (N : Nat) (eng : Engine) (id : Int) (s m : TransitModule)
    (rootJ : Json) (hknown : (eng.getModule id).isSome = true) :
    (∃ s', dataFromJson eng id s rootJ = some s'
        ∧ s'.sourceHandles = s.sourceHandles
        ∧ s'.presetSlotUsed = s.presetSlotUsed ∧ s'.presetSlot = s.presetSlot
        ∧ s'.presetNext = s.presetNext ∧ s'.presetOld = s.presetOld
        ∧ s'.slewLimiter = s.slewLimiter ∧ s'.outEocArm = s.outEocArm
        ∧ s'.randDist = s.randDist
        ∧ s'.panelTheme = json_integer_value (json_object_get (some rootJ) "panelTheme")
        ∧ s'.mappingIndicatorHidden
            = json_boolean_value (json_object_get (some rootJ) "mappingIndicatorHidden")
        ∧ s'.presetProcessDivision
            = json_integer_value (json_object_get (some rootJ) "presetProcessDivision")
        ∧ s'.slotCvMode = json_integer_value (json_object_get (some rootJ) "slotCvMode")
        ∧ s'.outMode = json_integer_value (json_object_get (some rootJ) "outMode")
        ∧ s'.preset = json_integer_value (json_object_get (some rootJ) "preset")
        ∧ s'.presetCount = json_integer_value (json_object_get (some rootJ) "presetCount"))
      ∧ ∃ s', dataFromJson eng id s (dataToJson N m) = some s'
        ∧ s'.sourceHandles = s.sourceHandles
        ∧ s'.presetSlotUsed = s.presetSlotUsed ∧ s'.presetSlot = s.presetSlot
        ∧ s'.panelTheme = m.panelTheme
        ∧ s'.mappingIndicatorHidden = m.mappingIndicatorHidden
        ∧ s'.presetProcessDivision = m.presetProcessDivision
        ∧ s'.slotCvMode = m.slotCvMode ∧ s'.outMode = m.outMode
        ∧ s'.preset = m.preset ∧ s'.presetCount = m.presetCount := by
  have hrun : ∀ doc : Json, dataFromJson eng id s doc = some
      { s with
        panelTheme := json_integer_value (json_object_get (some doc) "panelTheme")
        mappingIndicatorHidden :=
          json_boolean_value (json_object_get (some doc) "mappingIndicatorHidden")
        presetProcessDivision :=
          json_integer_value (json_object_get (some doc) "presetProcessDivision")
        slotCvMode := json_integer_value (json_object_get (some doc) "slotCvMode")
        outMode := json_integer_value (json_object_get (some doc) "outMode")
        preset := json_integer_value (json_object_get (some doc) "preset")
        presetCount := json_integer_value (json_object_get (some doc) "presetCount") } := by
    intro doc
    unfold dataFromJson
    dsimp only
    rw [if_pos hknown]
  refine ⟨⟨_, hrun rootJ, rfl, rfl, rfl, rfl, rfl, rfl, rfl, rfl, rfl, rfl, rfl, rfl, rfl, rfl,
    rfl⟩, ⟨_, hrun (dataToJson N m), rfl, rfl, rfl, ?_, ?_, ?_, ?_, ?_, ?_, ?_⟩⟩
  · show json_integer_value (json_object_get (some (dataToJson N m)) "panelTheme") = _
    rw [dataToJson_panelTheme]; rfl
  · show json_boolean_value (json_object_get (some (dataToJson N m)) "mappingIndicatorHidden")
      = _
    rw [dataToJson_mappingIndicatorHidden]; rfl
  · show json_integer_value (json_object_get (some (dataToJson N m)) "presetProcessDivision")
      = _
    rw [dataToJson_presetProcessDivision]; rfl
  · show json_integer_value (json_object_get (some (dataToJson N m)) "slotCvMode") = _
    rw [dataToJson_slotCvMode]; rfl
  · show json_integer_value (json_object_get (some (dataToJson N m)) "outMode") = _
    rw [dataToJson_outMode]; rfl
  · show json_integer_value (json_object_get (some (dataToJson N m)) "preset") = _
    rw [dataToJson_preset]; rfl
  · show json_integer_value (json_object_get (some (dataToJson N m)) "presetCount") = _
    rw [dataToJson_presetCount]; rfl

/-- The amended C14 for module 7, which the host knows, loading the document of
`armModule` into a fresh three-slot instance. -/
theorem C14_guarded_load_witness :
    (∃ s', dataFromJson hostA 7 (fresh 3) (dataToJson 3 armModule) = some s'
        ∧ s'.sourceHandles = (fresh 3).sourceHandles
        ∧ s'.presetSlotUsed = (fresh 3).presetSlotUsed ∧ s'.presetSlot = (fresh 3).presetSlot
        ∧ s'.presetNext = (fresh 3).presetNext ∧ s'.presetOld = (fresh 3).presetOld
        ∧ s'.slewLimiter = (fresh 3).slewLimiter ∧ s'.outEocArm = (fresh 3).outEocArm
        ∧ s'.randDist = (fresh 3).randDist
        ∧ s'.panelTheme
            = json_integer_value (json_object_get (some (dataToJson 3 armModule)) "panelTheme")
        ∧ s'.mappingIndicatorHidden
            = json_boolean_value
                (json_object_get (some (dataToJson 3 armModule)) "mappingIndicatorHidden")
        ∧ s'.presetProcessDivision
            = json_integer_value
                (json_object_get (some (dataToJson 3 armModule)) "presetProcessDivision")
        ∧ s'.slotCvMode
            = json_integer_value (json_object_get (some (dataToJson 3 armModule)) "slotCvMode")
        ∧ s'.outMode
            = json_integer_value (json_object_get (some (dataToJson 3 armModule)) "outMode")
        ∧ s'.preset
            = json_integer_value (json_object_get (some (dataToJson 3 armModule)) "preset")
        ∧ s'.presetCount
            = json_integer_value
                (json_object_get (some (dataToJson 3 armModule)) "presetCount"))
      ∧ ∃ s', dataFromJson hostA 7 (fresh 3) (dataToJson 3 armModule) = some s'
        ∧ s'.sourceHandles = (fresh 3).sourceHandles
        ∧ s'.presetSlotUsed = (fresh 3).presetSlotUsed ∧ s'.presetSlot = (fresh 3).presetSlot
        ∧ s'.panelTheme = armModule.panelTheme
        ∧ s'.mappingIndicatorHidden = armModule.mappingIndicatorHidden
        ∧ s'.presetProcessDivision = armModule.presetProcessDivision
        ∧ s'.slotCvMode = armModule.slotCvMode ∧ s'.outMode = armModule.outMode
        ∧ s'.preset = armModule.preset ∧ s'.presetCount = armModule.presetCount :=
  C14_guarded_load 3 hostA 7 (fresh 3) armModule (dataToJson 3 armModule) (by decide)

/-- C15: in a processing tick below full scale with normalised progress
`t = slew / 10`, for a resolved binding `i` with captured old value `a` and
slot value `b`, with `v = a + (b - a) t`: exactly one value is written to the
parameter, namely `round(v)` when `t > 1 - 0.005` and `|round(v) - v| < 0.005`,
and `v` otherwise, where `round(v)` is an integer nearest to `v`; when `v` is an
integer the written value is that integer. (Values are exact rationals.) -/
theorem C15_interpolation_snap (slew : SlewStep) (eng : Engine) (s : TransitModule)
    (r : ProcessReading) (slot : List Value) (h0 : 0 ≤ s.preset)
    (hslot : s.presetSlot[s.preset.toNat]? = some slot) :
    ∃ s' log, presetProcess slew eng s r = some (s', log)
      ∧ (s.presetProcessDivider.process.1 = true → ∃ tick, log = some tick)
      ∧ ∀ tick, log = some tick → tick.slew ≠ 10 →
        ∀ (i : Nat) (h : ParamHandle) (a b : Value), s.sourceHandles[i]? = some h →
          (getParamQuantity eng h).isSome = true →
          s.presetOld[i]? = some a → slot[i]? = some b →
          ∃ w : Value, Access.setValue i w ∈ tick.accesses
            ∧ (∀ w', Access.setValue i w' ∈ tick.accesses → w' = w)
            ∧ w = (if tick.slew / 10 > 1 - 5 / 1000
                  ∧ |((cround (a + (b - a) * (tick.slew / 10)) : Int) : Value)
                      - (a + (b - a) * (tick.slew / 10))| < 5 / 1000
                then ((cround (a + (b - a) * (tick.slew / 10)) : Int) : Value)
                else a + (b - a) * (tick.slew / 10))
            ∧ (∀ m : Int,
                |((cround (a + (b - a) * (tick.slew / 10)) : Int) : Value)
                    - (a + (b - a) * (tick.slew / 10))|
                  ≤ |(m : Value) - (a + (b - a) * (tick.slew / 10))|)
            ∧ (∀ n : Int, a + (b - a) * (tick.slew / 10) = n → w = n) := by
  obtain ⟨s', log, e, hfire, hspec⟩ := presetProcess_spec slew eng s r slot h0 hslot
  refine ⟨s', log, e, hfire, ?_⟩
  intro tick ht hslew i h a b hh hres ha hb
  obtain ⟨_, _, r3, r4⟩ := hspec tick ht hslew
  refine ⟨interpolate a b (tick.slew / 10), r4 i h a b hh hres ha hb, ?_, interpolate_eq _ _ _,
    fun m => cround_nearest _ m, fun n hn => interpolate_of_int _ _ _ n hn⟩
  intro w' hmem
  obtain ⟨h', a', b', _, _, ha', hb', hv⟩ := r3 i w' hmem
  rw [ha] at ha'
  rw [hb] at hb'
  simp only [Option.some.injEq] at ha' hb'
  subst ha' hb'
  exact hv

/-- C15 at the module with three bindings and an active slot of two values. -/
theorem C15_interpolation_snap_witness :
    ∃ s' log, presetProcess halfwaySlew hostA threeBindings unitReading = some (s', log)
      ∧ (threeBindings.presetProcessDivider.process.1 = true → ∃ tick, log = some tick)
      ∧ ∀ tick, log = some tick → tick.slew ≠ 10 →
        ∀ (i : Nat) (h : ParamHandle) (a b : Value), threeBindings.sourceHandles[i]? = some h →
          (getParamQuantity hostA h).isSome = true →
          threeBindings.presetOld[i]? = some a → [(1 : Value), 2][i]? = some b →
          ∃ w : Value, Access.setValue i w ∈ tick.accesses
            ∧ (∀ w', Access.setValue i w' ∈ tick.accesses → w' = w)
            ∧ w = (if tick.slew / 10 > 1 - 5 / 1000
                  ∧ |((cround (a + (b - a) * (tick.slew / 10)) : Int) : Value)
                      - (a + (b - a) * (tick.slew / 10))| < 5 / 1000
                then ((cround (a + (b - a) * (tick.slew / 10)) : Int) : Value)
                else a + (b - a) * (tick.slew / 10))
            ∧ (∀ m : Int,
                |((cround (a + (b - a) * (tick.slew / 10)) : Int) : Value)
                    - (a + (b - a) * (tick.slew / 10))|
                  ≤ |(m : Value) - (a + (b - a) * (tick.slew / 10))|)
            ∧ (∀ n : Int, a + (b - a) * (tick.slew / 10) = n → w = n) :=
  C15_interpolation_snap halfwaySlew hostA threeBindings unitReading [1, 2] (by decide)
    (by decide)

/-- C16: a call of `presetProcess` with the active slot none or inside the bank
does not fail and is a processing tick when the divider fires and a slot is
active; in every processing tick with slew output `s` the output voltage is: in
mode ENV `0` if `s = 10` and `s` otherwise; in mode GATE `10` if `s ≠ 10` and `0`
if `s = 10`; in mode EOC `10` if the pulse generator, as the end-of-cycle test of
this tick left it, has time remaining and `0` otherwise (so `10` in the tick
that triggers the pulse, and otherwise decided by the generator alone), with
no other use of `s`. -/
theorem C16_aux_output (slew : SlewStep) (eng : Engine) (s : TransitModule)
    (a : ProcessReading) (hact : s.ActiveInBank) :
    (∃ s' log, presetProcess slew eng { s with outMode := OUTMODE.ENV } a = some (s', log)
        ∧ (s.presetProcessDivider.process.1 = true → s.preset ≠ -1 →
            ∃ tick, log = some tick)
        ∧ ∀ tick, log = some tick →
            tick.output = some (if tick.slew = 10 then 0 else tick.slew))
      ∧ (∃ s' log, presetProcess slew eng { s with outMode := OUTMODE.GATE } a = some (s', log)
        ∧ (s.presetProcessDivider.process.1 = true → s.preset ≠ -1 →
            ∃ tick, log = some tick)
        ∧ ∀ tick, log = some tick →
            tick.output = some (if tick.slew ≠ 10 then 10 else 0))
      ∧ (∃ s' log, presetProcess slew eng { s with outMode := OUTMODE.EOC } a = some (s', log)
        ∧ (s.presetProcessDivider.process.1 = true → s.preset ≠ -1 →
            ∃ tick, log = some tick)
        ∧ ∀ tick, log = some tick →
            tick.output = some (if (if tick.eocTrigger = true
                  then s.outEocPulseGenerator.trigger (1 / 1000)
                  else s.outEocPulseGenerator).remaining > 0 then 10 else 0)
            ∧ (tick.eocTrigger = true → tick.output = some 10)
            ∧ (tick.eocTrigger = false →
                tick.output
                  = some (if s.outEocPulseGenerator.remaining > 0 then 10 else 0))) := by
  refine ⟨?_, ?_, ?_⟩
  · obtain ⟨s', log, e, hfire, h⟩ :=
      aux_output_of_mode slew eng { s with outMode := OUTMODE.ENV } a hact
    exact ⟨s', log, e, hfire, fun tick ht => (h tick ht).1 rfl⟩
  · obtain ⟨s', log, e, hfire, h⟩ :=
      aux_output_of_mode slew eng { s with outMode := OUTMODE.GATE } a hact
    exact ⟨s', log, e, hfire, fun tick ht => (h tick ht).2.1 rfl⟩
  · obtain ⟨s', log, e, hfire, h⟩ :=
      aux_output_of_mode slew eng { s with outMode := OUTMODE.EOC } a hact
    exact ⟨s', log, e, hfire, fun tick ht => (h tick ht).2.2 rfl⟩

/-- C16 at the module with three bindings, whose divider fires at every call. -/
theorem C16_aux_output_witness :
    (∃ s' log, presetProcess instantSlew hostA { threeBindings with outMode := OUTMODE.ENV }
          unitReading = some (s', log)
        ∧ (threeBindings.presetProcessDivider.process.1 = true → threeBindings.preset ≠ -1 →
            ∃ tick, log = some tick)
        ∧ ∀ tick, log = some tick →
            tick.output = some (if tick.slew = 10 then 0 else tick.slew))
      ∧ (∃ s' log, presetProcess instantSlew hostA { threeBindings with outMode := OUTMODE.GATE }
          unitReading = some (s', log)
        ∧ (threeBindings.presetProcessDivider.process.1 = true → threeBindings.preset ≠ -1 →
            ∃ tick, log = some tick)
        ∧ ∀ tick, log = some tick →
            tick.output = some (if tick.slew ≠ 10 then 10 else 0))
      ∧ (∃ s' log, presetProcess instantSlew hostA { threeBindings with outMode := OUTMODE.EOC }
          unitReading = some (s', log)
        ∧ (threeBindings.presetProcessDivider.process.1 = true → threeBindings.preset ≠ -1 →
            ∃ tick, log = some tick)
        ∧ ∀ tick, log = some tick →
            tick.output = some (if (if tick.eocTrigger = true
                  then threeBindings.outEocPulseGenerator.trigger (1 / 1000)
                  else threeBindings.outEocPulseGenerator).remaining > 0 then 10 else 0)
            ∧ (tick.eocTrigger = true → tick.output = some 10)
            ∧ (tick.eocTrigger = false →
                tick.output
                  = some (if threeBindings.outEocPulseGenerator.remaining > 0
                      then 10 else 0))) :=
  C16_aux_output instantSlew hostA threeBindings unitReading (by decide)

/-- C17: in mode VOLT with slotCount `k`, `1 ≤ k ≤ N`: for a slot-input voltage
`v` with `0 ≤ v < 10` the slot requested is `floor(v / 10 * k)`, which lies in
`[0, k - 1]`, and the load makes it the active slot; for `v < 0` or `v ≥ 10` the
requested index is outside `[0, k)` and the state is unchanged. (Values are
exact rationals.) -/
theorem C17_volt_mapping (N : Nat) (eng : Engine) (s : TransitModule)
    (hN : s.Sized N) (hk1 : 1 ≤ s.presetCount) (hkN : s.presetCount ≤ N) :
    (∀ r : SlotReading, 0 ≤ r.voltage → r.voltage < 10 →
        processSlotInput N eng { s with slotCvMode := SLOTCVMODE.VOLT } r
          = presetLoad eng { s with slotCvMode := SLOTCVMODE.VOLT }
              ⌊r.voltage / 10 * s.presetCount⌋ false false
        ∧ 0 ≤ ⌊r.voltage / 10 * s.presetCount⌋
        ∧ ⌊r.voltage / 10 * s.presetCount⌋ ≤ s.presetCount - 1
        ∧ ∃ s', processSlotInput N eng { s with slotCvMode := SLOTCVMODE.VOLT } r = some s'
            ∧ s'.preset = ⌊r.voltage / 10 * s.presetCount⌋)
      ∧ (∀ r : SlotReading, r.voltage < 0 ∨ 10 ≤ r.voltage →
        (⌊r.voltage / 10 * s.presetCount⌋ < 0 ∨ s.presetCount ≤ ⌊r.voltage / 10 * s.presetCount⌋)
        ∧ processSlotInput N eng { s with slotCvMode := SLOTCVMODE.VOLT } r
          = some { s with slotCvMode := SLOTCVMODE.VOLT }) := by
  have hk : (0 : Value) < s.presetCount := by exact_mod_cast (by omega : (0 : Int) < s.presetCount)
  have hres : ∀ v : Value, rescale v 0 10 0 s.presetCount = v / 10 * s.presetCount := by
    intro v
    unfold rescale
    ring
  have hstep : ∀ r : SlotReading,
      processSlotInput N eng { s with slotCvMode := SLOTCVMODE.VOLT } r
        = presetLoad eng { s with slotCvMode := SLOTCVMODE.VOLT }
            ⌊r.voltage / 10 * s.presetCount⌋ false false := by
    intro r
    unfold processSlotInput
    rw [if_pos rfl]
    show presetLoad eng _ ⌊rescale r.voltage 0 10 0 s.presetCount⌋ false false = _
    rw [hres]
  refine ⟨fun r h0 h10 => ?_, fun r hout => ?_⟩
  · have hx0 : (0 : Value) ≤ r.voltage / 10 * s.presetCount :=
      mul_nonneg (div_nonneg h0 (by norm_num)) (le_of_lt hk)
    have hxk : r.voltage / 10 * s.presetCount < s.presetCount := by
      have : r.voltage / 10 < 1 := by
        rw [div_lt_one (by norm_num)]
        exact h10
      calc r.voltage / 10 * s.presetCount < 1 * s.presetCount :=
            mul_lt_mul_of_pos_right this hk
        _ = s.presetCount := one_mul _
    have hf0 : 0 ≤ ⌊r.voltage / 10 * s.presetCount⌋ := Int.floor_nonneg.mpr hx0
    have hfk : ⌊r.voltage / 10 * s.presetCount⌋ < s.presetCount := Int.floor_lt.mpr hxk
    refine ⟨hstep r, hf0, by omega, ?_⟩
    obtain ⟨s', e, hp, _⟩ := presetLoad_accept N eng { s with slotCvMode := SLOTCVMODE.VOLT }
      ⌊r.voltage / 10 * s.presetCount⌋ false hN hf0 hfk hkN
    exact ⟨s', by rw [hstep r]; exact e, hp⟩
  · have hrange : ⌊r.voltage / 10 * s.presetCount⌋ < 0
        ∨ s.presetCount ≤ ⌊r.voltage / 10 * s.presetCount⌋ := by
      rcases hout with hneg | hbig
      · left
        rw [Int.floor_lt]
        have : r.voltage / 10 < 0 := div_neg_of_neg_of_pos hneg (by norm_num)
        have := mul_neg_of_neg_of_pos this hk
        simpa using this
      · right
        rw [Int.le_floor]
        have : (1 : Value) ≤ r.voltage / 10 := by
          rw [le_div_iff₀ (by norm_num)]
          linarith
        calc (s.presetCount : Value) = 1 * s.presetCount := (one_mul _).symm
          _ ≤ r.voltage / 10 * s.presetCount := mul_le_mul_of_nonneg_right this (le_of_lt hk)
    refine ⟨hrange, ?_⟩
    rw [hstep r]
    exact presetLoad_out_of_range eng _ _ false false hrange

/-- C17 at a freshly constructed three-slot module. -/
theorem C17_volt_mapping_witness :
    (∀ r : SlotReading, 0 ≤ r.voltage → r.voltage < 10 →
        processSlotInput 3 hostA { fresh 3 with slotCvMode := SLOTCVMODE.VOLT } r
          = presetLoad hostA { fresh 3 with slotCvMode := SLOTCVMODE.VOLT }
              ⌊r.voltage / 10 * (fresh 3).presetCount⌋ false false
        ∧ 0 ≤ ⌊r.voltage / 10 * (fresh 3).presetCount⌋
        ∧ ⌊r.voltage / 10 * (fresh 3).presetCount⌋ ≤ (fresh 3).presetCount - 1
        ∧ ∃ s', processSlotInput 3 hostA { fresh 3 with slotCvMode := SLOTCVMODE.VOLT } r
              = some s'
            ∧ s'.preset = ⌊r.voltage / 10 * (fresh 3).presetCount⌋)
      ∧ (∀ r : SlotReading, r.voltage < 0 ∨ 10 ≤ r.voltage →
        (⌊r.voltage / 10 * (fresh 3).presetCount⌋ < 0
          ∨ (fresh 3).presetCount ≤ ⌊r.voltage / 10 * (fresh 3).presetCount⌋)
        ∧ processSlotInput 3 hostA { fresh 3 with slotCvMode := SLOTCVMODE.VOLT } r
          = some { fresh 3 with slotCvMode := SLOTCVMODE.VOLT }) :=
  C17_volt_mapping 3 hostA (fresh 3) (by decide) (by decide) (by decide)

/-- C18: the code departs from the claim after `dataFromJson`. A four-slot
module with slotCount set to 2 has the bounds `[0, 1]`; its document, loaded
into a freshly constructed four-slot module (bounds `[0, 3]`), gives slotCount 2
with the bounds still `[0, 3]`, and a TRIG_RANDOM trigger that draws 3 from
these bounds requests a slot outside `[0, slotCount - 1]` and is ignored. -/
theorem C18_load_keeps_old_bounds :
    (presetSetCount (fresh 4) 2).presetCount = 2
      ∧ (presetSetCount (fresh 4) 2).randDist = (0, 1)
      ∧ (fresh 4).randDist = (0, 3)
      ∧ (dataFromJson hostA 9 (fresh 4) (dataToJson 4 (presetSetCount (fresh 4) 2))).map
          (fun s => (s.presetCount, s.randDist)) = some (2, (0, 3))
      ∧ ((dataFromJson hostA 9 (fresh 4) (dataToJson 4 (presetSetCount (fresh 4) 2))).bind
          (fun s => processSlotInput 4 hostA { s with slotCvMode := SLOTCVMODE.TRIG_RANDOM }
            { voltage := 10, trigger := true, random := 3 })).map
          (fun s => s.preset) = some (-1) := by
  decide

/-- C19: the code departs from the claim. The document of a three-slot module
has three entries in `"presets"`; `dataFromJson` on a two-slot module handles
entry 2 like the others and accesses `presetSlotUsed[2]`, outside the array
(`none` in this embedding). -/
theorem C19_presets_overflow :
    (json_array_elems (json_object_get (some (dataToJson 3 armModule)) "presets")).length = 3
      ∧ (fresh 2).presetSlotUsed.length = 2 ∧ (fresh 2).presetSlot.length = 2
      ∧ (hostA.getModule 9).isSome = false
      ∧ dataFromJson hostA 9 (fresh 2) (dataToJson 3 armModule) = none := by
  decide

/-- C20: the code departs from the claim. In ping-pong mode with three slots,
after the slots 0, 1, 2, 1 (now descending) an edge on the reset input loads
slot 0 and leaves the direction at `-1`; the next accepted trigger requests
index `-1`, which is rejected, so slot 1 is not selected, and the same holds
for every later trigger. -/
theorem C20_reset_while_descending_sticks :
    descendingReset.map (fun s => (s.slotCvMode, s.presetCount, s.preset, s.slotCvModeDir))
        = some (SLOTCVMODE.TRIG_PINGPONG, 3, 0, -1)
      ∧ (descendingReset.bind (fun s => processSlotInput 3 hostA s edge)).map
          (fun s => (s.preset, s.slotCvModeDir)) = some (0, -1)
      ∧ ∀ s, descendingReset = some s →
          ∀ rs : List SlotReading, (∀ r ∈ rs, r.trigger = true) →
            processSlotInputs 3 hostA s rs = some s := by
  have h1 : descendingReset.map
      (fun s => (s.slotCvMode, s.presetCount, s.preset, s.slotCvModeDir))
      = some (SLOTCVMODE.TRIG_PINGPONG, 3, 0, -1) := by decide
  refine ⟨h1, by decide, ?_⟩
  intro s hs rs ht
  rw [hs] at h1
  simp only [Option.map_some', Option.some.injEq, Prod.mk.injEq] at h1
  obtain ⟨hm, hc, hp, hd⟩ := h1
  exact pingpong_stuck_run 3 hostA s (by rw [hc]; decide) hm hp hd rs ht

/-- C21: from the state `onReset` leaves (with `N ≥ 1` slots), every finite
sequence of calls of `presetLoad` (any index, any flags), `presetSave` and
`presetClear` (index in `[0, N)`), `presetSetCount(n)` with `1 ≤ n ≤ N`,
`bindParameter` and `onReset` runs without leaving the arrays and ends in a
state with `1 ≤ presetCount ≤ N` and `-1 ≤ preset < presetCount`. -/
theorem C21_selection_invariant (N : Nat) (s0 : TransitModule) (calls : List Call)
    (hN : 1 ≤ N) (hr : ∀ c ∈ calls, c.InRange N) :
    ∃ s, runCalls N (onReset N s0) calls = some s
      ∧ 1 ≤ s.presetCount ∧ s.presetCount ≤ N
      ∧ -1 ≤ s.preset ∧ s.preset < s.presetCount := by
  obtain ⟨s, e, _, h⟩ := runCalls_selection N hN calls (onReset N s0) hr (onReset_sized N s0)
    (by show (1 : Int) ≤ N; omega) (le_refl _) (le_refl _) (by show (-1 : Int) < N; omega)
  exact ⟨s, e, h⟩

/-- C21 for a three-slot module and a run of calls that uses each function. -/
theorem C21_selection_invariant_witness :
    ∃ s, runCalls 3 (onReset 3 zeroModule) editCalls = some s
      ∧ 1 ≤ s.presetCount ∧ s.presetCount ≤ (3 : Nat)
      ∧ -1 ≤ s.preset ∧ s.preset < s.presetCount :=
  C21_selection_invariant 3 zeroModule editCalls (by decide) (by decide)

/-- C22: the code departs from the claim. `presetClear` never assigns
`presetNext`; on a three-slot module, saving slot 0, arming it and clearing it
leaves the armed slot at 0 while slot 0 is unused, and the next trigger in
mode ARM makes the unused slot 0 the active slot. -/
theorem C22_clear_keeps_armed_slot :
    (∀ (s : TransitModule) (p : Int),
        (presetClear s p).map (fun s' => s'.presetNext)
          = (presetClear s p).map (fun _ => s.presetNext))
      ∧ (runCalls 3 (fresh 3) (clearArmed.take 2)).map
          (fun s => (s.presetNext, s.presetCount, s.presetSlotUsed))
        = some (0, 3, [true, false, false])
      ∧ (runCalls 3 (fresh 3) clearArmed).map
          (fun s => (s.presetNext, s.presetCount, s.presetSlotUsed))
        = some (0, 3, [false, false, false])
      ∧ ((runCalls 3 (fresh 3) clearArmed).bind
          (fun s => processSlotInput 3 hostA { s with slotCvMode := SLOTCVMODE.ARM } edge)).map
          (fun s => (s.preset, s.presetNext, s.presetSlotUsed))
        = some (0, -1, [false, false, false]) := by
  refine ⟨?_, by decide, by decide, by decide⟩
  intro s p
  unfold presetClear
  dsimp only
  split_ifs <;> rfl

/-- C23: the code departs from the claim. `dataToJson` writes the flag
`showSysExMsg` under the key `"showSysExData"`, so `dataFromJson` after
`dataToJson` sets `showSysExData` to the saved `showSysExMsg` (the nine other
flags and `panelTheme` are restored); the settings after `onReset` with
"SysEx Data" switched on come back with `showSysExData` off. -/
theorem C23_showSysExData_not_restored :
    (∀ m s : MidiMonModule,
        (MidiMonModule.dataFromJson s (MidiMonModule.dataToJson m)).showSysExData
          = m.showSysExMsg
        ∧ (MidiMonModule.dataFromJson s (MidiMonModule.dataToJson m)).panelTheme = m.panelTheme
        ∧ (MidiMonModule.dataFromJson s (MidiMonModule.dataToJson m)).showNoteMsg
          = m.showNoteMsg
        ∧ (MidiMonModule.dataFromJson s (MidiMonModule.dataToJson m)).showKeyPressure
          = m.showKeyPressure
        ∧ (MidiMonModule.dataFromJson s (MidiMonModule.dataToJson m)).showCcMsg = m.showCcMsg
        ∧ (MidiMonModule.dataFromJson s (MidiMonModule.dataToJson m)).showProgChangeMsg
          = m.showProgChangeMsg
        ∧ (MidiMonModule.dataFromJson s (MidiMonModule.dataToJson m)).showChannelPressurelMsg
          = m.showChannelPressurelMsg
        ∧ (MidiMonModule.dataFromJson s (MidiMonModule.dataToJson m)).showPitchWheelMsg
          = m.showPitchWheelMsg
        ∧ (MidiMonModule.dataFromJson s (MidiMonModule.dataToJson m)).showSysExMsg
          = m.showSysExMsg
        ∧ (MidiMonModule.dataFromJson s (MidiMonModule.dataToJson m)).showClockMsg
          = m.showClockMsg
        ∧ (MidiMonModule.dataFromJson s (MidiMonModule.dataToJson m)).showSystemMsg
          = m.showSystemMsg)
      ∧ sysExDataOn.showSysExMsg = false ∧ sysExDataOn.showSysExData = true
      ∧ (MidiMonModule.dataFromJson sysExDataOn
          (MidiMonModule.dataToJson sysExDataOn)).showSysExData = false := by
  refine ⟨fun m s => ?_, rfl, rfl, ?_⟩
  · rw [MidiMonModule.document_read_back]
    exact ⟨rfl, rfl, rfl, rfl, rfl, rfl, rfl, rfl, rfl, rfl, rfl⟩
  · rw [MidiMonModule.document_read_back]
    rfl

/-- C24: with `MAX_CHANNELS ≥ 1` handles, `updateMapLen` returns, keeps the
handles, and sets `mapLen = min(MAX_CHANNELS, L + 2)`, where `L` is the largest
channel index whose handle is mapped (`moduleId ≥ 0`), or `-1` when no channel
is mapped; so `1 ≤ mapLen ≤ MAX_CHANNELS`, every mapped channel index is below
`mapLen`, and when the last channel is unmapped `mapLen = L + 2`: it ends with
the one unmapped channel `L + 1` that follows the last mapped channel. -/
theorem C24_updateMapLen (MAX_CHANNELS : Nat) (s : MapModule) (hM : 1 ≤ MAX_CHANNELS)
    (hlen : s.paramHandles.length = MAX_CHANNELS) :
    ∃ (s' : MapModule) (L : Int), MapModule.updateMapLen MAX_CHANNELS s = some s'
      ∧ s'.paramHandles = s.paramHandles
      ∧ -1 ≤ L ∧ L < MAX_CHANNELS
      ∧ (0 ≤ L → ∃ h, s.paramHandles[L.toNat]? = some h ∧ 0 ≤ h.moduleId)
      ∧ (∀ (i : Nat) (h : ParamHandle), s.paramHandles[i]? = some h → 0 ≤ h.moduleId →
          (i : Int) ≤ L)
      ∧ s'.mapLen = min (MAX_CHANNELS : Int) (L + 2)
      ∧ 1 ≤ s'.mapLen ∧ s'.mapLen ≤ MAX_CHANNELS
      ∧ (∀ (i : Nat) (h : ParamHandle), s.paramHandles[i]? = some h → 0 ≤ h.moduleId →
          (i : Int) < s'.mapLen)
      ∧ (∀ h : ParamHandle, s.paramHandles[MAX_CHANNELS - 1]? = some h → h.moduleId < 0 →
          s'.mapLen = L + 2
          ∧ ∃ h', s.paramHandles[(L + 1).toNat]? = some h' ∧ h'.moduleId < 0) := by
  obtain ⟨L, e, h1, h2, h3, h4⟩ :=
    MapModule.lastNonempty_spec s.paramHandles MAX_CHANNELS (by omega)
  have hmax : ∀ (i : Nat) (h : ParamHandle), s.paramHandles[i]? = some h → 0 ≤ h.moduleId →
      (i : Int) ≤ L := by
    intro i h hget hm
    by_contra hcon
    have hi : i < MAX_CHANNELS := by
      rw [← hlen]
      by_contra hge
      rw [List.getElem?_eq_none (by omega)] at hget
      cases hget
    have := h3 i h (by omega) hi hget
    omega
  have hlast : ∀ h : ParamHandle, s.paramHandles[MAX_CHANNELS - 1]? = some h →
      h.moduleId < 0 → L + 1 < MAX_CHANNELS := by
    intro h hget hm
    by_contra hcon
    have hL : L = ((MAX_CHANNELS - 1 : Nat) : Int) := by omega
    obtain ⟨h', hget', hm'⟩ := h4 (by omega)
    rw [hL, Int.toNat_ofNat, hget] at hget'
    cases hget'
    omega
  by_cases hlt : L + 1 < (MAX_CHANNELS : Int)
  · refine ⟨{ s with mapLen := L + 1 + 1 }, L, ?_, rfl, h1, h2, h4, hmax, ?_, ?_, ?_, ?_, ?_⟩
    · unfold MapModule.updateMapLen
      rw [e]
      dsimp only
      rw [if_pos hlt]
    · show L + 1 + 1 = min (MAX_CHANNELS : Int) (L + 2)
      rw [min_eq_right (by omega)]
      omega
    · show (1 : Int) ≤ L + 1 + 1
      omega
    · show L + 1 + 1 ≤ (MAX_CHANNELS : Int)
      omega
    · intro i h hget hm
      have := hmax i h hget hm
      show (i : Int) < L + 1 + 1
      omega
    · intro h hget hm
      refine ⟨by show L + 1 + 1 = L + 2; omega, ?_⟩
      have hidx : (L + 1).toNat < s.paramHandles.length := by
        rw [hlen]; omega
      refine ⟨s.paramHandles[(L + 1).toNat], List.getElem?_eq_getElem hidx, ?_⟩
      exact h3 (L + 1).toNat _ (by omega) (by omega) (List.getElem?_eq_getElem hidx)
  · refine ⟨{ s with mapLen := L + 1 }, L, ?_, rfl, h1, h2, h4, hmax, ?_, ?_, ?_, ?_, ?_⟩
    · unfold MapModule.updateMapLen
      rw [e]
      dsimp only
      rw [if_neg hlt]
    · show L + 1 = min (MAX_CHANNELS : Int) (L + 2)
      rw [min_eq_left (by omega)]
      omega
    · show (1 : Int) ≤ L + 1
      omega
    · show L + 1 ≤ (MAX_CHANNELS : Int)
      omega
    · intro i h hget hm
      have := hmax i h hget hm
      show (i : Int) < L + 1
      omega
    · intro h hget hm
      exact absurd (hlast h hget hm) hlt

/-- C24 for three channels of which only channel 0 is mapped. -/
theorem C24_updateMapLen_witness :
    ∃ (s' : MapModule) (L : Int), MapModule.updateMapLen 3 firstMapped = some s'
      ∧ s'.paramHandles = firstMapped.paramHandles
      ∧ -1 ≤ L ∧ L < (3 : Nat)
      ∧ (0 ≤ L → ∃ h, firstMapped.paramHandles[L.toNat]? = some h ∧ 0 ≤ h.moduleId)
      ∧ (∀ (i : Nat) (h : ParamHandle), firstMapped.paramHandles[i]? = some h →
          0 ≤ h.moduleId → (i : Int) ≤ L)
      ∧ s'.mapLen = min ((3 : Nat) : Int) (L + 2)
      ∧ 1 ≤ s'.mapLen ∧ s'.mapLen ≤ (3 : Nat)
      ∧ (∀ (i : Nat) (h : ParamHandle), firstMapped.paramHandles[i]? = some h →
          0 ≤ h.moduleId → (i : Int) < s'.mapLen)
      ∧ (∀ h : ParamHandle, firstMapped.paramHandles[3 - 1]? = some h → h.moduleId < 0 →
          s'.mapLen = L + 2
          ∧ ∃ h', firstMapped.paramHandles[(L + 1).toNat]? = some h' ∧ h'.moduleId < 0) :=
  C24_updateMapLen 3 firstMapped (by decide) (by decide)

end Transit
